import Mathlib

/-!
# DwarfFortressPlanner: the grid visibility / selection / placement engine of `client.js`

A shallow embedding of the editor core of `src/client.js`:

* the cell grid `map` (an array of layers, each an array of rows, each an array of
  material codes) together with the editor globals, as an explicit `State`;
* the catalogs `MATERIALS.properties` and `MODES.properties`;
* `getCellProperties`, `cellIsExposed`, `cellIsFixedSelection`, `isCellInSelection`,
  `getSelectedCells`, `cellSelect`;
* the commands `move`, `changeLayer`, `changeMode`, `cancelSelection`, the dispatcher
  `keyDownHandler`, and `convertMapToJSON`, `saveMapToLocalStorage`,
  `loadMapFromLocalStorage` over an explicit `localStorage`;
* `createEmptyMap` and the state the editor starts in.

Conventions.  JavaScript numbers that are coordinates are `Int`; material codes are `Nat`.
The numbers of the weighted draw are doubles: a `chance` is kept as the decimal the source
writes and converted where it is used, a result of `Math.random()` is given by its value,
and each sum is rounded as IEEE 754 binary64 addition rounds it (`JsNumber`).  A function
that can raise a JavaScript `TypeError` (reading a property of `undefined`) returns
`Option` (`none` is the raised error) or, when it mutates the state, a `Completion` that
keeps the state reached when the error was raised.  Canvas drawing (`draw`) and the jQuery
label updates do not touch the editor state and are left out.
-/

set_option autoImplicit false

namespace DwarfFortressPlanner

/-! ## Values and arrays -/

/-- The value of a grid cell as JavaScript sees it: a number, or `undefined` when the
property does not exist. -/
inductive JsVal where
  | undefined
  | num (n : Nat)
  deriving DecidableEq, Repr

/-- The `character` of a display result: `null`, `undefined` (indexing a string past its
end) or a string. -/
inductive JsStr where
  | null
  | undefined
  | str (s : String)
  deriving DecidableEq, Repr

/-- An innermost array of the grid (one row of cells).  A JavaScript array is a `length`
and a set of own properties; `get k` is the value of `row[k]` for every integer key `k`
(`undefined` where there is none).  Negative keys are ordinary properties that do not
count towards `length`. -/
structure Row where
  length : Nat
  get : Int → JsVal

/-- The array holding the given cells and nothing else. -/
def Row.ofList (xs : List Nat) : Row where
  length := xs.length
  get := fun k => if 0 ≤ k then (match xs[k.toNat]? with | some v => .num v | none => .undefined)
    else .undefined

/-- The assignment `row[i] = v`: defines key `i`; a key at or past the end extends
`length` to `i + 1`, a negative key leaves `length` alone. -/
def Row.set (r : Row) (i : Int) (v : Nat) : Row where
  length := if 0 ≤ i then max r.length (i.toNat + 1) else r.length
  get := fun k => if k = i then .num v else r.get k

/-- The grid `map`: layers of rows.  Once `createEmptyMap` has built them, the two outer
arrays are never assigned to by the program (only `map[z][y][x] = v` is), so they are
plain lists. -/
abbrev Grid := List (List Row)

/-- The grid whose rows hold the given codes. -/
def Grid.ofLists (g : List (List (List Nat))) : Grid :=
  g.map (fun l => l.map Row.ofList)

/-- The element `xs[i]` of an outer array for a JavaScript index: `none` is `undefined`. -/
def index? {α : Type} (xs : List α) (i : Int) : Option α :=
  if 0 ≤ i then xs[i.toNat]? else none

/-- The read `map[layer][row][column]`.  `none`: a `TypeError` was raised because
`map[layer]` or `map[layer][row]` is `undefined`. -/
def readCell (map : Grid) (layer row column : Int) : Option JsVal :=
  match index? map layer with
  | none => none
  | some l =>
    match index? l row with
    | none => none
    | some r => some (r.get column)

/-- The write `map[layer][row][column] = v`.  `none`: a `TypeError` was raised because
`map[layer]` or `map[layer][row]` is `undefined` (nothing is written then). -/
def writeCell (map : Grid) (layer row column : Int) (v : Nat) : Option Grid :=
  match index? map layer with
  | none => none
  | some l =>
    match index? l row with
    | none => none
    | some r => some (map.set layer.toNat (l.set row.toNat (r.set column v)))

/-! ## Numbers

The arithmetic of the weighted draw is that of JavaScript Numbers, IEEE 754 binary64 with
rounding to nearest, ties to even.  A finite double is given by its value; the sign of a
zero, which no comparison sees, is not kept. -/

/-- A JavaScript Number: a finite double (by its value), an infinity, or `NaN`. -/
inductive JsNumber where
  | finite (q : ℚ)
  | infinity (negative : Bool)
  | nan
  deriving DecidableEq

/-- The number of binary digits of `n`, for `fuel` at least that number. -/
def bitLength : Nat → Nat → Nat
  | 0, _ => 0
  | fuel + 1, n => if n = 0 then 0 else bitLength fuel (n / 2) + 1

/-- Whether `a / b ≥ 2 ^ e`, for positive `a` and `b`. -/
def atLeastPow2 (a b : Nat) (e : Int) : Bool :=
  if 0 ≤ e then decide (b * 2 ^ e.toNat ≤ a) else decide (b ≤ a * 2 ^ (-e).toNat)

/-- The binary exponent of `a / b`, for positive `a` and `b`: the `e` with
`2 ^ e ≤ a / b < 2 ^ (e + 1)`. -/
def floorLog2 (a b : Nat) : Int :=
  let e : Int := (bitLength a a : Int) - (bitLength b b : Int)
  if atLeastPow2 a b e then e else e - 1

/-- The integer nearest to `n / d`, the even one of the two if `n / d` lies halfway. -/
def roundHalfEven (n d : Nat) : Nat :=
  if 2 * (n % d) < d then n / d
  else if d < 2 * (n % d) then n / d + 1
  else if n / d % 2 = 0 then n / d
  else n / d + 1

/-- The double nearest to the rational `q`, ties to even: `q` is rounded to a multiple of
`2 ^ k`, where `k` is 52 below the binary exponent of `q` (53 significant bits), and not
below -1074 (subnormal numbers); a result of magnitude `2 ^ 1024` or more is an infinity.
This is the Number value of a decimal literal, and the rounding of every arithmetic
result. -/
def toDouble (q : ℚ) : JsNumber :=
  if q = 0 then .finite 0
  else
    let a := q.num.natAbs
    let k : Int := max (floorLog2 a q.den) (-1022) - 52
    let m : Nat :=
      if 0 ≤ k then roundHalfEven a (q.den * 2 ^ k.toNat)
      else roundHalfEven (a * 2 ^ (-k).toNat) q.den
    if 0 ≤ k ∧ 2 ^ 1024 ≤ m * 2 ^ k.toNat then .infinity (decide (q < 0))
    else
      let magnitude : ℚ :=
        if 0 ≤ k then ((m * 2 ^ k.toNat : Nat) : ℚ) else (m : ℚ) / ((2 ^ (-k).toNat : Nat) : ℚ)
      .finite (if q < 0 then -magnitude else magnitude)

/-- The operator `+` on Numbers: the exact sum of two finite doubles, rounded. -/
def JsNumber.add : JsNumber → JsNumber → JsNumber
  | .finite a, .finite b => toDouble (a + b)
  | .finite _, .infinity s => .infinity s
  | .infinity s, .finite _ => .infinity s
  | .infinity s, .infinity t => if s = t then .infinity s else .nan
  | .nan, _ => .nan
  | _, .nan => .nan

/-- The operator `<=` on Numbers; every comparison with `NaN` is false. -/
def JsNumber.le : JsNumber → JsNumber → Bool
  | .finite a, .finite b => decide (a ≤ b)
  | .finite _, .infinity negative => !negative
  | .infinity negative, .finite _ => negative
  | .infinity s, .infinity t => s || !t
  | .nan, _ => false
  | _, .nan => false

/-! ## Catalogs -/

/-- An entry of `MATERIALS.properties`. -/
structure MaterialProps where
  text : String
  color : String
  display : String
  character : Option String

namespace MATERIALS

def EMPTY : Nat := 0

def FLOOR : Nat := 1

def STONE : Nat := 2

def RAMP : Nat := 7

/-- The table `MATERIALS.properties` (`none`: no such key). `String.fromCharCode` values are
written as the characters they denote. -/
def properties : Nat → Option MaterialProps
  | 0 => some { text := "empty", color := "#000000", display := "standard", character := none }
  | 1 => some { text := "floor", color := "#d3d3d3", display := "standard",
                character := some (String.singleton (Char.ofNat 8901)) }
  | 2 => some { text := "wall", color := "#8c8c8c", display := "standard", character := none }
  | 3 => some { text := "grass", color := "#4fa862", display := "standard",
                character := some (String.singleton (Char.ofNat 8901)) }
  | 4 => some { text := "grass", color := "#4fa862", display := "standard", character := some "," }
  | 5 => some { text := "grass", color := "#4fa862", display := "standard",
                character := some (String.singleton (Char.ofNat 9827)) }
  | 6 => some { text := "door", color := "#8c8c8c", display := "standard",
                character := some (String.singleton (Char.ofNat 43)) }
  | 7 => some { text := "ramp", color := "#8c8c8c", display := "elevation",
                character := some (String.singleton (Char.ofNat 9650) ++
                                   String.singleton (Char.ofNat 9660)) }
  | 8 => some { text := "stairs", color := "#8c8c8c", display := "standard", character := some "X" }
  | 9 => some { text := "farm", color := "#cdd100", display := "standard",
                character := some (String.singleton (Char.ofNat 8776)) }
  | 10 => some { text := "table", color := "#966d37", display := "standard",
                 character := some (String.singleton (Char.ofNat 9572)) }
  | 11 => some { text := "water", color := "#6d7eff", display := "standard",
                 character := some (String.singleton (Char.ofNat 8776)) }
  | 12 => some { text := "carpenter", color := "#000000", display := "standard", character := none }
  | 13 => some { text := "carpenter", color := "#cdd100", display := "standard",
                 character := some (String.singleton (Char.ofNat 34)) }
  | 14 => some { text := "carpenter", color := "#cdd100", display := "standard", character := some "=" }
  | 15 => some { text := "carpenter", color := "#cdd100", display := "standard", character := none }
  | 16 => some { text := "carpenter", color := "#000000", display := "standard", character := none }
  | 17 => some { text := "carpenter", color := "#000000", display := "standard", character := none }
  | 18 => some { text := "carpenter", color := "#cdd100", display := "standard", character := none }
  | 19 => some { text := "carpenter", color := "#cdd100", display := "standard", character := some "]" }
  | 20 => some { text := "carpenter", color := "#cdd100", display := "standard", character := none }
  | 21 => some { text := "trade depot", color := "#cdd100", display := "standard", character := some "0" }
  | 22 => some { text := "trade depot", color := "#cdd100", display := "standard", character := none }
  | _ => none

end MATERIALS

/-- One entry of a mode's `materials` recipe; `chance` is the decimal written in the
source, whose Number value is `toDouble chance`. -/
structure ModeMaterial where
  value : Nat
  chance : ℚ

/-- The `selection` record of a mode; `width` and `height` are `null` (`none`) for the
modes that are not of fixed style. -/
structure Selection where
  style : String
  width : Option Int
  height : Option Int

/-- An entry of `MODES.properties`. -/
structure Mode where
  text : String
  materials : List ModeMaterial
  selection : Selection

/-- The number a nullable numeric field stands for in arithmetic and comparisons
(`null` converts to `0`). -/
def toNumber (v : Option Int) : Int := v.getD 0

namespace MODES

/-- The `selection` record shared by the free-style modes. -/
def freeSelection : Selection := { style := "free", width := none, height := none }

/-- A recipe entry `{value: v, chance: 1.0}`. -/
def sure (v : Nat) : ModeMaterial := { value := v, chance := 1 }

/-- The recipe of "Place Grass": GRASS-1, GRASS-2, GRASS-3 with chances 0.83, 0.15, 0.02. -/
def grassRecipe : List ModeMaterial :=
  [{ value := 3, chance := 83 / 100 }, { value := 4, chance := 15 / 100 },
   { value := 5, chance := 2 / 100 }]

/-- The recipe of "Place Workshop": the nine CARPENTER tiles, row by row. -/
def workshopRecipe : List ModeMaterial :=
  [sure 12, sure 13, sure 14,
   sure 15, sure 16, sure 17,
   sure 18, sure 19, sure 20]

/-- The recipe of "Place Trade Depot": TRADING-CIRCLE (21) and TRADING-SOLID (22) tiles,
row by row. -/
def tradeDepotRecipe : List ModeMaterial :=
  [sure 21, sure 22, sure 22, sure 22, sure 21,
   sure 22, sure 22, sure 22, sure 22, sure 22,
   sure 22, sure 22, sure 21, sure 22, sure 22,
   sure 22, sure 22, sure 22, sure 22, sure 22,
   sure 21, sure 22, sure 22, sure 22, sure 21]

/-- The table `MODES.properties` (`none`: no such key). -/
def properties : Nat → Option Mode
  | 0 => some { text := "Dig Flooring", materials := [sure 1], selection := freeSelection }
  | 1 => some { text := "Make Empty", materials := [sure 0], selection := freeSelection }
  | 2 => some { text := "Place Wall", materials := [sure 2], selection := freeSelection }
  | 3 => some { text := "Place Door", materials := [sure 6], selection := freeSelection }
  | 4 => some { text := "Place Up Ramp", materials := [sure 7], selection := freeSelection }
  | 5 => some { text := "Place Stairs", materials := [sure 8], selection := freeSelection }
  | 6 => some { text := "Place Farm Plot", materials := [sure 9], selection := freeSelection }
  | 7 => some { text := "Place Table", materials := [sure 10], selection := freeSelection }
  | 8 => some { text := "Place Water", materials := [sure 11], selection := freeSelection }
  | 9 => some { text := "Place Grass", materials := grassRecipe, selection := freeSelection }
  | 10 => some { text := "Place Workshop", materials := workshopRecipe,
                 selection := { style := "fixed", width := some 3, height := some 3 } }
  | 11 => some { text := "Place Trade Depot", materials := tradeDepotRecipe,
                 selection := { style := "fixed", width := some 5, height := some 5 } }
  | 12 => some { text := "Copy Cells", materials := [],
                 selection := { style := "copy", width := none, height := none } }
  | _ => none

end MODES

/-! ## Editor state -/

/-- The mutable globals of the editor (`CONFIG`, `GAME DATA`, `GAME STATE`). -/
structure State where
  layers : Int
  layerColumns : Int
  layerRows : Int
  map : Grid
  selectedMode : Nat
  controlsActive : Bool
  mapOffsetX : Int
  mapOffsetY : Int
  viewColumns : Int
  viewRows : Int
  selectedCellX : Int
  selectedCellY : Int
  selectedSourceCellX : Int
  selectedSourceCellY : Int
  selectionInProgress : Bool
  copyCompleted : Bool
  copyBuffer : List (List Nat)
  selectedLayer : Int
  selectedSourceLayer : Int

/-- The configuration constant `transparencyDisplayLimit`. -/
def transparencyDisplayLimit : Nat := 5

/-- How a state-mutating function ends: normally, or by a raised `TypeError`; either way
with the state (or grid) it has reached. -/
inductive Completion (σ : Type) where
  | normal (s : σ)
  | typeError (s : σ)

/-! ## Visibility -/

/-- The display result `{color, display, character}` of `getCellProperties`. -/
structure Properties where
  color : String
  display : String
  character : JsStr
  deriving DecidableEq, Repr

/-- The initial `properties` object of `getCellProperties`: nothing to draw. -/
def nothingToDraw : Properties := { color := "", display := "none", character := .null }

/-- The JavaScript indexing `s[i]` of a string: a one-character string, or `undefined`
past the end.  (Every glyph of the catalog lies in the Basic Multilingual Plane, where a
character is one UTF-16 unit, so positions and lengths are counted in characters.) -/
def charAt (s : String) (i : Nat) : JsStr :=
  match s.data[i]? with
  | some c => .str (String.singleton c)
  | none => .undefined

/-- One test of `cellIsExposed`: `if (guard && map[layer][r][c] !== STONE) return true;`
followed by the rest of the function. -/
def checkNeighbour (map : Grid) (layer r c : Int) (guard : Bool) (rest : Option Bool) :
    Option Bool :=
  if guard then
    match readCell map layer r c with
    | none => none
    | some v => if v ≠ .num MATERIALS.STONE then some true else rest
  else rest

/-- The function `cellIsExposed(layer, column, row)`: a stone cell is exposed if any of its
adjacent cells of the same layer is not stone. -/
def cellIsExposed (st : State) (layer column row : Int) : Option Bool :=
  let up : Bool := decide (row > 0)
  let down : Bool := decide (row < st.layerRows - 1)
  let rightColumn : Option Bool :=
    if column < st.layerColumns - 1 then
      checkNeighbour st.map layer (row - 1) (column + 1) up <|
      checkNeighbour st.map layer row (column + 1) true <|
      checkNeighbour st.map layer (row + 1) (column + 1) down <|
      some false
    else some false
  let centerColumn : Option Bool :=
    checkNeighbour st.map layer (row - 1) column up <|
    checkNeighbour st.map layer (row + 1) column down <|
    rightColumn
  if column > 0 then
    checkNeighbour st.map layer (row - 1) (column - 1) up <|
    checkNeighbour st.map layer row (column - 1) true <|
    checkNeighbour st.map layer (row + 1) (column - 1) down <|
    centerColumn
  else centerColumn

/-- The block "Elevation color adjustment" that ends `getCellProperties`. -/
def elevationColorAdjustment (lowerLayerCounter : Nat) (properties : Properties) : Properties :=
  if properties.display ≠ "none" then
    if lowerLayerCounter > 0 ∧ properties.color ≠ "" then
      { properties with color := properties.color ++ "77" }
    else if properties.color.length < 8 then
      { properties with color := properties.color ++ "ff" }
    else properties
  else properties

/-- The last branch of `getCellProperties` (a value that is neither STONE nor EMPTY):
copy the descriptor and choose the glyph.  `none`: `MATERIALS.properties[value]` is
`undefined`, or the `length` of a `null` character was read. -/
def ordinaryProperties (value : JsVal) (lowerLayerCounter : Nat) : Option Properties :=
  match value with
  | .undefined => none
  | .num code =>
    match MATERIALS.properties code with
    | none => none
    | some m =>
      if lowerLayerCounter > 0 ∧ m.display = "elevation" then
        match m.character with
        | none => none
        | some s =>
          if s.length = 2 then
            some { color := m.color, display := m.display, character := charAt s 1 }
          else some { color := m.color, display := m.display, character := .str s }
      else
        some { color := m.color, display := m.display,
               character := match m.character with
                 | some s => charAt s 0
                 | none => .null }

/-- The STONE branch of `getCellProperties`: the stone descriptor if the cell is exposed,
nothing to draw otherwise. -/
def stoneProperties (exposed : Bool) : Option Properties :=
  if exposed then
    match MATERIALS.properties MATERIALS.STONE with
    | none => none
    | some m =>
      some { color := m.color, display := m.display,
             character := match m.character with
               | some s => .str s
               | none => .null }
  else some nothingToDraw

/-- The function `getCellProperties(layer, column, row, value, lowerLayerCounter)`; the
entry call passes no counter, which is `lowerLayerCounter = 0`.  `none`: a `TypeError`. -/
def getCellProperties (st : State) (layer column row : Int) (value : JsVal)
    (lowerLayerCounter : Nat) : Option Properties :=
  if lowerLayerCounter > transparencyDisplayLimit then some nothingToDraw
  else if value = .num MATERIALS.STONE then
    match cellIsExposed st layer column row with
    | none => none
    | some exposed => (stoneProperties exposed).map (elevationColorAdjustment lowerLayerCounter)
  else if value = .num MATERIALS.EMPTY then
    if layer > 0 then
      match readCell st.map (layer - 1) row column with
      | none => none
      | some valueBelow =>
        (getCellProperties st (layer - 1) column row valueBelow (lowerLayerCounter + 1)).map
          (elevationColorAdjustment lowerLayerCounter)
    else some (elevationColorAdjustment lowerLayerCounter nothingToDraw)
  else
    (ordinaryProperties value lowerLayerCounter).map (elevationColorAdjustment lowerLayerCounter)
termination_by layer.toNat
decreasing_by omega

/-! ## Selection geometry -/

/-- The number of footprint cells that precede the cursor along one axis: the computation
of `preCursorColumns` (from `width`) and `preCursorRows` (from `height`) that
`cellIsFixedSelection` and `cellSelect` both perform.  `Math.floor` of a half is the
integer division by two. -/
def preCursor (d : Int) : Int :=
  if d > 1 then
    if d % 2 = 0 then d / 2 - 1 else d / 2
  else 0

/-- The function `cellIsFixedSelection(column, row, width, height)`. -/
def cellIsFixedSelection (st : State) (column row : Int) (width height : Option Int) : Bool :=
  if column = st.selectedCellX ∧ row = st.selectedCellY then false
  else
    let preCursorColumns := preCursor (toNumber width)
    let preCursorRows := preCursor (toNumber height)
    if column ≥ st.selectedCellX - preCursorColumns ∧
       column ≤ st.selectedCellX - preCursorColumns + toNumber width - 1 ∧
       row ≥ st.selectedCellY - preCursorRows ∧
       row ≤ st.selectedCellY - preCursorRows + toNumber height - 1 then true
    else false

/-- A cell `{x, y, z}` as pushed by `getSelectedCells`: column, row, layer. -/
structure Cell where
  x : Int
  y : Int
  z : Int
  deriving DecidableEq, Repr

/-- The values taken by the loop variable of
`for (o = 0; Math.abs(o) <= Math.abs(delta); o += 1 * sign)` where `sign` is
`Math.sign(delta)` replaced by `1` when it is `0`: the variable is `k * sign` after `k`
rounds, of absolute value `k`, so the rounds are `k = 0, ..., |delta|`. -/
def loopOffsets (delta : Int) : List Int :=
  let sign := if Int.sign delta = 0 then 1 else Int.sign delta
  (List.range (Int.natAbs delta + 1)).map (fun (k : Nat) => (k : Int) * sign)

/-- The function `getSelectedCells()`.  `none`: `MODES.properties[selectedMode]` is
`undefined`. -/
def getSelectedCells (MODES : Nat → Option Mode) (st : State) : Option (List Cell) :=
  match MODES st.selectedMode with
  | none => none
  | some mode =>
    if mode.selection.style = "fixed" then
      some (
        (if st.selectedCellX > 0 ∧ st.selectedCellY > 0 then
          [{ x := st.selectedCellX - 1, y := st.selectedCellY - 1, z := st.selectedLayer }]
         else []) ++
        (if st.selectedCellY > 0 then
          [{ x := st.selectedCellX, y := st.selectedCellY - 1, z := st.selectedLayer },
           { x := st.selectedCellX + 1, y := st.selectedCellY - 1, z := st.selectedLayer }]
         else []) ++
        (if st.selectedCellX > 0 then
          [{ x := st.selectedCellX - 1, y := st.selectedCellY, z := st.selectedLayer }]
         else []) ++
        [{ x := st.selectedCellX, y := st.selectedCellY, z := st.selectedLayer }] ++
        (if st.selectedCellX < st.layerColumns then
          [{ x := st.selectedCellX + 1, y := st.selectedCellY, z := st.selectedLayer }]
         else []) ++
        (if st.selectedCellX > 0 ∧ st.selectedCellY < st.layerRows then
          [{ x := st.selectedCellX - 1, y := st.selectedCellY + 1, z := st.selectedLayer }]
         else []) ++
        (if st.selectedCellY < st.layerRows then
          [{ x := st.selectedCellX, y := st.selectedCellY + 1, z := st.selectedLayer }]
         else []) ++
        (if st.selectedCellX < st.layerColumns ∧ st.selectedCellY < st.layerRows then
          [{ x := st.selectedCellX + 1, y := st.selectedCellY + 1, z := st.selectedLayer }]
         else []))
    else
      let deltaZ := st.selectedLayer - st.selectedSourceLayer
      let deltaX := st.selectedCellX - st.selectedSourceCellX
      let deltaY := st.selectedCellY - st.selectedSourceCellY
      some ((loopOffsets deltaZ).flatMap fun layerOffset =>
        (loopOffsets deltaX).flatMap fun xOffset =>
          (loopOffsets deltaY).map fun yOffset =>
            { x := st.selectedSourceCellX + xOffset,
              y := st.selectedSourceCellY + yOffset,
              z := st.selectedSourceLayer + layerOffset })

/-! ## Placement -/

/-- Running a loop body over the successive items, threading the loop state; a raised
`TypeError` ends the loop with the state reached. -/
def forEachC {α σ : Type} (body : α → σ → Completion σ) : List α → σ → Completion σ
  | [], s => .normal s
  | a :: rest, s =>
    match body a s with
    | .normal s' => forEachC body rest s'
    | .typeError s' => .typeError s'

/-- The weighted draw of the free-style commit:
`for (i = 0; i < materialCount; i++) { sum += materials[i].chance; if (r <= sum) ... break }`
on the entries still to visit, `sum` being a double and each `+=` a double addition.
`none`: the loop ended without a choice (`material` stays `undefined`). -/
def pickMaterial : List ModeMaterial → JsNumber → ℚ → Option ModeMaterial
  | [], _, _ => none
  | m :: rest, sum, r =>
    if JsNumber.le (.finite r) (sum.add (toDouble m.chance)) = true then some m
    else pickMaterial rest (sum.add (toDouble m.chance)) r

/-- The material chosen for one cell of a free-style commit, `r` being the value that
`Math.random()` returns if it is called. -/
def chooseMaterial (materials : List ModeMaterial) (r : ℚ) : Option ModeMaterial :=
  if materials.length > 1 then pickMaterial materials (.finite 0) r else materials[0]?

/-- The callback of `selectedCells.forEach` in the free-style commit.  The loop state is
the grid and the number of cells already visited; `random k` is the value `Math.random()`
returns for the cell visited after `k` others. -/
def placeMaterial (materials : List ModeMaterial) (random : Nat → ℚ) (c : Cell)
    (s : Grid × Nat) : Completion (Grid × Nat) :=
  match chooseMaterial materials (random s.2) with
  | none => .typeError s
  | some material =>
    match writeCell s.1 c.z c.y c.x material.value with
    | none => .typeError s
    | some map => .normal (map, s.2 + 1)

/-- The body of the inner loop of the fixed-style commit, for loop variables `row` and
`column`; the loop state is the grid and `materialIndex`. -/
def placeFixed (st : State) (materials : List ModeMaterial) (preCursorColumns preCursorRows : Int)
    (row column : Nat) (s : Grid × Nat) : Completion (Grid × Nat) :=
  let x := st.selectedCellX - preCursorColumns + column
  let y := st.selectedCellY - preCursorRows + row
  if s.2 ≤ materials.length then
    match materials[s.2]? with
    | none => .typeError s
    | some material =>
      match writeCell s.1 st.selectedLayer y x material.value with
      | none => .typeError s
      | some map => .normal (map, s.2 + 1)
  else .normal (s.1, s.2 + 1)

/-- The fixed-style branch of `cellSelect`: the two nested loops over the footprint. -/
def fixedCommit (st : State) (mode : Mode) : Completion (Grid × Nat) :=
  let width := toNumber mode.selection.width
  let height := toNumber mode.selection.height
  let preCursorColumns := preCursor width
  let preCursorRows := preCursor height
  forEachC (fun row =>
      forEachC (placeFixed st mode.materials preCursorColumns preCursorRows row)
        (List.range width.toNat))
    (List.range height.toNat) (st.map, 0)

/-- The function `cellSelect()`, for the catalog `MODES` and the values `random` that
`Math.random()` returns: the state it leaves when it reaches its closing `draw()` call
(`normal`) or when a `TypeError` is raised before that. -/
def cellSelect (MODES : Nat → Option Mode) (random : Nat → ℚ) (st : State) : Completion State :=
  let st1 : State :=
    if st.selectionInProgress then st
    else { st with selectedSourceCellX := st.selectedCellX,
                   selectedSourceCellY := st.selectedCellY,
                   selectedSourceLayer := st.selectedLayer }
  match MODES st.selectedMode with
  | none => .typeError st1
  | some modeProperty =>
    if st.selectionInProgress = false ∧
       (modeProperty.selection.style = "free" ∨ modeProperty.selection.style = "copy") then
      .normal { st1 with selectionInProgress := true }
    else if modeProperty.selection.style = "free" then
      match getSelectedCells MODES st1 with
      | none => .typeError st1
      | some selectedCells =>
        match forEachC (placeMaterial modeProperty.materials random) selectedCells (st1.map, 0) with
        | .normal s => .normal { st1 with map := s.1, selectionInProgress := false }
        | .typeError s => .typeError { st1 with map := s.1 }
    else if modeProperty.selection.style = "fixed" then
      match fixedCommit st1 modeProperty with
      | .normal s => .normal { st1 with map := s.1, selectionInProgress := false }
      | .typeError s => .typeError { st1 with map := s.1 }
    else if modeProperty.selection.style = "copy" then
      if st1.copyCompleted = false then
        match getSelectedCells MODES st1 with
        | none => .typeError st1
        | some _ => .normal { st1 with copyBuffer := [[]], selectionInProgress := false }
      else .normal { st1 with selectionInProgress := false }
    else .normal { st1 with selectionInProgress := false }

/-! ## Well-formed grids -/

/-- A row of `n` cells: its length is `n` and each of its `n` cells holds a number. -/
def Row.ok (n : Int) (r : Row) : Prop :=
  (r.length : Int) = n ∧ ∀ k ∈ List.range r.length, r.get (k : Int) ≠ JsVal.undefined

instance (n : Int) (r : Row) : Decidable (Row.ok n r) := by
  unfold Row.ok; infer_instance

/-- The grid has the dimensions the globals announce: `layers` layers of `layerRows` rows
of `layerColumns` cells. -/
def GridOk (st : State) : Prop :=
  (st.map.length : Int) = st.layers ∧
  ∀ l ∈ st.map, (l.length : Int) = st.layerRows ∧ ∀ r ∈ l, Row.ok st.layerColumns r

instance (st : State) : Decidable (GridOk st) := by
  unfold GridOk; infer_instance

/-- The coordinate is inside the grid. -/
def InBounds (st : State) (layer column row : Int) : Prop :=
  0 ≤ layer ∧ layer < st.layers ∧ 0 ≤ column ∧ column < st.layerColumns ∧
  0 ≤ row ∧ row < st.layerRows

instance (st : State) (layer column row : Int) : Decidable (InBounds st layer column row) := by
  unfold InBounds; infer_instance

/-- A state for examples: the grid holding the given codes, whose layers have `rows` rows of
`columns` cells, the mode of the given key, the cursor `(cx, cy, cl)` (column, row, layer)
and the anchor `(sx, sy, sl)`. -/
def exampleState (g : List (List (List Nat))) (rows columns : Int) (mode : Nat)
    (cx cy cl sx sy sl : Int) (inProgress : Bool) : State where
  layers := g.length
  layerColumns := columns
  layerRows := rows
  map := Grid.ofLists g
  selectedMode := mode
  controlsActive := true
  mapOffsetX := 0
  mapOffsetY := 0
  viewColumns := 0
  viewRows := 0
  selectedCellX := cx
  selectedCellY := cy
  selectedSourceCellX := sx
  selectedSourceCellY := sy
  selectionInProgress := inProgress
  copyCompleted := false
  copyBuffer := []
  selectedLayer := cl
  selectedSourceLayer := sl

/-! ## Specification-side definitions -/

/-- The dimensions of the two outer arrays of a grid: `L` layers of `R` rows. -/
def GridDims (map : Grid) (L R : Int) : Prop :=
  (map.length : Int) = L ∧ ∀ l ∈ map, (l.length : Int) = R

instance (map : Grid) (L R : Int) : Decidable (GridDims map L R) := by
  unfold GridDims; infer_instance

/-- The exposure rule in the words of the specification: some offset `(dr, dc)` of the
3 by 3 neighbourhood other than `(0, 0)` leads to a cell inside the grid whose value is
not STONE. -/
def ExposedSpec (st : State) (layer column row : Int) : Prop :=
  ∃ dr ∈ ([-1, 0, 1] : List Int), ∃ dc ∈ ([-1, 0, 1] : List Int), ¬(dr = 0 ∧ dc = 0) ∧
    0 ≤ row + dr ∧ row + dr < st.layerRows ∧ 0 ≤ column + dc ∧ column + dc < st.layerColumns ∧
    readCell st.map layer (row + dr) (column + dc) ≠ some (.num MATERIALS.STONE)

instance (st : State) (layer column row : Int) : Decidable (ExposedSpec st layer column row) := by
  unfold ExposedSpec; infer_instance

/-- The glyph the specification asks for when material descriptor `m` is found at peek
depth `d`: the second glyph when `m` is of elevation style and `d > 0`, the first glyph
otherwise, `null` when `m` has no glyph. -/
def specGlyph (m : MaterialProps) (d : Nat) : JsStr :=
  match m.character with
  | none => .null
  | some s => if m.display = "elevation" ∧ 0 < d then charAt s 1 else charAt s 0

/-- The sum of the first `n` weights of a recipe, in exact arithmetic. -/
def cumulativeChance (materials : List ModeMaterial) (n : Nat) : ℚ :=
  ((materials.take n).map (fun m => m.chance)).sum

/-- The total of the first `n` weights of a recipe when they are added one after the
other to the double `sum`, every addition rounded. -/
def runningTotalFrom (sum : JsNumber) (materials : List ModeMaterial) (n : Nat) : JsNumber :=
  ((materials.take n).map (fun m => toDouble m.chance)).foldl JsNumber.add sum

/-- The running total of the first `n` weights of a recipe: they are added one after the
other in double arithmetic, starting from 0. -/
def runningTotal (materials : List ModeMaterial) (n : Nat) : JsNumber :=
  runningTotalFrom (.finite 0) materials n

/-- Every draw below 1 finds a material: the recipe has a single entry, which is taken
without a draw, or it has more and the running total of all its weights is 1 or more. -/
def RecipeCoversDraws (materials : List ModeMaterial) : Prop :=
  materials.length = 1 ∨
  (2 ≤ materials.length ∧
    JsNumber.le (.finite 1) (runningTotal materials materials.length) = true)

/-- The centring rule in the words of the specification: the number of footprint cells
that precede the cursor along an axis of size `d` is `floor(d/2) - 1` if `d` is even and
`d > 1`, and `floor(d/2)` otherwise. -/
def specPre (d : Int) : Int :=
  if d % 2 = 0 ∧ d > 1 then d / 2 - 1 else d / 2

/-- The footprint of a fixed-style mode in the words of the specification: the columns
from `cx - pre(w)` to `cx - pre(w) + w - 1` and the rows from `cy - pre(h)` to
`cy - pre(h) + h - 1`, for the cursor `(cx, cy)`. -/
def InFootprintSpec (cx cy w h column row : Int) : Prop :=
  cx - specPre w ≤ column ∧ column ≤ cx - specPre w + w - 1 ∧
  cy - specPre h ≤ row ∧ row ≤ cy - specPre h + h - 1

instance (cx cy w h column row : Int) : Decidable (InFootprintSpec cx cy w h column row) := by
  unfold InFootprintSpec; infer_instance

/-- The editor as it starts (30 layers of 200 by 200 stone cells, viewing layer 15), after
the key P (mode "Place Trade Depot") and cursor moves to column 10, row 10. -/
def tradeDepotState : State :=
  exampleState (List.replicate 30 (List.replicate 200 (List.replicate 200 2))) 200 200 11
    10 10 15 0 0 15 false

/-! ## Cursor, layer and mode commands -/

namespace DIRECTIONS

def UP : Nat := 0

def LEFT : Nat := 1

def DOWN : Nat := 2

def RIGHT : Nat := 3

end DIRECTIONS

/-- The function `setMapOffsets()`: scroll the view so that it contains the cursor. -/
def setMapOffsets (st : State) : State :=
  let st1 : State :=
    if st.selectedCellX > st.viewColumns + st.mapOffsetX then
      { st with mapOffsetX := st.selectedCellX - st.viewColumns }
    else st
  let st2 : State :=
    if st1.selectedCellX < st1.mapOffsetX then { st1 with mapOffsetX := st1.selectedCellX }
    else st1
  let st3 : State :=
    if st2.selectedCellY > st2.viewRows + st2.mapOffsetY then
      { st2 with mapOffsetY := st2.selectedCellY - st2.viewRows }
    else st2
  if st3.selectedCellY < st3.mapOffsetY then { st3 with mapOffsetY := st3.selectedCellY }
  else st3

/-- The function `move(dir)`; a `dir` that is no direction matches no `case`. -/
def move (dir : Nat) (st : State) : State :=
  if dir = DIRECTIONS.UP then
    setMapOffsets { st with selectedCellY :=
      if st.selectedCellY > 0 then st.selectedCellY - 1 else st.selectedCellY }
  else if dir = DIRECTIONS.LEFT then
    setMapOffsets { st with selectedCellX :=
      if st.selectedCellX > 0 then st.selectedCellX - 1 else st.selectedCellX }
  else if dir = DIRECTIONS.DOWN then
    setMapOffsets { st with selectedCellY :=
      if st.selectedCellY < st.layerRows - 1 then st.selectedCellY + 1 else st.selectedCellY }
  else if dir = DIRECTIONS.RIGHT then
    setMapOffsets { st with selectedCellX :=
      if st.selectedCellX < st.layerColumns - 1 then st.selectedCellX + 1 else st.selectedCellX }
  else st

/-- The function `changeLayer(layer)` (the two label updates and `draw()` left out). -/
def changeLayer (layer : Int) (st : State) : State :=
  { st with selectedLayer := layer }

/-- The function `changeMode(mode)`.  A `TypeError` is raised when the old or the new mode
has no entry in the catalog; in the second case `selectedMode` is already assigned. -/
def changeMode (MODES : Nat → Option Mode) (mode : Nat) (st : State) : Completion State :=
  match MODES st.selectedMode with
  | none => .typeError st
  | some previous =>
    match MODES mode with
    | none => .typeError { st with selectedMode := mode }
    | some current =>
      if current.selection.style ≠ previous.selection.style then
        .normal { st with selectedMode := mode, selectionInProgress := false }
      else .normal { st with selectedMode := mode }

/-- The function `cancelSelection()`. -/
def cancelSelection (st : State) : State :=
  if st.selectionInProgress then { st with selectionInProgress := false } else st

/-- The state a command ends with, raised error or not. -/
def Completion.state {σ : Type} : Completion σ → σ
  | .normal s => s
  | .typeError s => s

/-- Whether a command ended by a raised `TypeError`. -/
def Completion.raised {σ : Type} : Completion σ → Bool
  | .normal _ => false
  | .typeError _ => true

/-- The `length` of the row array `map[layer][row]` (`none`: there is no such row). -/
def rowLength (map : Grid) (layer row : Int) : Option Nat :=
  match index? map layer with
  | none => none
  | some l => (index? l row).map (fun r => r.length)

/-- A command that reshapes a selection in progress: a cursor move or a change of layer. -/
inductive Reshape where
  | move (dir : Nat)
  | changeLayer (layer : Int)

/-- Running one reshaping command. -/
def Reshape.run (st : State) : Reshape → State
  | .move dir => DwarfFortressPlanner.move dir st
  | .changeLayer layer => DwarfFortressPlanner.changeLayer layer st

/-! ## Visibility, with the recursion depth made visible -/

/-- The function `getCellProperties` again, returning next to its result the length of the
chain of nested recursive calls made below this call. -/
def getCellPropertiesTraced (st : State) (layer column row : Int) (value : JsVal)
    (lowerLayerCounter : Nat) : Option Properties × Nat :=
  if lowerLayerCounter > transparencyDisplayLimit then (some nothingToDraw, 0)
  else if value = .num MATERIALS.STONE then
    match cellIsExposed st layer column row with
    | none => (none, 0)
    | some exposed =>
      ((stoneProperties exposed).map (elevationColorAdjustment lowerLayerCounter), 0)
  else if value = .num MATERIALS.EMPTY then
    if layer > 0 then
      match readCell st.map (layer - 1) row column with
      | none => (none, 0)
      | some valueBelow =>
        let below := getCellPropertiesTraced st (layer - 1) column row valueBelow
          (lowerLayerCounter + 1)
        (below.1.map (elevationColorAdjustment lowerLayerCounter), below.2 + 1)
    else (some (elevationColorAdjustment lowerLayerCounter nothingToDraw), 0)
  else
    ((ordinaryProperties value lowerLayerCounter).map (elevationColorAdjustment lowerLayerCounter),
      0)
termination_by layer.toNat
decreasing_by omega

/-! ## Saving and loading -/

/-- The JSON text of a row array: a hole is written `null`; properties that are not
array indices are not written. -/
def Row.toJSON (r : Row) : String :=
  "[" ++ ",".intercalate ((List.range r.length).map fun (k : Nat) =>
    match r.get (k : Int) with
    | .num n => toString n
    | .undefined => "null") ++ "]"

/-- The JSON text of the grid. -/
def Grid.toJSON (map : Grid) : String :=
  "[" ++ ",".intercalate (map.map fun l =>
    "[" ++ ",".intercalate (l.map Row.toJSON) ++ "]") ++ "]"

/-- The function `convertMapToJSON()`: `JSON.stringify` of the object
`{layers, layerRows, layerColumns, map}`. -/
def convertMapToJSON (st : State) : String :=
  "\x7b\x22layers\x22:" ++ toString st.layers ++
  ",\x22layerRows\x22:" ++ toString st.layerRows ++
  ",\x22layerColumns\x22:" ++ toString st.layerColumns ++
  ",\x22map\x22:" ++ Grid.toJSON st.map ++ "\x7d"

/-- The browser's `localStorage`: it maps a key to the string stored under it, if any. -/
abbrev Storage := String → Option String

/-- The call `localStorage.setItem(name, text)`. -/
def Storage.setItem (localStorage : Storage) (name text : String) : Storage :=
  fun key => if key = name then some text else localStorage key

/-- The function `saveMapToLocalStorage(name)`. -/
def saveMapToLocalStorage (name : String) (st : State) (localStorage : Storage) : Storage :=
  localStorage.setItem name (convertMapToJSON st)

/-- The values `loadMapFromLocalStorage` can meet in `mapObject` and its properties: what
`getItem` returns (`null` or a string) and, for comparison, an object with named
properties holding numbers and a grid. -/
inductive JsValue where
  | null
  | undefined
  | string (s : String)
  | number (n : Int)
  | cells (map : Grid)
  | object (fields : List (String × JsValue))

/-- The test `v != null`: false for `null` and for `undefined`. -/
def JsValue.notNull : JsValue → Bool
  | .null => false
  | .undefined => false
  | _ => true

/-- The property read `v.name` for the names the loader uses (`layers`, `layerRows`,
`layerColumns`, `map`): an object gives its property, and a string, which has no property
of these names, gives `undefined`. -/
def JsValue.prop (v : JsValue) (name : String) : JsValue :=
  match v with
  | .object fields => (fields.lookup name).getD .undefined
  | _ => .undefined

/-- The call `localStorage.getItem(key)`: the stored string, or `null`. -/
def Storage.getItem (localStorage : Storage) (key : String) : JsValue :=
  match localStorage key with
  | some text => .string text
  | none => .null

/-- The function `loadMapFromLocalStorage(key)`.  The four assignments are made when the
four properties are present; the state being typed, they are modelled for a grid and three
numbers. -/
def loadMapFromLocalStorage (key : String) (localStorage : Storage) (st : State) : State :=
  let mapObject := localStorage.getItem key
  if mapObject.notNull ∧ (mapObject.prop "layers").notNull ∧
      (mapObject.prop "layerRows").notNull ∧ (mapObject.prop "layerColumns").notNull ∧
      (mapObject.prop "map").notNull then
    match mapObject.prop "map", mapObject.prop "layers", mapObject.prop "layerColumns",
      mapObject.prop "layerRows" with
    | .cells map, .number layers, .number layerColumns, .number layerRows =>
      { st with map := map, layers := layers, layerColumns := layerColumns,
                layerRows := layerRows }
    | _, _, _, _ => st
  else st

/-! ## Specification-side definitions for the catalog and the commands -/

/-- Well-formedness of a mode descriptor in the words of the specification: a fixed-style
recipe has `width * height` entries; a free-style recipe is not empty, each of its chances
lies in `(0, 1]` and they sum to 1; every recipe value has an entry in
`MATERIALS.properties`. -/
def ModeWellFormed (mode : Mode) : Prop :=
  (mode.selection.style = "fixed" →
    (mode.materials.length : Int) =
      toNumber mode.selection.width * toNumber mode.selection.height) ∧
  (mode.selection.style = "free" →
    mode.materials ≠ [] ∧ (∀ m ∈ mode.materials, 0 < m.chance ∧ m.chance ≤ 1) ∧
    (mode.materials.map (fun m => m.chance)).sum = 1) ∧
  (∀ m ∈ mode.materials, (MATERIALS.properties m.value).isSome = true)

/-- The state after a list of reshaping commands, run in order. -/
def reshape (cmds : List Reshape) (st : State) : State :=
  cmds.foldl Reshape.run st

/-- The conclusion of the fail-fast rule of the specification for a command started in
state `before`: an error is raised and every read of the grid gives what it gave before. -/
def FailsLeavingGridSpec (before : State) (result : Completion State) : Prop :=
  result.raised = true ∧
  ∀ layer row column : Int,
    readCell result.state.map layer row column = readCell before.map layer row column

/-! ## States of the editor used as examples

The editor starts with 30 layers of 200 by 200 stone cells, viewing layer 15, with the
anchor at column 0, row 0. -/

/-- The codes of the grid the editor starts with. -/
def stoneCodes : List (List (List Nat)) :=
  List.replicate 30 (List.replicate 200 (List.replicate 200 2))

/-- The grid with one cell overwritten (the grid itself if there is no such row). -/
def setCell (map : Grid) (layer row column : Int) (v : Nat) : Grid :=
  (writeCell map layer row column v).getD map

/-- The catalog with the last entry of the workshop recipe left out: mode 10 is a 3 by 3
fixed-style mode with 8 recipe entries. -/
def shortWorkshopModes (key : Nat) : Option Mode :=
  if key = 10 then
    some { text := "Place Workshop", materials := MODES.workshopRecipe.take 8,
           selection := { style := "fixed", width := some 3, height := some 3 } }
  else MODES.properties key

/-- The editor in mode 10 (workshop) with the cursor at column 10, row 10 of layer 15. -/
def workshopState : State :=
  exampleState stoneCodes 200 200 10 10 10 15 0 0 15 false

/-- The editor in mode 10 (workshop, 3 by 3) with the cursor on the last column: column
199, row 10 of layer 15. -/
def workshopAtRightEdge : State :=
  exampleState stoneCodes 200 200 10 199 10 15 0 0 15 false

/-- The editor in mode 10 (workshop, 3 by 3) with the cursor on the first row: column 10,
row 0 of layer 15. -/
def workshopAtTopEdge : State :=
  exampleState stoneCodes 200 200 10 10 0 15 0 0 15 false

/-- The editor in mode 11 (trade depot, 5 by 5) with the cursor on the last column:
column 199, row 100 of layer 15. -/
def tradeDepotAtRightEdge : State :=
  exampleState stoneCodes 200 200 11 199 100 15 0 0 15 false

/-- A recipe in tenths: chances 0.1, 0.2, 0.7, which sum to 1. -/
def tenthsRecipe : List ModeMaterial :=
  [{ value := 3, chance := 1 / 10 }, { value := 4, chance := 2 / 10 },
   { value := 5, chance := 7 / 10 }]

/-- A recipe in hundredths: chances 0.06, 0.57, 0.08, 0.29, which sum to 1. -/
def hundredthsRecipe : List ModeMaterial :=
  [{ value := 3, chance := 6 / 100 }, { value := 4, chance := 57 / 100 },
   { value := 5, chance := 8 / 100 }, { value := 9, chance := 29 / 100 }]

/-- The editor viewing layer 15 at column 10, row 10 after a floor was dug there on layer
13 and the cells above it, on layers 14 and 15, were made empty. -/
def peekState : State :=
  { exampleState stoneCodes 200 200 1 10 10 15 10 10 15 false with
    map := setCell (setCell (setCell (Grid.ofLists stoneCodes) 13 10 10 MATERIALS.FLOOR)
      14 10 10 MATERIALS.EMPTY) 15 10 10 MATERIALS.EMPTY }

/-- The editor as it starts, in mode 0 (dig), cursor at column 0, row 0 of layer 15: the
state that is saved. -/
def savedState : State :=
  exampleState stoneCodes 200 200 0 0 0 15 0 0 15 false

/-- The saved state after the cell at column 0, row 0 of layer 15 was dug to a floor. -/
def editedState : State :=
  { savedState with map := setCell savedState.map 15 0 0 MATERIALS.FLOOR }

/-! ## The highlight predicate -/

/-- The function `isCellInSelection(column, row, layer)`.  `none`: a `TypeError`, the
active mode has no entry in the catalog. -/
def isCellInSelection (MODES : Nat → Option Mode) (st : State) (column row layer : Int) :
    Option Bool :=
  match MODES st.selectedMode with
  | none => none
  | some mode =>
    if mode.selection.style ≠ "fixed" then
      let lowerLayer :=
        if st.selectedSourceLayer < st.selectedLayer then st.selectedSourceLayer
        else st.selectedLayer
      let upperLayer :=
        if st.selectedSourceLayer < st.selectedLayer then st.selectedLayer
        else st.selectedSourceLayer
      let leftX :=
        if st.selectedSourceCellX < st.selectedCellX then st.selectedSourceCellX
        else st.selectedCellX
      let rightX :=
        if st.selectedSourceCellX < st.selectedCellX then st.selectedCellX
        else st.selectedSourceCellX
      let lowerY :=
        if st.selectedSourceCellY < st.selectedCellY then st.selectedSourceCellY
        else st.selectedCellY
      let upperY :=
        if st.selectedSourceCellY < st.selectedCellY then st.selectedCellY
        else st.selectedSourceCellY
      if layer ≥ lowerLayer ∧ layer ≤ upperLayer ∧ column ≥ leftX ∧ column ≤ rightX ∧
          row ≥ lowerY ∧ row ≤ upperY then some true
      else some false
    else
      if column ≥ st.selectedCellX - 1 ∧ column ≤ st.selectedCellX + 1 ∧
          row ≥ st.selectedCellY - 1 ∧ row ≤ st.selectedCellY + 1 then some true
      else some false

/-! ## The keyboard -/

namespace KEYS

def ENTER : Nat := 13

def ESC : Nat := 27

def LEFT_ARROW : Nat := 37

def UP_ARROW : Nat := 38

def RIGHT_ARROW : Nat := 39

def DOWN_ARROW : Nat := 40

def A : Nat := 65

def D : Nat := 68

def E : Nat := 69

def W : Nat := 87

def O : Nat := 79

def R : Nat := 82

def S : Nat := 83

def F : Nat := 70

def G : Nat := 71

def T : Nat := 84

def P : Nat := 80

def LEFT_ANGLE : Nat := 188

def RIGHT_ANGLE : Nat := 190

def EQUALS : Nat := 187

end KEYS

namespace MODES

def DIG : Nat := 0

def EMPTY : Nat := 1

def WALL : Nat := 2

def DOOR : Nat := 3

def RAMP : Nat := 4

def STAIRS : Nat := 5

def FARM : Nat := 6

def TABLE : Nat := 7

def WATER : Nat := 8

def GRASS : Nat := 9

def CARPENTER : Nat := 10

/-- The key `"TRADE-DEPOT"`. -/
def TRADE_DEPOT : Nat := 11

def COPY : Nat := 12

end MODES

/-- The function `keyDownHandler(e)` for `e.keyCode = keyCode` (the calls of `draw()` left
out).  A key code of no `case` does nothing; so does every key while the controls are
inactive. -/
def keyDownHandler (catalog : Nat → Option Mode) (random : Nat → ℚ) (keyCode : Nat)
    (st : State) : Completion State :=
  if st.controlsActive then
    if keyCode = KEYS.LEFT_ARROW then .normal (move DIRECTIONS.LEFT st)
    else if keyCode = KEYS.UP_ARROW then .normal (move DIRECTIONS.UP st)
    else if keyCode = KEYS.RIGHT_ARROW then .normal (move DIRECTIONS.RIGHT st)
    else if keyCode = KEYS.DOWN_ARROW then .normal (move DIRECTIONS.DOWN st)
    else if keyCode = KEYS.ENTER then cellSelect catalog random st
    else if keyCode = KEYS.ESC then .normal (cancelSelection st)
    else if keyCode = KEYS.LEFT_ANGLE then
      if st.selectedLayer < st.layers - 1 then .normal (changeLayer (st.selectedLayer + 1) st)
      else .normal st
    else if keyCode = KEYS.RIGHT_ANGLE then
      if st.selectedLayer > 0 then .normal (changeLayer (st.selectedLayer - 1) st)
      else .normal st
    else if keyCode = KEYS.EQUALS then changeMode catalog MODES.DOOR st
    else if keyCode = KEYS.A then changeMode catalog MODES.WATER st
    else if keyCode = KEYS.E then changeMode catalog MODES.EMPTY st
    else if keyCode = KEYS.D then changeMode catalog MODES.DIG st
    else if keyCode = KEYS.W then changeMode catalog MODES.WALL st
    else if keyCode = KEYS.O then changeMode catalog MODES.CARPENTER st
    else if keyCode = KEYS.R then changeMode catalog MODES.RAMP st
    else if keyCode = KEYS.S then changeMode catalog MODES.STAIRS st
    else if keyCode = KEYS.F then changeMode catalog MODES.FARM st
    else if keyCode = KEYS.G then changeMode catalog MODES.GRASS st
    else if keyCode = KEYS.T then changeMode catalog MODES.TABLE st
    else if keyCode = KEYS.P then changeMode catalog MODES.TRADE_DEPOT st
    else .normal st
  else .normal st

/-! ## Initialization -/

/-- The assignment `xs[i] = v` on an array of layers or of rows under construction, for
`i` up to the array's length: an element is replaced, `i = xs.length` appends. -/
def arrayAssign {α : Type} (xs : List α) (i : Nat) (v : α) : List α :=
  if i < xs.length then xs.set i v else xs ++ [v]

/-- The function `createEmptyMap()`, for the values of the globals `layers`, `layerRows`
and `layerColumns` it reads; each `for` loop runs its index through `0, 1, ...` below the
bound. -/
def createEmptyMap (layers layerRows layerColumns : Int) : Grid :=
  (List.range layers.toNat).foldl (fun emptyMap layerIndex =>
    let layerMap : List Row :=
      (List.range layerRows.toNat).foldl (fun layerMap rowIndex =>
        let row : Row :=
          (List.range layerColumns.toNat).foldl
            (fun row (columnIndex : Nat) => row.set (columnIndex : Int) 2)
            { length := 0, get := fun _ => .undefined }
        arrayAssign layerMap rowIndex row) []
    arrayAssign emptyMap layerIndex layerMap) []

/-- The state of the editor when its script has run: the globals as initialised, the grid
from `createEmptyMap()`, layer `Math.floor(layers / 2)` in view. -/
def initialState : State where
  layers := 30
  layerColumns := 200
  layerRows := 200
  map := createEmptyMap 30 200 200
  selectedMode := MODES.DIG
  controlsActive := true
  mapOffsetX := 0
  mapOffsetY := 0
  viewColumns := 0
  viewRows := 0
  selectedCellX := 0
  selectedCellY := 0
  selectedSourceCellX := 0
  selectedSourceCellY := 0
  selectionInProgress := false
  copyCompleted := false
  copyBuffer := []
  selectedLayer := 30 / 2
  selectedSourceLayer := 30 / 2

/-! ## Sequences of commands -/

/-- One of the commands `cellSelect()`, `changeMode(mode)`, `cancelSelection()`,
`move(dir)` and `changeLayer(layer)`; a `cellSelect` comes with the values `Math.random()`
returns during it. -/
inductive Command where
  | cellSelect (random : Nat → ℚ)
  | changeMode (mode : Nat)
  | cancelSelection
  | move (dir : Nat)
  | changeLayer (layer : Int)

/-- The state one command leaves behind, ended normally or by a raised error. -/
def Command.run (MODES : Nat → Option Mode) (st : State) : Command → State
  | .cellSelect random => (DwarfFortressPlanner.cellSelect MODES random st).state
  | .changeMode mode => (DwarfFortressPlanner.changeMode MODES mode st).state
  | .cancelSelection => DwarfFortressPlanner.cancelSelection st
  | .move dir => DwarfFortressPlanner.move dir st
  | .changeLayer layer => DwarfFortressPlanner.changeLayer layer st

/-- A command of the editor: the mode handed to `changeMode` is a key of the catalog. -/
def Command.ofCatalog (MODES : Nat → Option Mode) : Command → Prop
  | .changeMode mode => (MODES mode).isSome = true
  | _ => True

/-- The states reachable from the initial state by a sequence of commands. -/
def Reachable (MODES : Nat → Option Mode) (st : State) : Prop :=
  ∃ cmds : List Command, (∀ c ∈ cmds, c.ofCatalog MODES) ∧
    st = cmds.foldl (Command.run MODES) initialState

/-- The invariant of the selection flag in the words of the specification: a selection is
in progress only if the active mode's selection style is free or copy. -/
def SelectionFlagSpec (MODES : Nat → Option Mode) (st : State) : Prop :=
  st.selectionInProgress = true →
    ∃ mode, MODES st.selectedMode = some mode ∧
      (mode.selection.style = "free" ∨ mode.selection.style = "copy")

/-- The inclusive box between anchor and cursor, in the words of the specification. -/
def InBoxSpec (st : State) (x y z : Int) : Prop :=
  min st.selectedSourceCellX st.selectedCellX ≤ x ∧
  x ≤ max st.selectedSourceCellX st.selectedCellX ∧
  min st.selectedSourceCellY st.selectedCellY ≤ y ∧
  y ≤ max st.selectedSourceCellY st.selectedCellY ∧
  min st.selectedSourceLayer st.selectedLayer ≤ z ∧
  z ≤ max st.selectedSourceLayer st.selectedLayer

instance (st : State) (x y z : Int) : Decidable (InBoxSpec st x y z) := by
  unfold InBoxSpec; infer_instance

/-- Cell `(column, row)` is one of the 8 neighbours of cell `(x, y)` on the same layer, in
the words of the specification. -/
def NeighbourSpec (column row x y : Int) : Prop :=
  (x - column = -1 ∨ x - column = 0 ∨ x - column = 1) ∧
  (y - row = -1 ∨ y - row = 0 ∨ y - row = 1) ∧ ¬ (x = column ∧ y = row)

instance (column row x y : Int) : Decidable (NeighbourSpec column row x y) := by
  unfold NeighbourSpec; infer_instance

/-! # Theorems -/

/-! ## Reading and writing cells -/

theorem index?_of_bounds {α : Type} (xs : List α) (i : Int) (h0 : 0 ≤ i)
    (h1 : i < (xs.length : Int)) : ∃ a, index? xs i = some a ∧ a ∈ xs := by
  have hlt : i.toNat < xs.length := by omega
  refine ⟨xs[i.toNat], ?_, List.getElem_mem _⟩
  simp [index?, h0, List.getElem?_eq_getElem hlt]

theorem index?_eq_some {α : Type} {xs : List α} {i : Int} {a : α} (h : index? xs i = some a) :
    0 ≤ i ∧ i < (xs.length : Int) ∧ a ∈ xs := by
  unfold index? at h
  split at h
  · rename_i h0
    obtain ⟨hlt, rfl⟩ := List.getElem?_eq_some_iff.mp h
    exact ⟨h0, by omega, List.getElem_mem _⟩
  · cases h

theorem index?_set {α : Type} (xs : List α) (i j : Int) (a : α) (hi : 0 ≤ i) :
    index? (xs.set i.toNat a) j = if j = i then (index? xs i).map (fun _ => a) else index? xs j := by
  unfold index?
  by_cases hj : 0 ≤ j
  · by_cases hij : j = i
    · subst hij
      simp [hj, List.getElem?_set]
      by_cases hlt : j.toNat < xs.length
      · simp [hlt, List.getElem?_eq_getElem hlt]
        omega
      · simp [hlt, List.getElem?_eq_none (Nat.le_of_not_lt hlt)]
        omega
    · have hne : i.toNat ≠ j.toNat := by omega
      simp [hj, hij, List.getElem?_set_ne hne]
  · have hij : j ≠ i := by omega
    simp [hj, hij]

theorem readCell_of_dims {map : Grid} {L R : Int} (hd : GridDims map L R) (layer row column : Int)
    (hl0 : 0 ≤ layer) (hl1 : layer < L) (hr0 : 0 ≤ row) (hr1 : row < R) :
    ∃ r : Row, readCell map layer row column = some (r.get column) ∧
      ∃ l ∈ map, r ∈ l := by
  obtain ⟨l, hl, hlm⟩ := index?_of_bounds map layer hl0 (by rw [hd.1]; exact hl1)
  obtain ⟨r, hr, hrm⟩ := index?_of_bounds l row hr0 (by rw [hd.2 l hlm]; exact hr1)
  exact ⟨r, by simp [readCell, hl, hr], l, hlm, hrm⟩

theorem readCell_isSome {map : Grid} {L R : Int} (hd : GridDims map L R) (layer row column : Int)
    (hl0 : 0 ≤ layer) (hl1 : layer < L) (hr0 : 0 ≤ row) (hr1 : row < R) :
    ∃ v, readCell map layer row column = some v := by
  obtain ⟨r, hr, _⟩ := readCell_of_dims hd layer row column hl0 hl1 hr0 hr1
  exact ⟨_, hr⟩

theorem GridOk.dims {st : State} (h : GridOk st) : GridDims st.map st.layers st.layerRows :=
  ⟨h.1, fun l hl => (h.2 l hl).1⟩

theorem readCell_num {st : State} (hg : GridOk st) {layer column row : Int}
    (hb : InBounds st layer column row) :
    ∃ n, readCell st.map layer row column = some (.num n) := by
  obtain ⟨hl0, hl1, hc0, hc1, hr0, hr1⟩ := hb
  obtain ⟨r, hr, l, hlm, hrm⟩ := readCell_of_dims hg.dims layer row column hl0 hl1 hr0 hr1
  have hok := (hg.2 l hlm).2 r hrm
  have hk : column.toNat ∈ List.range r.length := by
    rw [List.mem_range]; have := hok.1; omega
  have hne := hok.2 _ hk
  have hcast : ((column.toNat : Nat) : Int) = column := by omega
  rw [hcast] at hne
  rw [hr]
  cases hv : r.get column with
  | undefined => exact absurd hv hne
  | num n => exact ⟨n, rfl⟩

theorem writeCell_isSome {map : Grid} {L R : Int} (hd : GridDims map L R) (layer row column : Int)
    (v : Nat) (hl0 : 0 ≤ layer) (hl1 : layer < L) (hr0 : 0 ≤ row) (hr1 : row < R) :
    ∃ map', writeCell map layer row column v = some map' := by
  obtain ⟨l, hl, hlm⟩ := index?_of_bounds map layer hl0 (by rw [hd.1]; exact hl1)
  obtain ⟨r, hr, hrm⟩ := index?_of_bounds l row hr0 (by rw [hd.2 l hlm]; exact hr1)
  exact ⟨map.set layer.toNat (l.set row.toNat (r.set column v)), by simp only [writeCell, hl, hr]⟩

theorem writeCell_dims {map map' : Grid} {L R : Int} {layer row column : Int} {v : Nat}
    (hw : writeCell map layer row column v = some map') (hd : GridDims map L R) :
    GridDims map' L R := by
  unfold writeCell at hw
  split at hw
  · cases hw
  · rename_i l hl
    split at hw
    · cases hw
    · rename_i r hr
      cases hw
      obtain ⟨_, _, hlm⟩ := index?_eq_some hl
      refine ⟨by simpa using hd.1, fun l' hl' => ?_⟩
      rcases List.mem_or_eq_of_mem_set hl' with h | h
      · exact hd.2 l' h
      · subst h; simpa using hd.2 l hlm

theorem readCell_writeCell {map map' : Grid} {layer row column : Int} {v : Nat}
    (hw : writeCell map layer row column v = some map') (layer' row' column' : Int) :
    readCell map' layer' row' column' =
      if layer' = layer ∧ row' = row ∧ column' = column then some (.num v)
      else readCell map layer' row' column' := by
  unfold writeCell at hw
  split at hw
  · cases hw
  · rename_i l hl
    split at hw
    · cases hw
    · rename_i r hr
      cases hw
      obtain ⟨hl0, _, _⟩ := index?_eq_some hl
      obtain ⟨hr0, _, _⟩ := index?_eq_some hr
      unfold readCell
      rw [index?_set _ _ _ _ hl0]
      by_cases h1 : layer' = layer
      · subst h1
        simp only [if_true, hl, Option.map_some', true_and]
        rw [index?_set _ _ _ _ hr0]
        by_cases h2 : row' = row
        · subst h2
          simp only [if_true, hr, Option.map_some', true_and, Row.set]
          by_cases h3 : column' = column <;> simp [h3]
        · simp [h2]
      · simp [h1]

theorem checkNeighbour_eq (map : Grid) (layer r c : Int) (guard : Bool) (Q : Prop) [Decidable Q]
    (h : guard = true → ∃ v, readCell map layer r c = some v) :
    checkNeighbour map layer r c guard (some (decide Q)) =
      some (decide ((guard = true ∧ readCell map layer r c ≠ some (.num MATERIALS.STONE)) ∨ Q)) := by
  unfold checkNeighbour
  cases guard with
  | false => simp
  | true =>
    obtain ⟨v, hv⟩ := h rfl
    simp only [hv, if_true]
    by_cases hs : v = .num MATERIALS.STONE
    · simp [hs]
    · simp [hs]

theorem cellIsExposed_eq (st : State) (layer column row : Int)
    (hd : GridDims st.map st.layers st.layerRows)
    (hl0 : 0 ≤ layer) (hl1 : layer < st.layers) (hr0 : 0 ≤ row) (hr1 : row < st.layerRows) :
    ∃ b, cellIsExposed st layer column row = some b ∧
      (b = true ↔
        ((0 < column ∧ 0 < row ∧
            readCell st.map layer (row - 1) (column - 1) ≠ some (.num MATERIALS.STONE)) ∨
         (0 < column ∧ readCell st.map layer row (column - 1) ≠ some (.num MATERIALS.STONE)) ∨
         (0 < column ∧ row < st.layerRows - 1 ∧
            readCell st.map layer (row + 1) (column - 1) ≠ some (.num MATERIALS.STONE)) ∨
         (0 < row ∧ readCell st.map layer (row - 1) column ≠ some (.num MATERIALS.STONE)) ∨
         (row < st.layerRows - 1 ∧
            readCell st.map layer (row + 1) column ≠ some (.num MATERIALS.STONE)) ∨
         (column < st.layerColumns - 1 ∧ 0 < row ∧
            readCell st.map layer (row - 1) (column + 1) ≠ some (.num MATERIALS.STONE)) ∨
         (column < st.layerColumns - 1 ∧
            readCell st.map layer row (column + 1) ≠ some (.num MATERIALS.STONE)) ∨
         (column < st.layerColumns - 1 ∧ row < st.layerRows - 1 ∧
            readCell st.map layer (row + 1) (column + 1) ≠ some (.num MATERIALS.STONE)))) := by
  have hup : ∀ c, decide (row > 0) = true → ∃ v, readCell st.map layer (row - 1) c = some v := by
    intro c h
    have : row > 0 := by simpa using h
    exact readCell_isSome hd _ _ _ hl0 hl1 (by omega) (by omega)
  have hmid : ∀ c, true = true → ∃ v, readCell st.map layer row c = some v :=
    fun c _ => readCell_isSome hd _ _ _ hl0 hl1 hr0 hr1
  have hdown : ∀ c, decide (row < st.layerRows - 1) = true →
      ∃ v, readCell st.map layer (row + 1) c = some v := by
    intro c h
    have : row < st.layerRows - 1 := by simpa using h
    exact readCell_isSome hd _ _ _ hl0 hl1 (by omega) (by omega)
  have hfalse : (some false : Option Bool) = some (decide False) := by simp
  unfold cellIsExposed
  simp only []
  rw [hfalse]
  by_cases hc1 : column < st.layerColumns - 1
  · by_cases hc0 : column > 0
    · simp only [hc0, hc1, if_true]
      rw [checkNeighbour_eq _ _ _ _ _ _ (hdown _), checkNeighbour_eq _ _ _ _ _ _ (hmid _),
        checkNeighbour_eq _ _ _ _ _ _ (hup _), checkNeighbour_eq _ _ _ _ _ _ (hdown _),
        checkNeighbour_eq _ _ _ _ _ _ (hup _), checkNeighbour_eq _ _ _ _ _ _ (hdown _),
        checkNeighbour_eq _ _ _ _ _ _ (hmid _), checkNeighbour_eq _ _ _ _ _ _ (hup _)]
      refine ⟨_, rfl, ?_⟩
      have hc0' : 0 < column := hc0
      simp only [decide_eq_true_eq, gt_iff_lt, hc0', hc1, true_and, or_false]
    · simp only [hc0, hc1, if_true, if_false]
      rw [checkNeighbour_eq _ _ _ _ _ _ (hdown _), checkNeighbour_eq _ _ _ _ _ _ (hmid _),
        checkNeighbour_eq _ _ _ _ _ _ (hup _), checkNeighbour_eq _ _ _ _ _ _ (hdown _),
        checkNeighbour_eq _ _ _ _ _ _ (hup _)]
      refine ⟨_, rfl, ?_⟩
      have hc0' : ¬ (0 < column) := hc0
      simp only [decide_eq_true_eq, gt_iff_lt, hc0', hc1, true_and, false_and, or_false, false_or]
  · by_cases hc0 : column > 0
    · simp only [hc0, hc1, if_true, if_false]
      rw [checkNeighbour_eq _ _ _ _ _ _ (hdown _), checkNeighbour_eq _ _ _ _ _ _ (hup _),
        checkNeighbour_eq _ _ _ _ _ _ (hdown _),
        checkNeighbour_eq _ _ _ _ _ _ (hmid _), checkNeighbour_eq _ _ _ _ _ _ (hup _)]
      refine ⟨_, rfl, ?_⟩
      have hc0' : 0 < column := hc0
      simp only [decide_eq_true_eq, gt_iff_lt, hc0', hc1, true_and, false_and, or_false, false_or]
    · simp only [hc0, hc1, if_false]
      rw [checkNeighbour_eq _ _ _ _ _ _ (hdown _), checkNeighbour_eq _ _ _ _ _ _ (hup _)]
      refine ⟨_, rfl, ?_⟩
      have hc0' : ¬ (0 < column) := hc0
      simp only [decide_eq_true_eq, gt_iff_lt, hc0', hc1, true_and, false_and, or_false, false_or]

/-- The result of `cellIsExposed`, in the words of the specification. -/
theorem cellIsExposed_spec (s : State) (layer column row : Int)
    (hd : GridDims s.map s.layers s.layerRows) (hbs : InBounds s layer column row) :
    ∃ b, cellIsExposed s layer column row = some b ∧
      (b = true ↔ ExposedSpec s layer column row) := by
  obtain ⟨hl0, hl1, hc0, hc1, hr0, hr1⟩ := hbs
  obtain ⟨b, hb1, hb2⟩ := cellIsExposed_eq s layer column row hd hl0 hl1 hr0 hr1
  refine ⟨b, hb1, hb2.trans ?_⟩
  constructor
  · rintro (⟨h1, h2, h3⟩ | ⟨h1, h3⟩ | ⟨h1, h2, h3⟩ | ⟨h2, h3⟩ | ⟨h2, h3⟩ | ⟨h1, h2, h3⟩ |
      ⟨h1, h3⟩ | ⟨h1, h2, h3⟩)
    · exact ⟨-1, by simp, -1, by simp, by omega, by omega, by omega, by omega, by omega,
        h3⟩
    · exact ⟨0, by simp, -1, by simp, by omega, by omega, by omega, by omega, by omega,
        by simpa using h3⟩
    · exact ⟨1, by simp, -1, by simp, by omega, by omega, by omega, by omega, by omega,
        h3⟩
    · exact ⟨-1, by simp, 0, by simp, by omega, by omega, by omega, by omega, by omega,
        by simpa using h3⟩
    · exact ⟨1, by simp, 0, by simp, by omega, by omega, by omega, by omega, by omega,
        by simpa using h3⟩
    · exact ⟨-1, by simp, 1, by simp, by omega, by omega, by omega, by omega, by omega,
        h3⟩
    · exact ⟨0, by simp, 1, by simp, by omega, by omega, by omega, by omega, by omega,
        by simpa using h3⟩
    · exact ⟨1, by simp, 1, by simp, by omega, by omega, by omega, by omega, by omega,
        h3⟩
  · rintro ⟨dr, hdr, dc, hdc, h5, h6, h7, h8, h9, h10⟩
    simp only [List.mem_cons, List.mem_singleton, List.not_mem_nil, or_false] at hdr hdc
    rcases hdr with rfl | rfl | rfl <;> rcases hdc with rfl | rfl | rfl
    · exact Or.inl ⟨by omega, by omega, h10⟩
    · exact Or.inr (Or.inr (Or.inr (Or.inl ⟨by omega, by simpa using h10⟩)))
    · exact Or.inr (Or.inr (Or.inr (Or.inr (Or.inr (Or.inl ⟨by omega, by omega, h10⟩)))))
    · exact Or.inr (Or.inl ⟨by omega, by simpa using h10⟩)
    · exact absurd ⟨rfl, rfl⟩ h5
    · exact Or.inr (Or.inr (Or.inr (Or.inr (Or.inr (Or.inr (Or.inl
        ⟨by omega, by simpa using h10⟩))))))
    · exact Or.inr (Or.inr (Or.inl ⟨by omega, by omega, h10⟩))
    · exact Or.inr (Or.inr (Or.inr (Or.inr (Or.inl ⟨by omega, by simpa using h10⟩))))
    · exact Or.inr (Or.inr (Or.inr (Or.inr (Or.inr (Or.inr (Or.inr
        ⟨by omega, by omega, h10⟩))))))

/-- C3: on a grid of `layerRows` by `layerColumns` cells per layer and for an in-bounds
cell, `cellIsExposed` returns a boolean, which is `true` exactly when some offset of the
3 by 3 neighbourhood other than `(0, 0)` leads to a cell inside the grid that does not hold
STONE (no wraparound: offsets leaving the grid do not count).  In particular, if all
neighbours inside the grid hold STONE the cell is not exposed, and writing a non-STONE
value into any one neighbour inside the grid makes it exposed. -/
theorem cellIsExposed_iff_neighbour (st : State) (layer column row : Int)
    (hg : GridOk st) (hb : InBounds st layer column row) :
    (∃ b, cellIsExposed st layer column row = some b ∧
      (b = true ↔ ExposedSpec st layer column row)) ∧
    ((∀ dr dc : Int, -1 ≤ dr → dr ≤ 1 → -1 ≤ dc → dc ≤ 1 → ¬(dr = 0 ∧ dc = 0) →
        0 ≤ row + dr → row + dr < st.layerRows → 0 ≤ column + dc → column + dc < st.layerColumns →
        readCell st.map layer (row + dr) (column + dc) = some (.num MATERIALS.STONE)) →
      cellIsExposed st layer column row = some false) ∧
    (∀ dr dc : Int, -1 ≤ dr → dr ≤ 1 → -1 ≤ dc → dc ≤ 1 → ¬(dr = 0 ∧ dc = 0) →
        0 ≤ row + dr → row + dr < st.layerRows → 0 ≤ column + dc → column + dc < st.layerColumns →
        ∀ v : Nat, v ≠ MATERIALS.STONE →
        ∃ map', writeCell st.map layer (row + dr) (column + dc) v = some map' ∧
          cellIsExposed { st with map := map' } layer column row = some true) := by
  have key := fun s hd hbs => cellIsExposed_spec s layer column row hd hbs
  refine ⟨key st hg.dims hb, ?_, ?_⟩
  · intro hall
    obtain ⟨b, hb1, hb2⟩ := key st hg.dims hb
    cases b with
    | false => exact hb1
    | true =>
      obtain ⟨dr, hdr, dc, hdc, h5, h6, h7, h8, h9, h10⟩ := hb2.mp rfl
      simp only [List.mem_cons, List.mem_singleton, List.not_mem_nil, or_false] at hdr hdc
      exact absurd (hall dr dc (by omega) (by omega) (by omega) (by omega) h5 h6 h7 h8 h9) h10
  · intro dr dc h1 h2 h3 h4 h5 h6 h7 h8 h9 v hv
    obtain ⟨hl0, hl1, hc0, hc1, hr0, hr1⟩ := hb
    obtain ⟨map', hw⟩ := writeCell_isSome hg.dims layer (row + dr) (column + dc) v hl0 hl1 h6 h7
    refine ⟨map', hw, ?_⟩
    have hd' : GridDims map' st.layers st.layerRows := writeCell_dims hw hg.dims
    obtain ⟨b, hb1, hb2⟩ := key { st with map := map' } hd' ⟨hl0, hl1, hc0, hc1, hr0, hr1⟩
    have : b = true := by
      apply hb2.mpr
      have hdr : dr = -1 ∨ dr = 0 ∨ dr = 1 := by omega
      have hdc : dc = -1 ∨ dc = 0 ∨ dc = 1 := by omega
      refine ⟨dr, by simpa using hdr, dc, by simpa using hdc, h5, h6, h7, h8, h9, ?_⟩
      show readCell map' layer (row + dr) (column + dc) ≠ _
      rw [readCell_writeCell hw]
      simp
      exact hv
    rw [hb1, this]

/-- C3 at a concrete grid: one 3 by 3 layer of stone except the lower right corner, seen
from the centre cell. -/
theorem cellIsExposed_iff_neighbour_witness :
    GridOk (exampleState [[[2, 2, 2], [2, 2, 2], [2, 2, 1]]] 3 3 0 0 0 0 0 0 0 false) ∧
    InBounds (exampleState [[[2, 2, 2], [2, 2, 2], [2, 2, 1]]] 3 3 0 0 0 0 0 0 0 false) 0 1 1 ∧
    ∃ b, cellIsExposed (exampleState [[[2, 2, 2], [2, 2, 2], [2, 2, 1]]] 3 3 0 0 0 0 0 0 0 false)
        0 1 1 = some b ∧
      (b = true ↔
        ExposedSpec (exampleState [[[2, 2, 2], [2, 2, 2], [2, 2, 1]]] 3 3 0 0 0 0 0 0 0 false)
          0 1 1) :=
  ⟨by decide, by decide,
   (cellIsExposed_iff_neighbour _ 0 1 1 (by decide) (by decide)).1⟩

theorem properties_lt {code : Nat} {m : MaterialProps} (h : MATERIALS.properties code = some m) :
    code < 23 := by
  by_contra hlt
  obtain ⟨n, rfl⟩ : ∃ n, code = n + 23 := ⟨code - 23, by omega⟩
  simp [MATERIALS.properties] at h

theorem ordinaryProperties_catalog {code : Nat} {m : MaterialProps}
    (h : MATERIALS.properties code = some m) (k : Nat) :
    ordinaryProperties (.num code) k =
      some { color := m.color, display := m.display, character := specGlyph m k } := by
  have hlt := properties_lt h
  by_cases hk : 0 < k
  · interval_cases code <;> simp only [MATERIALS.properties, Option.some.injEq] at h <;> subst h <;>
      simp [ordinaryProperties, MATERIALS.properties, specGlyph, hk]
  · interval_cases code <;> simp only [MATERIALS.properties, Option.some.injEq] at h <;> subst h <;>
      simp [ordinaryProperties, MATERIALS.properties, specGlyph, hk]

theorem elevationColorAdjustment_display (k : Nat) (p : Properties) :
    (elevationColorAdjustment k p).display = p.display := by
  unfold elevationColorAdjustment
  split_ifs <;> rfl

theorem elevationColorAdjustment_character (k : Nat) (p : Properties) :
    (elevationColorAdjustment k p).character = p.character := by
  unfold elevationColorAdjustment
  split_ifs <;> rfl

theorem elevationColorAdjustment_nothing (k : Nat) :
    elevationColorAdjustment k nothingToDraw = nothingToDraw := by
  simp [elevationColorAdjustment, nothingToDraw]

/-- One peek: on an EMPTY value above layer 0 the function recurses into the layer below
with the counter incremented and then adjusts the colour of what comes back. -/
theorem getCellProperties_empty_step (st : State) (layer column row : Int) (k : Nat)
    (valueBelow : JsVal) (hk : k ≤ transparencyDisplayLimit) (hl : 0 < layer)
    (hread : readCell st.map (layer - 1) row column = some valueBelow) :
    getCellProperties st layer column row (.num MATERIALS.EMPTY) k =
      (getCellProperties st (layer - 1) column row valueBelow (k + 1)).map
        (elevationColorAdjustment k) := by
  rw [getCellProperties]
  have h1 : ¬ k > transparencyDisplayLimit := by omega
  have h2 : JsVal.num MATERIALS.EMPTY ≠ JsVal.num MATERIALS.STONE := by decide
  simp only [h1, h2, if_false, if_true, hl, gt_iff_lt, hread]

theorem getCellProperties_limit (st : State) (layer column row : Int) (value : JsVal) (k : Nat)
    (hk : transparencyDisplayLimit < k) :
    getCellProperties st layer column row value k = some nothingToDraw := by
  rw [getCellProperties]
  simp [hk]

theorem getCellProperties_ordinary (st : State) (layer column row : Int) (code : Nat) (k : Nat)
    (hk : k ≤ transparencyDisplayLimit) (h0 : code ≠ MATERIALS.EMPTY) (h2 : code ≠ MATERIALS.STONE) :
    getCellProperties st layer column row (.num code) k =
      (ordinaryProperties (.num code) k).map (elevationColorAdjustment k) := by
  rw [getCellProperties]
  have h1 : ¬ k > transparencyDisplayLimit := by omega
  simp [h1, h0, h2]

theorem getCellProperties_stone (st : State) (layer column row : Int) (k : Nat)
    (hk : k ≤ transparencyDisplayLimit) :
    getCellProperties st layer column row (.num MATERIALS.STONE) k =
      (cellIsExposed st layer column row).bind fun exposed =>
        (stoneProperties exposed).map (elevationColorAdjustment k) := by
  rw [getCellProperties]
  have h1 : ¬ k > transparencyDisplayLimit := by omega
  simp only [h1, if_false, if_true]
  cases cellIsExposed st layer column row <;> rfl

/-- A chain of `d` EMPTY cells entered with counter `k`, ending on an ordinary material
within the peek limit: the material's display style and the glyph for depth `k + d`. -/
theorem getCellProperties_chain (st : State) (column row : Int) (code : Nat) (m : MaterialProps)
    (hm : MATERIALS.properties code = some m) (h0 : code ≠ MATERIALS.EMPTY)
    (h2 : code ≠ MATERIALS.STONE) (d : Nat) :
    ∀ (L : Int) (k : Nat), k + d ≤ transparencyDisplayLimit → (d : Int) ≤ L →
      (∀ i : Nat, i < d → readCell st.map (L - i) row column = some (.num MATERIALS.EMPTY)) →
      readCell st.map (L - d) row column = some (.num code) →
      ∀ v, readCell st.map L row column = some v →
      ∃ p, getCellProperties st L column row v k = some p ∧
        p.display = m.display ∧ p.character = specGlyph m (k + d) := by
  induction d with
  | zero =>
    intro L k hk _ _ hmat v hv
    simp only [Nat.cast_zero, sub_zero] at hmat
    rw [hmat] at hv
    cases hv
    rw [getCellProperties_ordinary st L column row code k (by omega) h0 h2,
      ordinaryProperties_catalog hm]
    exact ⟨_, rfl, by simp [elevationColorAdjustment_display],
      by simp [elevationColorAdjustment_character]⟩
  | succ d ih =>
    intro L k hk hL hchain hmat v hv
    have hv0 := hchain 0 (by omega)
    simp only [Nat.cast_zero, sub_zero] at hv0
    rw [hv0] at hv
    cases hv
    have hbelow : ∃ v', readCell st.map (L - 1) row column = some v' := by
      by_cases hd : d = 0
      · subst hd
        exact ⟨_, by simpa using hmat⟩
      · exact ⟨_, by simpa using hchain 1 (by omega)⟩
    obtain ⟨v', hv'⟩ := hbelow
    rw [getCellProperties_empty_step st L column row k v' (by omega) (by omega) hv']
    obtain ⟨p, hp, hp1, hp2⟩ := ih (L - 1) (k + 1) (by omega) (by push_cast at hL; omega)
      (fun i hi => by
        have := hchain (i + 1) (by omega)
        push_cast at this
        rw [show L - 1 - (i : Int) = L - ((i : Int) + 1) by ring]
        exact this)
      (by
        push_cast at hmat
        rw [show L - 1 - (d : Int) = L - ((d : Int) + 1) by ring]
        exact hmat)
      v' hv'
    refine ⟨_, by rw [hp]; rfl, ?_, ?_⟩
    · rw [elevationColorAdjustment_display, hp1]
    · rw [elevationColorAdjustment_character, hp2]
      congr 1
      omega

/-- A column of EMPTY cells from layer `L` down to layer `L - 5`, entered at layer `L - k`
with counter `k`: the peek limit is passed before anything is found. -/
theorem getCellProperties_empties (st : State) (column row L : Int)
    (hd : GridDims st.map st.layers st.layerRows) (hL : 6 ≤ L) (hL1 : L < st.layers)
    (hr0 : 0 ≤ row) (hr1 : row < st.layerRows)
    (hchain : ∀ i : Nat, i ≤ 5 → readCell st.map (L - i) row column = some (.num MATERIALS.EMPTY))
    (n : Nat) :
    ∀ k : Nat, k + n = 5 →
      getCellProperties st (L - k) column row (.num MATERIALS.EMPTY) k = some nothingToDraw := by
  induction n with
  | zero =>
    intro k hk
    obtain ⟨v, hv⟩ := readCell_isSome hd (L - k - 1) row column (by omega) (by omega) hr0 hr1
    rw [getCellProperties_empty_step st (L - k) column row k v
      (by unfold transparencyDisplayLimit; omega) (by omega) hv,
      getCellProperties_limit _ _ _ _ _ _ (by unfold transparencyDisplayLimit; omega)]
    simp [elevationColorAdjustment_nothing]
  | succ n ih =>
    intro k hk
    have hread : readCell st.map (L - k - 1) row column = some (.num MATERIALS.EMPTY) := by
      have := hchain (k + 1) (by omega)
      push_cast at this
      rw [show L - (k : Int) - 1 = L - ((k : Int) + 1) by ring]
      exact this
    rw [getCellProperties_empty_step st (L - k) column row k _
      (by unfold transparencyDisplayLimit; omega) (by omega) hread]
    have := ih (k + 1) (by omega)
    push_cast at this
    rw [show L - (k : Int) - 1 = L - ((k : Int) + 1) by ring, this]
    simp [elevationColorAdjustment_nothing]

/-- C1: a chain of `d` EMPTY cells (`0 ≤ d ≤ 5`, `d ≤ L`) below the viewing layer `L`
that ends on an ordinary catalog material `code` (neither EMPTY nor STONE):
`getCellProperties(L, column, row, map[L][row][column])` returns the material's display
style and, as character, its second glyph when the style is elevation and `d > 0`, its
first glyph otherwise (`null` when it has no glyph). -/
theorem getCellProperties_peek_glyph (st : State) (column row L : Int) (d code : Nat)
    (m : MaterialProps) (hd : d ≤ 5) (hL : (d : Int) ≤ L)
    (hchain : ∀ i : Nat, i < d →
      readCell st.map (L - i) row column = some (.num MATERIALS.EMPTY))
    (hmat : readCell st.map (L - d) row column = some (.num code))
    (h0 : code ≠ MATERIALS.EMPTY) (h2 : code ≠ MATERIALS.STONE)
    (hm : MATERIALS.properties code = some m) :
    ∃ v p, readCell st.map L row column = some v ∧
      getCellProperties st L column row v 0 = some p ∧
      p.display = m.display ∧ p.character = specGlyph m d := by
  have hv : ∃ v, readCell st.map L row column = some v := by
    by_cases hd0 : d = 0
    · subst hd0
      exact ⟨_, by simpa using hmat⟩
    · exact ⟨_, by simpa using hchain 0 (by omega)⟩
  obtain ⟨v, hv⟩ := hv
  obtain ⟨p, hp, hp1, hp2⟩ := getCellProperties_chain st column row code m hm h0 h2 d L 0
    (by unfold transparencyDisplayLimit; omega) hL hchain hmat v hv
  exact ⟨v, p, hv, hp, hp1, by simpa using hp2⟩

/-- C1 at a concrete column: a ramp on layer 0 under three EMPTY cells, seen from layer 3
(its second glyph, the down-pointing triangle, is shown). -/
theorem getCellProperties_peek_glyph_witness :
    ∃ m, MATERIALS.properties MATERIALS.RAMP = some m ∧ ∃ v p,
      readCell (exampleState [[[7]], [[0]], [[0]], [[0]]] 1 1 0 0 0 3 0 0 3 false).map
        3 0 0 = some v ∧
      getCellProperties (exampleState [[[7]], [[0]], [[0]], [[0]]] 1 1 0 0 0 3 0 0 3 false)
        3 0 0 v 0 = some p ∧
      p.display = m.display ∧ p.character = specGlyph m 3 :=
  ⟨_, rfl, getCellProperties_peek_glyph
    (exampleState [[[7]], [[0]], [[0]], [[0]]] 1 1 0 0 0 3 0 0 3 false) 0 0 3 3 7 _
    (by decide) (by decide) (by decide) (by decide) (by decide) (by decide) rfl⟩

/-- C2: a transparent chain longer than the peek limit.  On a well-formed grid, viewed from
a layer `L ≥ 6` whose column holds EMPTY on the six layers `L, ..., L - 5`,
`getCellProperties(L, column, row, EMPTY)` returns "nothing to draw" (display `none`,
empty colour, `null` character), whatever the layers `L - 6` and below hold. -/
theorem getCellProperties_beyond_limit (st : State) (column row L : Int)
    (hg : GridOk st) (hb : InBounds st L column row) (hL : 6 ≤ L)
    (hchain : ∀ i : Nat, i ≤ 5 →
      readCell st.map (L - i) row column = some (.num MATERIALS.EMPTY)) :
    getCellProperties st L column row (.num MATERIALS.EMPTY) 0 =
      some { color := "", display := "none", character := .null } := by
  obtain ⟨_, hl1, _, _, hr0, hr1⟩ := hb
  have := getCellProperties_empties st column row L hg.dims hL hl1 hr0 hr1 hchain 5 0 rfl
  simpa [nothingToDraw] using this

/-- C2 at a concrete column: a floor on layer 0 under six EMPTY cells, seen from layer 6. -/
theorem getCellProperties_beyond_limit_witness :
    GridOk (exampleState [[[1]], [[0]], [[0]], [[0]], [[0]], [[0]], [[0]]] 1 1 0 0 0 6 0 0 6 false) ∧
    getCellProperties
      (exampleState [[[1]], [[0]], [[0]], [[0]], [[0]], [[0]], [[0]]] 1 1 0 0 0 6 0 0 6 false)
      6 0 0 (.num MATERIALS.EMPTY) 0 = some { color := "", display := "none", character := .null } :=
  ⟨by decide,
   getCellProperties_beyond_limit _ 0 0 6 (by decide) (by decide) (by decide) (by decide)⟩

/-- C4: an in-bounds cell holding STONE, viewed at its own layer.  `cellIsExposed` returns
a boolean; if it is `false` the result is "nothing to draw" (display `none`), if it is
`true` the result is the STONE descriptor: display `standard`, the stone colour `#8c8c8c`
(returned with the opaque alpha byte, `#8c8c8cff`) and `null` character. -/
theorem getCellProperties_stone_iff_exposed (st : State) (layer column row : Int)
    (hg : GridOk st) (hb : InBounds st layer column row)
    (hstone : readCell st.map layer row column = some (.num MATERIALS.STONE)) :
    ∃ v b, readCell st.map layer row column = some v ∧
      cellIsExposed st layer column row = some b ∧
      getCellProperties st layer column row v 0 =
        some (if b = true then { color := "#8c8c8cff", display := "standard", character := .null }
              else { color := "", display := "none", character := .null }) := by
  obtain ⟨b, hb1, _⟩ := cellIsExposed_spec st layer column row hg.dims hb
  refine ⟨_, b, hstone, hb1, ?_⟩
  rw [getCellProperties_stone st layer column row 0 (Nat.zero_le _), hb1]
  cases b <;>
    simp [stoneProperties, MATERIALS.properties, MATERIALS.STONE, elevationColorAdjustment,
      nothingToDraw]
  decide

/-- C4 at a concrete grid: the centre of a 3 by 3 stone layer whose lower right corner has
been dug out. -/
theorem getCellProperties_stone_iff_exposed_witness :
    ∃ v b,
      readCell (exampleState [[[2, 2, 2], [2, 2, 2], [2, 2, 1]]] 3 3 0 0 0 0 0 0 0 false).map
        0 1 1 = some v ∧
      cellIsExposed (exampleState [[[2, 2, 2], [2, 2, 2], [2, 2, 1]]] 3 3 0 0 0 0 0 0 0 false)
        0 1 1 = some b ∧
      getCellProperties (exampleState [[[2, 2, 2], [2, 2, 2], [2, 2, 1]]] 3 3 0 0 0 0 0 0 0 false)
        0 1 1 v 0 =
        some (if b = true then { color := "#8c8c8cff", display := "standard", character := .null }
              else { color := "", display := "none", character := .null }) :=
  getCellProperties_stone_iff_exposed _ 0 1 1 (by decide) (by decide) (by decide)


/-! ## Selection geometry -/

theorem length_loopOffsets (delta : Int) : (loopOffsets delta).length = delta.natAbs + 1 := by
  simp [loopOffsets]

theorem mem_loopOffsets (delta o : Int) :
    o ∈ loopOffsets delta ↔ min 0 delta ≤ o ∧ o ≤ max 0 delta := by
  unfold loopOffsets
  simp only [List.mem_map, List.mem_range]
  rcases lt_trichotomy delta 0 with h | h | h
  · rw [Int.sign_eq_neg_one_of_neg h]
    constructor
    · rintro ⟨k, hk, rfl⟩
      simp only [show ((-1 : Int) = 0) = False by simp, if_false]
      constructor <;> omega
    · rintro ⟨h1, h2⟩
      refine ⟨o.natAbs, by omega, ?_⟩
      simp only [show ((-1 : Int) = 0) = False by simp, if_false]
      omega
  · subst h
    constructor
    · rintro ⟨k, hk, rfl⟩
      simp at hk
      subst hk
      simp
    · rintro ⟨h1, h2⟩
      refine ⟨0, by simp, ?_⟩
      simp at h1 h2
      simp
      omega
  · rw [Int.sign_eq_one_of_pos h]
    constructor
    · rintro ⟨k, hk, rfl⟩
      simp only [show ((1 : Int) = 0) = False by simp, if_false]
      constructor <;> omega
    · rintro ⟨h1, h2⟩
      refine ⟨o.natAbs, by omega, ?_⟩
      simp only [show ((1 : Int) = 0) = False by simp, if_false]
      omega

theorem nodup_loopOffsets (delta : Int) : (loopOffsets delta).Nodup := by
  unfold loopOffsets
  refine List.Nodup.map_on ?_ (List.nodup_range _)
  intro a _ b _ hab
  have hs : (if Int.sign delta = 0 then (1 : Int) else Int.sign delta) ≠ 0 := by
    split_ifs with h
    · exact one_ne_zero
    · exact h
  exact_mod_cast mul_right_cancel₀ hs hab

theorem loopOffsets_zero : loopOffsets 0 = [0] := by
  decide

theorem length_flatMap_const {α β : Type} (l : List α) (f : α → List β) (n : Nat)
    (h : ∀ a ∈ l, (f a).length = n) : (l.flatMap f).length = l.length * n := by
  induction l with
  | nil => simp
  | cons a l ih =>
    rw [List.flatMap_cons, List.length_append, h a (List.mem_cons_self _ _),
      ih (fun b hb => h b (List.mem_cons_of_mem _ hb)), List.length_cons]
    ring

/-- The cells of the free-style branch of `getSelectedCells`. -/
theorem getSelectedCells_free_eq (MODES : Nat → Option Mode) (st : State) (mode : Mode)
    (hm : MODES st.selectedMode = some mode) (hs : mode.selection.style ≠ "fixed") :
    getSelectedCells MODES st =
      some ((loopOffsets (st.selectedLayer - st.selectedSourceLayer)).flatMap fun layerOffset =>
        (loopOffsets (st.selectedCellX - st.selectedSourceCellX)).flatMap fun xOffset =>
          (loopOffsets (st.selectedCellY - st.selectedSourceCellY)).map fun yOffset =>
            { x := st.selectedSourceCellX + xOffset,
              y := st.selectedSourceCellY + yOffset,
              z := st.selectedSourceLayer + layerOffset }) := by
  simp [getSelectedCells, hm, hs]

theorem mem_freeCells (sx sy sl dx dy dz : Int) (c : Cell) :
    (c ∈ (loopOffsets dz).flatMap fun layerOffset =>
        (loopOffsets dx).flatMap fun xOffset =>
          (loopOffsets dy).map fun yOffset =>
            ({ x := sx + xOffset, y := sy + yOffset, z := sl + layerOffset } : Cell)) ↔
      (min sx (sx + dx) ≤ c.x ∧ c.x ≤ max sx (sx + dx)) ∧
      (min sy (sy + dy) ≤ c.y ∧ c.y ≤ max sy (sy + dy)) ∧
      (min sl (sl + dz) ≤ c.z ∧ c.z ≤ max sl (sl + dz)) := by
  simp only [List.mem_flatMap, List.mem_map, mem_loopOffsets]
  constructor
  · rintro ⟨lo, hlo, xo, hxo, yo, hyo, rfl⟩
    simp only [min_def, max_def] at *
    refine ⟨⟨?_, ?_⟩, ⟨?_, ?_⟩, ?_, ?_⟩ <;> split_ifs at * <;> omega
  · rintro ⟨hx, hy, hz⟩
    refine ⟨c.z - sl, ?_, c.x - sx, ?_, c.y - sy, ?_, ?_⟩
    · simp only [min_def, max_def] at *
      constructor <;> split_ifs at * <;> omega
    · simp only [min_def, max_def] at *
      constructor <;> split_ifs at * <;> omega
    · simp only [min_def, max_def] at *
      constructor <;> split_ifs at * <;> omega
    · cases c
      simp

theorem nodup_freeCells (sx sy sl dx dy dz : Int) :
    ((loopOffsets dz).flatMap fun layerOffset =>
        (loopOffsets dx).flatMap fun xOffset =>
          (loopOffsets dy).map fun yOffset =>
            ({ x := sx + xOffset, y := sy + yOffset, z := sl + layerOffset } : Cell)).Nodup := by
  rw [List.nodup_flatMap]
  refine ⟨fun lo _ => ?_, ?_⟩
  · rw [List.nodup_flatMap]
    refine ⟨fun xo _ => ?_, ?_⟩
    · refine List.Nodup.map_on ?_ (nodup_loopOffsets dy)
      intro a _ b _ hab
      simpa using hab
    · refine List.Pairwise.imp_of_mem ?_ (nodup_loopOffsets dx)
      intro a b _ _ hab
      simp only [Function.onFun, List.disjoint_left, List.mem_map]
      rintro c ⟨y1, _, rfl⟩ ⟨y2, _, h2⟩
      simp only [Cell.mk.injEq] at h2
      omega
  · refine List.Pairwise.imp_of_mem ?_ (nodup_loopOffsets dz)
    intro a b _ _ hab
    simp only [Function.onFun, List.disjoint_left, List.mem_flatMap, List.mem_map]
    rintro c ⟨x1, _, y1, _, rfl⟩ ⟨x2, _, y2, _, h2⟩
    simp only [Cell.mk.injEq] at h2
    omega

theorem length_freeCells (sx sy sl dx dy dz : Int) :
    ((loopOffsets dz).flatMap fun layerOffset =>
        (loopOffsets dx).flatMap fun xOffset =>
          (loopOffsets dy).map fun yOffset =>
            ({ x := sx + xOffset, y := sy + yOffset, z := sl + layerOffset } : Cell)).length =
      (dz.natAbs + 1) * (dx.natAbs + 1) * (dy.natAbs + 1) := by
  rw [length_flatMap_const _ _ ((dx.natAbs + 1) * (dy.natAbs + 1)), length_loopOffsets, mul_assoc]
  intro lo _
  rw [length_flatMap_const _ _ (dy.natAbs + 1), length_loopOffsets]
  intro xo _
  rw [List.length_map, length_loopOffsets]

/-- C5: with an active mode whose style is not `fixed`, `getSelectedCells` returns a list
without duplicates, of length `(|dLayer| + 1) * (|dX| + 1) * (|dY| + 1)`, that contains a
cell `(x, y, z)` exactly when `x`, `y` and `z` lie between the anchor's and the cursor's
column, row and layer (inclusive); when anchor and cursor coincide it is that one cell. -/
theorem getSelectedCells_free_box (MODES : Nat → Option Mode) (st : State) (mode : Mode)
    (hm : MODES st.selectedMode = some mode) (hs : mode.selection.style ≠ "fixed") :
    ∃ cells, getSelectedCells MODES st = some cells ∧ cells.Nodup ∧
      cells.length =
        ((st.selectedLayer - st.selectedSourceLayer).natAbs + 1) *
        ((st.selectedCellX - st.selectedSourceCellX).natAbs + 1) *
        ((st.selectedCellY - st.selectedSourceCellY).natAbs + 1) ∧
      (∀ c : Cell, c ∈ cells ↔
        (min st.selectedSourceCellX st.selectedCellX ≤ c.x ∧
          c.x ≤ max st.selectedSourceCellX st.selectedCellX) ∧
        (min st.selectedSourceCellY st.selectedCellY ≤ c.y ∧
          c.y ≤ max st.selectedSourceCellY st.selectedCellY) ∧
        (min st.selectedSourceLayer st.selectedLayer ≤ c.z ∧
          c.z ≤ max st.selectedSourceLayer st.selectedLayer)) ∧
      (st.selectedSourceCellX = st.selectedCellX → st.selectedSourceCellY = st.selectedCellY →
        st.selectedSourceLayer = st.selectedLayer →
        cells = [{ x := st.selectedCellX, y := st.selectedCellY, z := st.selectedLayer }]) := by
  refine ⟨_, getSelectedCells_free_eq MODES st mode hm hs, nodup_freeCells _ _ _ _ _ _,
    length_freeCells _ _ _ _ _ _, ?_, ?_⟩
  · intro c
    rw [mem_freeCells]
    simp only [add_sub_cancel]
  · intro hx hy hz
    rw [hx, hy, hz]
    simp [loopOffsets_zero]

/-- C5 at the example of the specification: anchor `(0, 0, 0)` and cursor `(1, 2, 0)` in the
free-style mode "Dig Flooring" give the 6 cells of columns 0-1, rows 0-2, layer 0. -/
theorem getSelectedCells_free_box_witness :
    ∃ cells, getSelectedCells MODES.properties
        (exampleState [[[2, 2], [2, 2], [2, 2]]] 3 2 0 1 2 0 0 0 0 true) = some cells ∧
      cells.Nodup ∧ cells.length = 6 ∧
      ∀ c : Cell, c ∈ cells ↔ (0 ≤ c.x ∧ c.x ≤ 1) ∧ (0 ≤ c.y ∧ c.y ≤ 2) ∧ (0 ≤ c.z ∧ c.z ≤ 0) := by
  obtain ⟨cells, h1, h2, h3, h4, _⟩ := getSelectedCells_free_box MODES.properties
    (exampleState [[[2, 2], [2, 2], [2, 2]]] 3 2 0 1 2 0 0 0 0 true) _ rfl (by decide)
  exact ⟨cells, h1, h2, h3, h4⟩


/-! ## Placement: the weighted draw -/

theorem runningTotalFrom_cons_succ (sum : JsNumber) (m : ModeMaterial)
    (rest : List ModeMaterial) (n : Nat) :
    runningTotalFrom sum (m :: rest) (n + 1) =
      runningTotalFrom (sum.add (toDouble m.chance)) rest n := by
  simp [runningTotalFrom]

/-- The draw loop entered with running sum `sum`: it stops at the first entry at which the
running total, continued from `sum` in double arithmetic, reaches the draw `r`; if the
total reaches `r` at no entry, the loop ends without a choice. -/
theorem pickMaterial_first (materials : List ModeMaterial) :
    ∀ (sum : JsNumber) (r : ℚ),
      (pickMaterial materials sum r = none ∧
        ∀ i, i < materials.length →
          JsNumber.le (.finite r) (runningTotalFrom sum materials (i + 1)) = false) ∨
      ∃ i m, materials[i]? = some m ∧ pickMaterial materials sum r = some m ∧
        JsNumber.le (.finite r) (runningTotalFrom sum materials (i + 1)) = true ∧
        ∀ j, j < i → JsNumber.le (.finite r) (runningTotalFrom sum materials (j + 1)) = false := by
  induction materials with
  | nil =>
    intro sum r
    exact Or.inl ⟨rfl, fun i hi => absurd hi (Nat.not_lt_zero i)⟩
  | cons m rest ih =>
    intro sum r
    have h0 : runningTotalFrom sum (m :: rest) (0 + 1) = sum.add (toDouble m.chance) := by
      simp [runningTotalFrom]
    by_cases hle : JsNumber.le (.finite r) (sum.add (toDouble m.chance)) = true
    · refine Or.inr ⟨0, m, by simp, by simp [pickMaterial, hle], ?_,
        fun j hj => absurd hj (Nat.not_lt_zero j)⟩
      rw [h0]
      exact hle
    · have hfalse : JsNumber.le (.finite r) (sum.add (toDouble m.chance)) = false := by
        simpa using hle
      rcases ih (sum.add (toDouble m.chance)) r with ⟨hnone, hall⟩ | ⟨i, m', h1, h2, h3, h4⟩
      · refine Or.inl ⟨by simp [pickMaterial, hfalse, hnone], fun i hi => ?_⟩
        cases i with
        | zero => rw [h0]; exact hfalse
        | succ i =>
          rw [runningTotalFrom_cons_succ]
          exact hall i (by simpa using hi)
      · refine Or.inr ⟨i + 1, m', by simpa using h1, by simp [pickMaterial, hfalse, h2], ?_, ?_⟩
        · rw [runningTotalFrom_cons_succ]
          exact h3
        · intro j hj
          cases j with
          | zero => rw [h0]; exact hfalse
          | succ j =>
            rw [runningTotalFrom_cons_succ]
            exact h4 j (by omega)

/-- A draw below 1 is reached by every total that 1 is reached by. -/
theorem JsNumber.le_of_lt_one {r : ℚ} {total : JsNumber} (hr : r < 1)
    (h : JsNumber.le (.finite 1) total = true) : JsNumber.le (.finite r) total = true := by
  cases total with
  | finite q =>
    simp only [JsNumber.le, decide_eq_true_eq] at h ⊢
    linarith
  | infinity negative => exact h
  | nan => exact h

/-- A recipe of two or more entries whose running total ends at 1 or more: every draw
below 1 chooses an entry of the recipe. -/
theorem chooseMaterial_of_total (materials : List ModeMaterial) (r : ℚ)
    (hlen : 2 ≤ materials.length)
    (htotal : JsNumber.le (.finite 1) (runningTotal materials materials.length) = true)
    (hr : r < 1) :
    ∃ i m, materials[i]? = some m ∧ m ∈ materials ∧ chooseMaterial materials r = some m ∧
      JsNumber.le (.finite r) (runningTotal materials (i + 1)) = true ∧
      ∀ j, j < i → JsNumber.le (.finite r) (runningTotal materials (j + 1)) = false := by
  have hchoose : chooseMaterial materials r = pickMaterial materials (.finite 0) r := by
    unfold chooseMaterial
    rw [if_pos (by omega)]
  rcases pickMaterial_first materials (.finite 0) r with ⟨-, hall⟩ | ⟨i, m, h1, h2, h3, h4⟩
  · have hlast := hall (materials.length - 1) (by omega)
    rw [show materials.length - 1 + 1 = materials.length by omega] at hlast
    have := JsNumber.le_of_lt_one hr htotal
    unfold runningTotal at this
    rw [hlast] at this
    cases this
  · exact ⟨i, m, h1, List.getElem?_mem h1, hchoose.trans h2, h3, h4⟩

/-- When nothing is chosen, the callback raises at `material.value`. -/
theorem placeMaterial_of_none (materials : List ModeMaterial) (random : Nat → ℚ) (c : Cell)
    (map : Grid) (k : Nat) (h : chooseMaterial materials (random k) = none) :
    placeMaterial materials random c (map, k) = .typeError (map, k) := by
  simp [placeMaterial, h]

/-- The original C8 fails in the arithmetic of the code.  The chances 0.1, 0.2, 0.7 are
non-negative and sum to exactly 1, and the draw `r = 0.30000000000000004` (the double
`1351079888211149 / 2 ^ 52`) lies in `[0, 1)`.  The smallest index `i` with
`r ≤ weight_0 + ... + weight_i` is 2, since `0.1 + 0.2 = 0.3 < r`; but the running total
the code forms after entry 1 is the double `0.30000000000000004`, so the entry chosen is
entry 1 (value 4).  And for the chances 0.06, 0.57, 0.08, 0.29, which also sum to exactly
1, the running total ends at `1 - 2 ^ -52`: for the draw `1 - 2 ^ -53` no entry is chosen
and the callback raises. -/
theorem chooseMaterial_exact_sum_counterexample :
    2 ≤ tenthsRecipe.length ∧ (∀ m ∈ tenthsRecipe, 0 ≤ m.chance) ∧
    (tenthsRecipe.map (fun m => m.chance)).sum = 1 ∧
    (0 : ℚ) ≤ 1351079888211149 / 4503599627370496 ∧
    (1351079888211149 / 4503599627370496 : ℚ) < 1 ∧
    ¬ (1351079888211149 / 4503599627370496 : ℚ) ≤ cumulativeChance tenthsRecipe 1 ∧
    ¬ (1351079888211149 / 4503599627370496 : ℚ) ≤ cumulativeChance tenthsRecipe 2 ∧
    (1351079888211149 / 4503599627370496 : ℚ) ≤ cumulativeChance tenthsRecipe 3 ∧
    (chooseMaterial tenthsRecipe (1351079888211149 / 4503599627370496)).map
      (fun m => m.value) = some 4 ∧
    tenthsRecipe[1]?.map (fun m => m.value) = some 4 ∧
    2 ≤ hundredthsRecipe.length ∧ (∀ m ∈ hundredthsRecipe, 0 ≤ m.chance) ∧
    (hundredthsRecipe.map (fun m => m.chance)).sum = 1 ∧
    (0 : ℚ) ≤ 9007199254740991 / 9007199254740992 ∧
    (9007199254740991 / 9007199254740992 : ℚ) < 1 ∧
    (chooseMaterial hundredthsRecipe (9007199254740991 / 9007199254740992)).isNone = true ∧
    ∀ (c : Cell) (map : Grid),
      (placeMaterial hundredthsRecipe (fun _ => 9007199254740991 / 9007199254740992) c
        (map, 0)).raised = true := by
  have hnone : chooseMaterial hundredthsRecipe (9007199254740991 / 9007199254740992) = none :=
    Option.isNone_iff_eq_none.mp (by decide!)
  refine ⟨by decide, ?_, by norm_num [tenthsRecipe], by norm_num, by norm_num,
    by norm_num [tenthsRecipe, cumulativeChance], by norm_num [tenthsRecipe, cumulativeChance],
    by norm_num [tenthsRecipe, cumulativeChance], by decide!, by decide, by decide, ?_,
    by norm_num [hundredthsRecipe], by norm_num, by norm_num, by rw [hnone]; rfl, ?_⟩
  · intro m hm
    simp only [tenthsRecipe, List.mem_cons, List.mem_singleton, List.not_mem_nil,
      or_false] at hm
    rcases hm with rfl | rfl | rfl <;> norm_num
  · intro m hm
    simp only [hundredthsRecipe, List.mem_cons, List.mem_singleton, List.not_mem_nil,
      or_false] at hm
    rcases hm with rfl | rfl | rfl | rfl <;> norm_num
  · intro c map
    rw [placeMaterial_of_none hundredthsRecipe _ c map 0 hnone]
    rfl

/-- C8 (amended): the weighted draw of the free-style commit, in the double arithmetic of
the code.  For a recipe of two or more entries and a draw `r`, with the running totals
formed as the code forms them (weights added one after the other, every sum rounded to a
double): the entry chosen is the one of smallest index at which the running total reaches
`r`, and its value is what the commit writes into the cell; if the running total reaches
`r` at no entry, nothing is chosen and the callback raises.  If the running total of the
whole recipe is 1 or more, every draw `r < 1` chooses an entry of the recipe. -/
theorem chooseMaterial_first_runningTotal (materials : List ModeMaterial) (r : ℚ)
    (hlen : 2 ≤ materials.length) :
    (∀ i, i < materials.length →
      JsNumber.le (.finite r) (runningTotal materials (i + 1)) = true →
      (∀ j, j < i → JsNumber.le (.finite r) (runningTotal materials (j + 1)) = false) →
      ∃ m, materials[i]? = some m ∧ m ∈ materials ∧ chooseMaterial materials r = some m ∧
        ∀ (random : Nat → ℚ) (k : Nat) (c : Cell) (map map' : Grid), random k = r →
          writeCell map c.z c.y c.x m.value = some map' →
          placeMaterial materials random c (map, k) = .normal (map', k + 1)) ∧
    ((∀ i, i < materials.length →
        JsNumber.le (.finite r) (runningTotal materials (i + 1)) = false) →
      chooseMaterial materials r = none ∧
      ∀ (random : Nat → ℚ) (k : Nat) (c : Cell) (map : Grid), random k = r →
        placeMaterial materials random c (map, k) = .typeError (map, k)) ∧
    (JsNumber.le (.finite 1) (runningTotal materials materials.length) = true → r < 1 →
      ∃ i m, materials[i]? = some m ∧ m ∈ materials ∧ chooseMaterial materials r = some m ∧
        JsNumber.le (.finite r) (runningTotal materials (i + 1)) = true ∧
        ∀ j, j < i → JsNumber.le (.finite r) (runningTotal materials (j + 1)) = false) := by
  have hchoose : chooseMaterial materials r = pickMaterial materials (.finite 0) r := by
    unfold chooseMaterial
    rw [if_pos (by omega)]
  refine ⟨fun i hi hreach hfirst => ?_, fun hall => ?_,
    fun htotal hr => chooseMaterial_of_total materials r hlen htotal hr⟩
  · rcases pickMaterial_first materials (.finite 0) r with ⟨-, hall⟩ | ⟨i', m, h1, h2, h3, h4⟩
    · have := hall i hi
      unfold runningTotal at hreach
      rw [hreach] at this
      cases this
    · have hi' : i' < materials.length := by
        rcases List.getElem?_eq_some_iff.mp h1 with ⟨h, -⟩
        exact h
      have heq : i' = i := by
        rcases Nat.lt_trichotomy i' i with hlt | heq | hgt
        · have := hfirst i' hlt
          unfold runningTotal at this
          rw [h3] at this
          cases this
        · exact heq
        · have := h4 i hgt
          unfold runningTotal at hreach
          rw [hreach] at this
          cases this
      subst heq
      refine ⟨m, h1, List.getElem?_mem h1, hchoose.trans h2, ?_⟩
      intro random k c map map' hrk hw
      simp [placeMaterial, hrk, hchoose, h2, hw]
  · rcases pickMaterial_first materials (.finite 0) r with ⟨hnone, -⟩ | ⟨i', m, h1, -, h3, -⟩
    · refine ⟨hchoose.trans hnone, ?_⟩
      intro random k c map hrk
      exact placeMaterial_of_none materials random c map k
        (by rw [hrk]; exact hchoose.trans hnone)
    · have hi' : i' < materials.length := by
        rcases List.getElem?_eq_some_iff.mp h1 with ⟨h, -⟩
        exact h
      have := hall i' hi'
      unfold runningTotal at this
      rw [h3] at this
      cases this

/-- C8 (amended) at the grass recipe (chances 0.83, 0.15, 0.02), whose running totals are
the doubles 0.83, 0.98 and 1, with the draw 0.9: an entry is chosen. -/
theorem chooseMaterial_first_runningTotal_witness :
    2 ≤ MODES.grassRecipe.length ∧
    JsNumber.le (.finite 1) (runningTotal MODES.grassRecipe MODES.grassRecipe.length) = true ∧
    ∃ i m, MODES.grassRecipe[i]? = some m ∧ m ∈ MODES.grassRecipe ∧
      chooseMaterial MODES.grassRecipe (9 / 10) = some m ∧
      JsNumber.le (.finite (9 / 10)) (runningTotal MODES.grassRecipe (i + 1)) = true ∧
      ∀ j, j < i →
        JsNumber.le (.finite (9 / 10)) (runningTotal MODES.grassRecipe (j + 1)) = false :=
  ⟨by decide, by decide!,
   (chooseMaterial_first_runningTotal MODES.grassRecipe (9 / 10) (by decide)).2.2 (by decide!)
     (by norm_num)⟩


/-! ## Placement: the free-style commit -/

theorem forEachC_append {α σ : Type} (body : α → σ → Completion σ) (l₁ l₂ : List α) (s : σ) :
    forEachC body (l₁ ++ l₂) s =
      match forEachC body l₁ s with
      | .normal s' => forEachC body l₂ s'
      | .typeError s' => .typeError s' := by
  induction l₁ generalizing s with
  | nil => rfl
  | cons a l ih =>
    simp only [List.cons_append, forEachC]
    cases body a s with
    | normal s' => exact ih s'
    | typeError s' => rfl

/-- The `forEach` of the free-style commit on a grid whose outer dimensions are `L` by `R`,
over cells whose layer and row exist, when every draw yields an entry of the recipe: the
loop ends normally, cells outside the list keep their value and every cell of the list
holds the value of some recipe entry. -/
theorem forEachC_placeMaterial (materials : List ModeMaterial) (random : Nat → ℚ) (L R : Int)
    (hpick : ∀ k, ∃ m ∈ materials, chooseMaterial materials (random k) = some m)
    (cells : List Cell) :
    ∀ (map : Grid) (k : Nat), GridDims map L R →
      (∀ c ∈ cells, 0 ≤ c.z ∧ c.z < L ∧ 0 ≤ c.y ∧ c.y < R) →
      ∃ map', forEachC (placeMaterial materials random) cells (map, k) =
          .normal (map', k + cells.length) ∧
        GridDims map' L R ∧
        (∀ l y x : Int, ({ x := x, y := y, z := l } : Cell) ∉ cells →
          readCell map' l y x = readCell map l y x) ∧
        (∀ l y x : Int, ({ x := x, y := y, z := l } : Cell) ∈ cells →
          ∃ m ∈ materials, readCell map' l y x = some (.num m.value)) := by
  induction cells with
  | nil =>
    intro map k hd _
    exact ⟨map, rfl, hd, fun _ _ _ _ => rfl, fun _ _ _ h => absurd h (List.not_mem_nil _)⟩
  | cons c cs ih =>
    intro map k hd hin
    obtain ⟨m, hmem, hm⟩ := hpick k
    obtain ⟨hz0, hz1, hy0, hy1⟩ := hin c (List.mem_cons_self _ _)
    obtain ⟨map1, hw⟩ := writeCell_isSome hd c.z c.y c.x m.value hz0 hz1 hy0 hy1
    have hd1 := writeCell_dims hw hd
    obtain ⟨map', h1, h2, h3, h4⟩ := ih map1 (k + 1) hd1
      (fun c' hc' => hin c' (List.mem_cons_of_mem _ hc'))
    refine ⟨map', ?_, h2, ?_, ?_⟩
    · simp only [forEachC, placeMaterial, hm, hw, h1, List.length_cons]
      congr 2
      omega
    · intro l y x hnot
      rw [List.mem_cons, not_or] at hnot
      rw [h3 l y x hnot.2, readCell_writeCell hw]
      have : ¬ (l = c.z ∧ y = c.y ∧ x = c.x) := by
        rintro ⟨rfl, rfl, rfl⟩
        exact hnot.1 rfl
      simp [this]
    · intro l y x hmem'
      by_cases hcs : ({ x := x, y := y, z := l } : Cell) ∈ cs
      · exact h4 l y x hcs
      · rcases List.mem_cons.mp hmem' with heq | h
        · refine ⟨m, hmem, ?_⟩
          rw [h3 l y x hcs, readCell_writeCell hw, ← heq]
          simp
        · exact absurd h hcs

/-- C7: a free-style mode whose recipe is the single entry `m`, a selection in progress,
anchor and cursor inside a well-formed grid.  `cellSelect` runs to its end and leaves one
and the same state whatever `Math.random()` would return, and in that state every cell of
the inclusive box between anchor and cursor holds `m.value`. -/
theorem cellSelect_free_single (MODES : Nat → Option Mode) (st : State) (mode : Mode)
    (m : ModeMaterial) (hm : MODES st.selectedMode = some mode)
    (hstyle : mode.selection.style = "free") (hrecipe : mode.materials = [m])
    (hprogress : st.selectionInProgress = true) (hg : GridOk st)
    (hanchor : InBounds st st.selectedSourceLayer st.selectedSourceCellX st.selectedSourceCellY)
    (hcursor : InBounds st st.selectedLayer st.selectedCellX st.selectedCellY) :
    ∃ st', (∀ random : Nat → ℚ, cellSelect MODES random st = .normal st') ∧
      ∀ x y z : Int,
        min st.selectedSourceCellX st.selectedCellX ≤ x →
        x ≤ max st.selectedSourceCellX st.selectedCellX →
        min st.selectedSourceCellY st.selectedCellY ≤ y →
        y ≤ max st.selectedSourceCellY st.selectedCellY →
        min st.selectedSourceLayer st.selectedLayer ≤ z →
        z ≤ max st.selectedSourceLayer st.selectedLayer →
        readCell st'.map z y x = some (.num m.value) := by
  have hnf : mode.selection.style ≠ "fixed" := by rw [hstyle]; decide
  have hcells := getSelectedCells_free_eq MODES st mode hm hnf
  obtain ⟨ha0, ha1, ha2, ha3, ha4, ha5⟩ := hanchor
  obtain ⟨hc0, hc1, hc2, hc3, hc4, hc5⟩ := hcursor
  have hmem := fun c => mem_freeCells st.selectedSourceCellX st.selectedSourceCellY
    st.selectedSourceLayer (st.selectedCellX - st.selectedSourceCellX)
    (st.selectedCellY - st.selectedSourceCellY) (st.selectedLayer - st.selectedSourceLayer) c
  simp only [add_sub_cancel] at hmem
  have hpick : ∀ random : Nat → ℚ, ∀ k, ∃ m' ∈ [m], chooseMaterial [m] (random k) = some m' :=
    fun random k => ⟨m, List.mem_singleton.mpr rfl, by simp [chooseMaterial]⟩
  have hloop := fun random => forEachC_placeMaterial [m] random st.layers st.layerRows
    (hpick random) _ st.map 0 hg.dims (fun c hc => by
      have := (hmem c).mp hc
      simp only [min_def, max_def] at this
      obtain ⟨_, ⟨h3, h4⟩, h5, h6⟩ := this
      refine ⟨?_, ?_, ?_, ?_⟩ <;> split_ifs at * <;> omega)
  -- the grid written does not depend on the draws: it is determined by its reads
  obtain ⟨map0, hrun0, -, -, hval0⟩ := hloop (fun _ => 0)
  have hsame : ∀ random : Nat → ℚ, ∀ cells (s : Grid × Nat),
      forEachC (placeMaterial [m] random) cells s =
        forEachC (placeMaterial [m] (fun _ => 0)) cells s := by
    intro random cells
    induction cells with
    | nil => intro s; rfl
    | cons c cs ih =>
      intro s
      simp only [forEachC, placeMaterial, chooseMaterial, List.length_singleton,
        gt_iff_lt, lt_self_iff_false, if_false]
      cases hcm : ([m] : List ModeMaterial)[0]? with
      | none => rfl
      | some mat =>
        simp only []
        cases writeCell s.1 c.z c.y c.x mat.value with
        | none => rfl
        | some map1 => exact ih _
  refine ⟨{ st with map := map0, selectionInProgress := false }, ?_, ?_⟩
  · intro random
    unfold cellSelect
    simp only [hprogress, if_true, hm, hstyle, hrecipe, hcells]
    rw [hsame random, hrun0]
    simp
  · intro x y z hx0 hx1 hy0 hy1 hz0 hz1
    obtain ⟨m', hm', hread⟩ := hval0 z y x ((hmem _).mpr ⟨⟨hx0, hx1⟩, ⟨hy0, hy1⟩, hz0, hz1⟩)
    rw [List.mem_singleton.mp hm'] at hread
    exact hread

/-- C7 at a concrete state: "Dig Flooring" (the single entry FLOOR) committed on the box
between anchor `(0, 0, 0)` and cursor `(1, 2, 0)` of a 3 by 2 stone layer. -/
theorem cellSelect_free_single_witness :
    ∃ st', (∀ random : Nat → ℚ, cellSelect MODES.properties random
        (exampleState [[[2, 2], [2, 2], [2, 2]]] 3 2 0 1 2 0 0 0 0 true) = .normal st') ∧
      ∀ x y z : Int, 0 ≤ x → x ≤ 1 → 0 ≤ y → y ≤ 2 → 0 ≤ z → z ≤ 0 →
        readCell st'.map z y x = some (.num MATERIALS.FLOOR) :=
  cellSelect_free_single MODES.properties
    (exampleState [[[2, 2], [2, 2], [2, 2]]] 3 2 0 1 2 0 0 0 0 true) _ (MODES.sure 1)
    rfl rfl rfl rfl (by decide) (by decide) (by decide)


/-! ## Placement: the fixed-style commit -/

theorem preCursor_eq_specPre (d : Int) (h : 0 ≤ d) : preCursor d = specPre d := by
  unfold preCursor specPre
  by_cases h1 : d > 1
  · by_cases h2 : d % 2 = 0 <;> simp [h1, h2]
  · have h3 : d = 0 ∨ d = 1 := by omega
    rcases h3 with rfl | rfl <;> decide

/-- The inner loop of the fixed-style commit over the first `n` columns of footprint row
`row`, entered with `materialIndex = idx`, when the recipe still has `n` entries. -/
theorem forEachC_placeFixed_row (st : State) (materials : List ModeMaterial) (pc pr : Int)
    (row : Nat) (L R : Int) (hl0 : 0 ≤ st.selectedLayer) (hl1 : st.selectedLayer < L)
    (hy0 : 0 ≤ st.selectedCellY - pr + row) (hy1 : st.selectedCellY - pr + row < R) (n : Nat) :
    ∀ (map : Grid) (idx : Nat), GridDims map L R → idx + n ≤ materials.length →
      ∃ map', forEachC (placeFixed st materials pc pr row) (List.range n) (map, idx) =
          .normal (map', idx + n) ∧
        GridDims map' L R ∧
        ∀ l y x : Int, readCell map' l y x =
          if l = st.selectedLayer ∧ y = st.selectedCellY - pr + row ∧
              st.selectedCellX - pc ≤ x ∧ x < st.selectedCellX - pc + n then
            (materials[idx + (x - (st.selectedCellX - pc)).toNat]?).map
              (fun m => JsVal.num m.value)
          else readCell map l y x := by
  induction n with
  | zero =>
    intro map idx hd _
    refine ⟨map, rfl, hd, fun l y x => ?_⟩
    have : ¬ (l = st.selectedLayer ∧ y = st.selectedCellY - pr + row ∧
        st.selectedCellX - pc ≤ x ∧ x < st.selectedCellX - pc + ((0 : Nat) : Int)) := by
      rintro ⟨_, _, h1, h2⟩
      omega
    rw [if_neg this]
  | succ n ih =>
    intro map idx hd hlen
    obtain ⟨map1, hrun, hd1, hread⟩ := ih map idx hd (by omega)
    have hlt : idx + n < materials.length := by omega
    obtain ⟨map2, hw⟩ := writeCell_isSome hd1 st.selectedLayer (st.selectedCellY - pr + row)
      (st.selectedCellX - pc + n) (materials[idx + n]).value hl0 hl1 hy0 hy1
    refine ⟨map2, ?_, writeCell_dims hw hd1, fun l y x => ?_⟩
    · rw [List.range_succ, forEachC_append, hrun]
      simp only [forEachC, placeFixed, List.getElem?_eq_getElem hlt, hw]
      rw [if_pos (by omega)]
      rfl
    · rw [readCell_writeCell hw, hread]
      by_cases hx : x = st.selectedCellX - pc + n
      · by_cases hly : l = st.selectedLayer ∧ y = st.selectedCellY - pr + row
        · have h1 : l = st.selectedLayer ∧ y = st.selectedCellY - pr + row ∧
              x = st.selectedCellX - pc + n := ⟨hly.1, hly.2, hx⟩
          have h2 : l = st.selectedLayer ∧ y = st.selectedCellY - pr + row ∧
              st.selectedCellX - pc ≤ x ∧ x < st.selectedCellX - pc + ((n + 1 : Nat) : Int) :=
            ⟨hly.1, hly.2, by omega, by push_cast; omega⟩
          rw [if_pos h1, if_pos h2]
          have h3 : (x - (st.selectedCellX - pc)).toNat = n := by omega
          rw [h3, List.getElem?_eq_getElem hlt]
          rfl
        · have h1 : ¬ (l = st.selectedLayer ∧ y = st.selectedCellY - pr + row ∧
              x = st.selectedCellX - pc + n) := fun h => hly ⟨h.1, h.2.1⟩
          have h2 : ¬ (l = st.selectedLayer ∧ y = st.selectedCellY - pr + row ∧
              st.selectedCellX - pc ≤ x ∧ x < st.selectedCellX - pc + ((n + 1 : Nat) : Int)) :=
            fun h => hly ⟨h.1, h.2.1⟩
          have h3 : ¬ (l = st.selectedLayer ∧ y = st.selectedCellY - pr + row ∧
              st.selectedCellX - pc ≤ x ∧ x < st.selectedCellX - pc + (n : Int)) :=
            fun h => hly ⟨h.1, h.2.1⟩
          rw [if_neg h1, if_neg h2, if_neg h3]
      · have h1 : ¬ (l = st.selectedLayer ∧ y = st.selectedCellY - pr + row ∧
            x = st.selectedCellX - pc + n) := fun h => hx h.2.2
        rw [if_neg h1]
        have hiff : (l = st.selectedLayer ∧ y = st.selectedCellY - pr + row ∧
              st.selectedCellX - pc ≤ x ∧ x < st.selectedCellX - pc + ((n + 1 : Nat) : Int)) ↔
            (l = st.selectedLayer ∧ y = st.selectedCellY - pr + row ∧
              st.selectedCellX - pc ≤ x ∧ x < st.selectedCellX - pc + (n : Int)) := by
          push_cast
          constructor
          · rintro ⟨a, b, c, d⟩
            exact ⟨a, b, c, by omega⟩
          · rintro ⟨a, b, c, d⟩
            exact ⟨a, b, c, by omega⟩
        simp only [hiff]

/-- The two nested loops of the fixed-style commit over the first `n` rows of a footprint
`w` wide, when the recipe has at least `n * w` entries. -/
theorem forEachC_placeFixed_rows (st : State) (materials : List ModeMaterial) (pc pr : Int)
    (w : Nat) (L R : Int) (hl0 : 0 ≤ st.selectedLayer) (hl1 : st.selectedLayer < L) (n : Nat) :
    ∀ (map : Grid), GridDims map L R → n * w ≤ materials.length →
      (∀ r : Nat, r < n → 0 ≤ st.selectedCellY - pr + r ∧ st.selectedCellY - pr + r < R) →
      ∃ map', forEachC (fun row => forEachC (placeFixed st materials pc pr row) (List.range w))
          (List.range n) (map, 0) = .normal (map', n * w) ∧
        GridDims map' L R ∧
        ∀ l y x : Int, readCell map' l y x =
          if l = st.selectedLayer ∧
              (st.selectedCellY - pr ≤ y ∧ y < st.selectedCellY - pr + n) ∧
              st.selectedCellX - pc ≤ x ∧ x < st.selectedCellX - pc + w then
            (materials[(y - (st.selectedCellY - pr)).toNat * w +
                (x - (st.selectedCellX - pc)).toNat]?).map (fun m => JsVal.num m.value)
          else readCell map l y x := by
  induction n with
  | zero =>
    intro map hd _ _
    refine ⟨map, by simp [forEachC], hd, fun l y x => ?_⟩
    have : ¬ (l = st.selectedLayer ∧
        (st.selectedCellY - pr ≤ y ∧ y < st.selectedCellY - pr + ((0 : Nat) : Int)) ∧
        st.selectedCellX - pc ≤ x ∧ x < st.selectedCellX - pc + w) := by
      rintro ⟨_, ⟨h1, h2⟩, _⟩
      omega
    rw [if_neg this]
  | succ n ih =>
    intro map hd hlen hrows
    have hmul : (n + 1) * w = n * w + w := by ring
    obtain ⟨map1, hrun, hd1, hread⟩ := ih map hd (by omega) (fun r hr => hrows r (by omega))
    obtain ⟨hy0, hy1⟩ := hrows n (by omega)
    obtain ⟨map2, hrun2, hd2, hread2⟩ := forEachC_placeFixed_row st materials pc pr n L R hl0 hl1
      hy0 hy1 w map1 (n * w) hd1 (by omega)
    refine ⟨map2, ?_, hd2, fun l y x => ?_⟩
    · rw [List.range_succ, forEachC_append, hrun]
      simp only [forEachC, hrun2, hmul]
    · rw [hread2, hread]
      by_cases hl : l = st.selectedLayer
      · by_cases hx : st.selectedCellX - pc ≤ x ∧ x < st.selectedCellX - pc + w
        · by_cases hy : y = st.selectedCellY - pr + n
          · have h1 : l = st.selectedLayer ∧ y = st.selectedCellY - pr + n ∧
                st.selectedCellX - pc ≤ x ∧ x < st.selectedCellX - pc + w := ⟨hl, hy, hx⟩
            have h2 : l = st.selectedLayer ∧
                (st.selectedCellY - pr ≤ y ∧ y < st.selectedCellY - pr + ((n + 1 : Nat) : Int)) ∧
                st.selectedCellX - pc ≤ x ∧ x < st.selectedCellX - pc + w :=
              ⟨hl, ⟨by omega, by push_cast; omega⟩, hx⟩
            rw [if_pos h1, if_pos h2]
            have h3 : (y - (st.selectedCellY - pr)).toNat = n := by omega
            rw [h3]
          · have h1 : ¬ (l = st.selectedLayer ∧ y = st.selectedCellY - pr + n ∧
                st.selectedCellX - pc ≤ x ∧ x < st.selectedCellX - pc + w) := fun h => hy h.2.1
            rw [if_neg h1]
            have hiff : (l = st.selectedLayer ∧
                  (st.selectedCellY - pr ≤ y ∧
                    y < st.selectedCellY - pr + ((n + 1 : Nat) : Int)) ∧
                  st.selectedCellX - pc ≤ x ∧ x < st.selectedCellX - pc + w) ↔
                (l = st.selectedLayer ∧
                  (st.selectedCellY - pr ≤ y ∧ y < st.selectedCellY - pr + (n : Int)) ∧
                  st.selectedCellX - pc ≤ x ∧ x < st.selectedCellX - pc + w) := by
              push_cast
              constructor
              · rintro ⟨a, ⟨b, c⟩, d⟩
                exact ⟨a, ⟨b, by omega⟩, d⟩
              · rintro ⟨a, ⟨b, c⟩, d⟩
                exact ⟨a, ⟨b, by omega⟩, d⟩
            simp only [hiff]
        · have h1 : ¬ (l = st.selectedLayer ∧ y = st.selectedCellY - pr + n ∧
              st.selectedCellX - pc ≤ x ∧ x < st.selectedCellX - pc + w) := fun h => hx h.2.2
          have h2 : ¬ (l = st.selectedLayer ∧
              (st.selectedCellY - pr ≤ y ∧ y < st.selectedCellY - pr + ((n + 1 : Nat) : Int)) ∧
              st.selectedCellX - pc ≤ x ∧ x < st.selectedCellX - pc + w) := fun h => hx h.2.2
          have h3 : ¬ (l = st.selectedLayer ∧
              (st.selectedCellY - pr ≤ y ∧ y < st.selectedCellY - pr + (n : Int)) ∧
              st.selectedCellX - pc ≤ x ∧ x < st.selectedCellX - pc + w) := fun h => hx h.2.2
          rw [if_neg h1, if_neg h2, if_neg h3]
      · have h1 : ¬ (l = st.selectedLayer ∧ y = st.selectedCellY - pr + n ∧
            st.selectedCellX - pc ≤ x ∧ x < st.selectedCellX - pc + w) := fun h => hl h.1
        have h2 : ¬ (l = st.selectedLayer ∧
            (st.selectedCellY - pr ≤ y ∧ y < st.selectedCellY - pr + ((n + 1 : Nat) : Int)) ∧
            st.selectedCellX - pc ≤ x ∧ x < st.selectedCellX - pc + w) := fun h => hl h.1
        have h3 : ¬ (l = st.selectedLayer ∧
            (st.selectedCellY - pr ≤ y ∧ y < st.selectedCellY - pr + (n : Int)) ∧
            st.selectedCellX - pc ≤ x ∧ x < st.selectedCellX - pc + w) := fun h => hl h.1
        rw [if_neg h1, if_neg h2, if_neg h3]


theorem forEachC_noop {α σ : Type} (body : α → σ → Completion σ)
    (h : ∀ a s, body a s = .normal s) (l : List α) (s : σ) : forEachC body l s = .normal s := by
  induction l with
  | nil => rfl
  | cons a l ih => simp [forEachC, h, ih]

/-- The fixed-style branch of `cellSelect` on a footprint of `w` by `h` cells that lies
inside the grid, with a recipe of exactly `w * h` entries. -/
theorem fixedCommit_spec (st : State) (mode : Mode) (w h : Nat)
    (hw : mode.selection.width = some (w : Int)) (hh : mode.selection.height = some (h : Int))
    (hlen : mode.materials.length = w * h) (hg : GridOk st)
    (hlayer : 0 ≤ st.selectedLayer ∧ st.selectedLayer < st.layers)
    (hfoot : ∀ r c : Nat, r < h → c < w →
      InBounds st st.selectedLayer (st.selectedCellX - specPre w + c)
        (st.selectedCellY - specPre h + r)) :
    ∃ map', fixedCommit st mode = .normal (map', h * w) ∧
      ∀ l y x : Int, readCell map' l y x =
        if l = st.selectedLayer ∧
            (st.selectedCellY - specPre h ≤ y ∧ y < st.selectedCellY - specPre h + h) ∧
            st.selectedCellX - specPre w ≤ x ∧ x < st.selectedCellX - specPre w + w then
          (mode.materials[(y - (st.selectedCellY - specPre h)).toNat * w +
              (x - (st.selectedCellX - specPre w)).toNat]?).map (fun m => JsVal.num m.value)
        else readCell st.map l y x := by
  unfold fixedCommit
  simp only [hw, hh, toNumber, Option.getD_some, Int.toNat_ofNat,
    preCursor_eq_specPre _ (Int.ofNat_nonneg _)]
  by_cases hw0 : w = 0
  · subst hw0
    refine ⟨st.map, ?_, fun l y x => ?_⟩
    · rw [forEachC_noop _ (fun a s => by simp [forEachC])]
      simp
    · have : ¬ (l = st.selectedLayer ∧
          (st.selectedCellY - specPre h ≤ y ∧ y < st.selectedCellY - specPre h + h) ∧
          st.selectedCellX - specPre ((0 : Nat) : Int) ≤ x ∧
          x < st.selectedCellX - specPre ((0 : Nat) : Int) + ((0 : Nat) : Int)) := by
        rintro ⟨_, _, h1, h2⟩
        omega
      rw [if_neg this]
  · obtain ⟨map', hrun, _, hread⟩ := forEachC_placeFixed_rows st mode.materials
      (specPre w) (specPre h) w st.layers st.layerRows hlayer.1 hlayer.2 h st.map hg.dims
      (by rw [hlen, Nat.mul_comm])
      (fun r hr => by
        obtain ⟨_, _, _, _, h5, h6⟩ := hfoot r 0 hr (by omega)
        exact ⟨h5, h6⟩)
    exact ⟨map', hrun, hread⟩

/-- C6: a fixed-style mode with footprint `w` by `h` whose recipe has exactly `w * h`
entries, committed at a cursor whose whole footprint lies inside a well-formed grid.
`cellSelect` runs to its end; afterwards the footprint cell of footprint row `r` and
footprint column `c`, at row `cy - pre(h) + r` and column `cx - pre(w) + c` of the
cursor's layer, holds the value of recipe entry `r * w + c`, and every other cell (of any
layer, row and column) reads as before.  `pre` is the centring rule `specPre`. -/
theorem cellSelect_fixed_footprint (MODES : Nat → Option Mode) (random : Nat → ℚ) (st : State)
    (mode : Mode) (w h : Nat) (hm : MODES st.selectedMode = some mode)
    (hstyle : mode.selection.style = "fixed")
    (hw : mode.selection.width = some (w : Int)) (hh : mode.selection.height = some (h : Int))
    (hlen : mode.materials.length = w * h) (hg : GridOk st)
    (hlayer : 0 ≤ st.selectedLayer ∧ st.selectedLayer < st.layers)
    (hfoot : ∀ r c : Nat, r < h → c < w →
      InBounds st st.selectedLayer (st.selectedCellX - specPre w + c)
        (st.selectedCellY - specPre h + r)) :
    ∃ st', cellSelect MODES random st = .normal st' ∧
      (∀ r c : Nat, r < h → c < w →
        ∃ material, mode.materials[r * w + c]? = some material ∧
          readCell st'.map st.selectedLayer (st.selectedCellY - specPre h + r)
            (st.selectedCellX - specPre w + c) = some (.num material.value)) ∧
      (∀ l y x : Int,
        ¬ (l = st.selectedLayer ∧
            (st.selectedCellY - specPre h ≤ y ∧ y < st.selectedCellY - specPre h + h) ∧
            st.selectedCellX - specPre w ≤ x ∧ x < st.selectedCellX - specPre w + w) →
        readCell st'.map l y x = readCell st.map l y x) := by
  obtain ⟨map', hrun, hread⟩ := fixedCommit_spec st mode w h hw hh hlen hg hlayer hfoot
  have hnfree : mode.selection.style ≠ "free" := by rw [hstyle]; decide
  have hncopy : mode.selection.style ≠ "copy" := by rw [hstyle]; decide
  have hsel : ∃ st', cellSelect MODES random st = .normal st' ∧ st'.map = map' := by
    cases hp : st.selectionInProgress with
    | true =>
      refine ⟨{ st with map := map', selectionInProgress := false }, ?_, rfl⟩
      unfold cellSelect
      simp [hp, hm, hstyle, hrun]
    | false =>
      have hrun1 : fixedCommit { st with selectedSourceCellX := st.selectedCellX,
                                         selectedSourceCellY := st.selectedCellY,
                                         selectedSourceLayer := st.selectedLayer } mode =
          .normal (map', h * w) := hrun
      refine ⟨{ st with selectedSourceCellX := st.selectedCellX,
                        selectedSourceCellY := st.selectedCellY,
                        selectedSourceLayer := st.selectedLayer,
                        map := map', selectionInProgress := false }, ?_, rfl⟩
      simp only [hp] at hrun1
      unfold cellSelect
      simp [hp, hm, hstyle, hrun1]
  obtain ⟨st', hcs, hmap'⟩ := hsel
  refine ⟨st', hcs, ?_, ?_⟩
  · intro r c hr hc
    have hlt : r * w + c < mode.materials.length := by
      rw [hlen]
      calc r * w + c < r * w + w := by omega
        _ = (r + 1) * w := by ring
        _ ≤ h * w := Nat.mul_le_mul_right _ (by omega)
        _ = w * h := Nat.mul_comm _ _
    refine ⟨mode.materials[r * w + c], List.getElem?_eq_getElem hlt, ?_⟩
    rw [hmap', hread]
    have hc1 : st.selectedLayer = st.selectedLayer ∧
        (st.selectedCellY - specPre h ≤ st.selectedCellY - specPre h + r ∧
          st.selectedCellY - specPre h + r < st.selectedCellY - specPre h + h) ∧
        st.selectedCellX - specPre w ≤ st.selectedCellX - specPre w + c ∧
        st.selectedCellX - specPre w + c < st.selectedCellX - specPre w + w :=
      ⟨rfl, ⟨by omega, by omega⟩, by omega, by omega⟩
    rw [if_pos hc1]
    have e1 : (st.selectedCellY - specPre h + r - (st.selectedCellY - specPre h)).toNat = r := by
      omega
    have e2 : (st.selectedCellX - specPre w + c - (st.selectedCellX - specPre w)).toNat = c := by
      omega
    rw [e1, e2, List.getElem?_eq_getElem hlt]
    rfl
  · intro l y x hnot
    rw [hmap', hread, if_neg hnot]


/-- C6 at a concrete state: "Place Workshop" (3 by 3, nine entries) committed with the
cursor at the centre of a 3 by 3 stone layer: the nine cells receive the recipe row by
row. -/
theorem cellSelect_fixed_footprint_witness :
    ∃ st', cellSelect MODES.properties (fun _ => 0)
        (exampleState [[[2, 2, 2], [2, 2, 2], [2, 2, 2]]] 3 3 10 1 1 0 0 0 0 false) =
          .normal st' ∧
      ∀ r c : Nat, r < 3 → c < 3 →
        ∃ material, MODES.workshopRecipe[r * 3 + c]? = some material ∧
          readCell st'.map 0 (1 - specPre 3 + r) (1 - specPre 3 + c) =
            some (.num material.value) := by
  obtain ⟨st', h1, h2, _⟩ := cellSelect_fixed_footprint MODES.properties (fun _ => 0)
    (exampleState [[[2, 2, 2], [2, 2, 2], [2, 2, 2]]] 3 3 10 1 1 0 0 0 0 false) _ 3 3
    rfl rfl rfl rfl rfl (by decide) (by decide)
    (by intro r c hr hc; interval_cases r <;> interval_cases c <;> decide)
  exact ⟨st', h1, h2⟩

/-! ## The fixed footprint in `getSelectedCells` and `cellIsFixedSelection` -/

/-- C9 (evaluation at the failing input): in the mode "Place Trade Depot" (5 by 5) with
the cursor at column 10, row 10 of layer 15, `getSelectedCells` returns the 9 cells of
columns 9-11 and rows 9-11, not the 25 cells of columns 8-12 and rows 8-12 that the
commit writes. -/
theorem getSelectedCells_tradeDepot :
    getSelectedCells MODES.properties tradeDepotState =
      some [{ x := 9, y := 9, z := 15 }, { x := 10, y := 9, z := 15 }, { x := 11, y := 9, z := 15 },
            { x := 9, y := 10, z := 15 }, { x := 10, y := 10, z := 15 },
            { x := 11, y := 10, z := 15 }, { x := 9, y := 11, z := 15 },
            { x := 10, y := 11, z := 15 }, { x := 11, y := 11, z := 15 }] ∧
    (∀ column row : Int, InFootprintSpec 10 10 5 5 column row ↔
      (8 ≤ column ∧ column ≤ 12 ∧ 8 ≤ row ∧ row ≤ 12)) := by
  constructor
  · decide
  · intro column row
    have : specPre 5 = 2 := by decide
    unfold InFootprintSpec
    rw [this]
    constructor <;> rintro ⟨h1, h2, h3, h4⟩ <;> exact ⟨by omega, by omega, by omega, by omega⟩

/-- C10 as stated fails at the cursor cell: with cursor `(10, 10)` and `w = h = 3` the
cell `(10, 10)` is inside the footprint, yet `cellIsFixedSelection` returns `false`. -/
theorem cellIsFixedSelection_cursor_counterexample :
    ¬ (cellIsFixedSelection tradeDepotState 10 10 (some 3) (some 3) = true ↔
        InFootprintSpec tradeDepotState.selectedCellX tradeDepotState.selectedCellY 3 3 10 10) := by
  decide

/-- C10 (amended): for `w ≥ 1` and `h ≥ 1`, `cellIsFixedSelection(column, row, w, h)` is
`true` exactly when `(column, row)` is not the cursor cell and lies in the footprint
`cx - pre(w) ≤ column ≤ cx - pre(w) + w - 1`, `cy - pre(h) ≤ row ≤ cy - pre(h) + h - 1`. -/
theorem cellIsFixedSelection_iff (st : State) (column row w h : Int) (hw : 1 ≤ w) (hh : 1 ≤ h) :
    cellIsFixedSelection st column row (some w) (some h) = true ↔
      ¬ (column = st.selectedCellX ∧ row = st.selectedCellY) ∧
      InFootprintSpec st.selectedCellX st.selectedCellY w h column row := by
  unfold cellIsFixedSelection InFootprintSpec
  simp only [toNumber, Option.getD_some, preCursor_eq_specPre w (by omega),
    preCursor_eq_specPre h (by omega)]
  by_cases hc : column = st.selectedCellX ∧ row = st.selectedCellY
  · simp [hc]
  · simp only [hc, if_false, not_false_eq_true, true_and, ge_iff_le]
    split_ifs with h1
    · exact ⟨fun _ => h1, fun _ => rfl⟩
    · exact ⟨fun hf => absurd hf (by simp), fun hf => absurd hf h1⟩

/-- C10 (amended) at the examples of the specification, with the cursor at `(10, 10)`:
for `w = h = 3` the predicate holds exactly on columns 9-11 and rows 9-11 minus the cursor
cell; for `w = 4`, `h = 1` exactly on columns 9, 11 and 12 of row 10. -/
theorem cellIsFixedSelection_iff_witness :
    (∀ column row : Int, cellIsFixedSelection tradeDepotState column row (some 3) (some 3) = true ↔
      ¬ (column = 10 ∧ row = 10) ∧ 9 ≤ column ∧ column ≤ 11 ∧ 9 ≤ row ∧ row ≤ 11) ∧
    (∀ column row : Int, cellIsFixedSelection tradeDepotState column row (some 4) (some 1) = true ↔
      row = 10 ∧ (column = 9 ∨ column = 11 ∨ column = 12)) := by
  have h3 : specPre 3 = 1 := by decide
  have h4 : specPre 4 = 1 := by decide
  have h1 : specPre 1 = 0 := by decide
  have hx : tradeDepotState.selectedCellX = 10 := rfl
  have hy : tradeDepotState.selectedCellY = 10 := rfl
  constructor
  · intro column row
    rw [cellIsFixedSelection_iff tradeDepotState column row 3 3 (by decide) (by decide)]
    unfold InFootprintSpec
    rw [h3, hx, hy]
    constructor
    · rintro ⟨a, b, c, d, e⟩
      exact ⟨a, by omega, by omega, by omega, by omega⟩
    · rintro ⟨a, b, c, d, e⟩
      exact ⟨a, by omega, by omega, by omega, by omega⟩
  · intro column row
    rw [cellIsFixedSelection_iff tradeDepotState column row 4 1 (by decide) (by decide)]
    unfold InFootprintSpec
    rw [h4, h1, hx, hy]
    constructor
    · rintro ⟨a, b, c, d, e⟩
      have hr : row = 10 := by omega
      refine ⟨hr, ?_⟩
      have : column ≠ 10 := fun hcol => a ⟨hcol, hr⟩
      omega
    · rintro ⟨rfl, hcol⟩
      refine ⟨fun hcr => ?_, by omega, by omega, by omega, by omega⟩
      omega


/-! ## The mode catalog -/

theorem modes_properties_lt {key : Nat} {mode : Mode} (h : MODES.properties key = some mode) :
    key < 13 := by
  by_contra hlt
  obtain ⟨n, rfl⟩ : ∃ n, key = n + 13 := ⟨key - 13, by omega⟩
  simp [ MODES.properties] at h

theorem wellFormed_single (text : String) (v : Nat)
    (hv : (MATERIALS.properties v).isSome = true) :
    ModeWellFormed { text := text, materials := [ MODES.sure v],
                     selection := MODES.freeSelection } := by
  refine ⟨fun hs => absurd hs (show ¬ ("free" : String) = "fixed" by decide),
    fun _ => ⟨by simp, ?_, ?_⟩, ?_⟩
  · intro m hm
    rw [List.mem_singleton.mp hm]
    norm_num [ MODES.sure]
  · simp [ MODES.sure]
  · intro m hm
    rw [List.mem_singleton.mp hm]
    exact hv

theorem wellFormed_grass :
    ModeWellFormed { text := "Place Grass", materials := MODES.grassRecipe,
                     selection := MODES.freeSelection } := by
  refine ⟨fun hs => absurd hs (by decide), fun _ => ⟨by simp [ MODES.grassRecipe], ?_, ?_⟩, ?_⟩
  · intro m hm
    simp only [ MODES.grassRecipe, List.mem_cons, List.mem_singleton, List.not_mem_nil,
      or_false] at hm
    rcases hm with rfl | rfl | rfl <;> norm_num
  · norm_num [ MODES.grassRecipe]
  · decide

theorem wellFormed_fixed (text : String) (materials : List ModeMaterial) (w h : Int)
    (hlen : (materials.length : Int) = w * h)
    (hv : ∀ m ∈ materials, (MATERIALS.properties m.value).isSome = true) :
    ModeWellFormed { text := text, materials := materials,
                     selection := { style := "fixed", width := some w, height := some h } } :=
  ⟨fun _ => hlen, fun hs => absurd hs (show ¬ ("fixed" : String) = "free" by decide), hv⟩

theorem wellFormed_copy :
    ModeWellFormed { text := "Copy Cells", materials := [],
                     selection := { style := "copy", width := none, height := none } } :=
  ⟨fun hs => absurd hs (by decide), fun hs => absurd hs (by decide),
    fun _ hm => absurd hm (List.not_mem_nil _)⟩

/-- C15: every entry of `MODES.properties` is well-formed.  A fixed-style mode has
`width * height` recipe entries (9 for the workshop, 25 for the trade depot); a free-style
mode has a non-empty recipe whose chances lie in `(0, 1]` and sum to exactly 1 (0.83 +
0.15 + 0.02 for grass); every recipe value has an entry in `MATERIALS.properties`. -/
theorem modes_wellFormed (key : Nat) (mode : Mode) (h : MODES.properties key = some mode) :
    ModeWellFormed mode := by
  have hlt := modes_properties_lt h
  interval_cases key <;> simp only [ MODES.properties, Option.some.injEq] at h <;> subst h
  · exact wellFormed_single _ 1 rfl
  · exact wellFormed_single _ 0 rfl
  · exact wellFormed_single _ 2 rfl
  · exact wellFormed_single _ 6 rfl
  · exact wellFormed_single _ 7 rfl
  · exact wellFormed_single _ 8 rfl
  · exact wellFormed_single _ 9 rfl
  · exact wellFormed_single _ 10 rfl
  · exact wellFormed_single _ 11 rfl
  · exact wellFormed_grass
  · exact wellFormed_fixed _ _ 3 3 (by decide) (by decide)
  · exact wellFormed_fixed _ _ 5 5 (by decide) (by decide)
  · exact wellFormed_copy

/-- C15 at the entries named in the claim: the workshop has 9 = 3 * 3 entries, the trade
depot 25 = 5 * 5, and the grass recipe is well-formed. -/
theorem modes_wellFormed_witness :
    MODES.workshopRecipe.length = 9 ∧ MODES.tradeDepotRecipe.length = 25 ∧
    ModeWellFormed { text := "Place Grass", materials := MODES.grassRecipe,
                     selection := MODES.freeSelection } :=
  ⟨rfl, rfl, modes_wellFormed 9 _ rfl⟩


/-! ## Commands that do not commit -/

theorem setMapOffsets_frame (st : State) :
    (setMapOffsets st).map = st.map ∧
    (setMapOffsets st).selectionInProgress = st.selectionInProgress ∧
    (setMapOffsets st).selectedSourceCellX = st.selectedSourceCellX ∧
    (setMapOffsets st).selectedSourceCellY = st.selectedSourceCellY ∧
    (setMapOffsets st).selectedSourceLayer = st.selectedSourceLayer := by
  unfold setMapOffsets
  simp only []
  split_ifs <;> exact ⟨rfl, rfl, rfl, rfl, rfl⟩

theorem move_frame (dir : Nat) (st : State) :
    (move dir st).map = st.map ∧
    (move dir st).selectionInProgress = st.selectionInProgress ∧
    (move dir st).selectedSourceCellX = st.selectedSourceCellX ∧
    (move dir st).selectedSourceCellY = st.selectedSourceCellY ∧
    (move dir st).selectedSourceLayer = st.selectedSourceLayer := by
  unfold move
  split_ifs <;> first | exact ⟨rfl, rfl, rfl, rfl, rfl⟩ | exact setMapOffsets_frame _

theorem reshape_frame (cmds : List Reshape) :
    ∀ st : State, (reshape cmds st).map = st.map ∧
      (reshape cmds st).selectionInProgress = st.selectionInProgress ∧
      (reshape cmds st).selectedSourceCellX = st.selectedSourceCellX ∧
      (reshape cmds st).selectedSourceCellY = st.selectedSourceCellY ∧
      (reshape cmds st).selectedSourceLayer = st.selectedSourceLayer := by
  induction cmds with
  | nil => intro st; exact ⟨rfl, rfl, rfl, rfl, rfl⟩
  | cons c cs ih =>
    intro st
    have h1 := ih (Reshape.run st c)
    have h2 : (Reshape.run st c).map = st.map ∧
        (Reshape.run st c).selectionInProgress = st.selectionInProgress ∧
        (Reshape.run st c).selectedSourceCellX = st.selectedSourceCellX ∧
        (Reshape.run st c).selectedSourceCellY = st.selectedSourceCellY ∧
        (Reshape.run st c).selectedSourceLayer = st.selectedSourceLayer := by
      cases c with
      | move dir => exact move_frame dir st
      | changeLayer layer => exact ⟨rfl, rfl, rfl, rfl, rfl⟩
    simp only [reshape, List.foldl_cons] at h1 ⊢
    obtain ⟨a1, a2, a3, a4, a5⟩ := h1
    obtain ⟨b1, b2, b3, b4, b5⟩ := h2
    exact ⟨a1.trans b1, a2.trans b2, a3.trans b3, a4.trans b4, a5.trans b5⟩

theorem changeMode_map (MODES : Nat → Option Mode) (mode : Nat) (st : State) :
    (changeMode MODES mode st).state.map = st.map := by
  unfold changeMode
  cases MODES st.selectedMode with
  | none => rfl
  | some previous =>
    cases MODES mode with
    | none => rfl
    | some current =>
      simp only []
      split_ifs <;> rfl

theorem cancelSelection_frame (st : State) :
    (cancelSelection st).map = st.map ∧ (cancelSelection st).selectionInProgress = false := by
  unfold cancelSelection
  cases h : st.selectionInProgress with
  | true => exact ⟨rfl, rfl⟩
  | false => simp [h]

/-- The first stage of `cellSelect`: with no selection in progress and a mode of free or
copy style, the anchor is set to the cursor, the selection is marked in progress and
nothing else changes. -/
theorem cellSelect_first_stage (MODES : Nat → Option Mode) (random : Nat → ℚ) (st : State)
    (mode : Mode) (hm : MODES st.selectedMode = some mode)
    (hprogress : st.selectionInProgress = false)
    (hstyle : mode.selection.style = "free" ∨ mode.selection.style = "copy") :
    cellSelect MODES random st =
      .normal { st with selectedSourceCellX := st.selectedCellX,
                        selectedSourceCellY := st.selectedCellY,
                        selectedSourceLayer := st.selectedLayer,
                        selectionInProgress := true } := by
  unfold cellSelect
  simp [hm, hprogress, hstyle]

/-- C16: nothing but a committing `cellSelect` mutates the grid.  `cancelSelection`,
`move`, `changeLayer`, `changeMode` and a first-stage `cellSelect` (free or copy style, no
selection in progress) leave the grid as it is, and `cancelSelection` leaves
`selectionInProgress` false; hence a gesture that is started, reshaped by any moves and
layer changes and then cancelled ends with the grid it began with. -/
theorem grid_unchanged_without_commit (MODES : Nat → Option Mode) (random : Nat → ℚ)
    (st : State) :
    ((cancelSelection st).map = st.map ∧ (cancelSelection st).selectionInProgress = false) ∧
    (∀ dir : Nat, (move dir st).map = st.map) ∧
    (∀ layer : Int, (changeLayer layer st).map = st.map) ∧
    (∀ mode : Nat, (changeMode MODES mode st).state.map = st.map) ∧
    (∀ mode : Mode, MODES st.selectedMode = some mode → st.selectionInProgress = false →
      (mode.selection.style = "free" ∨ mode.selection.style = "copy") →
      (cellSelect MODES random st).raised = false ∧
      (cellSelect MODES random st).state.map = st.map ∧
      ∀ cmds : List Reshape,
        (cancelSelection (reshape cmds (cellSelect MODES random st).state)).map = st.map ∧
        (cancelSelection (reshape cmds (cellSelect MODES random st).state)).selectionInProgress =
          false) := by
  refine ⟨cancelSelection_frame st, fun dir => (move_frame dir st).1, fun _ => rfl,
    fun mode => changeMode_map MODES mode st, ?_⟩
  intro mode hm hprogress hstyle
  rw [cellSelect_first_stage MODES random st mode hm hprogress hstyle]
  refine ⟨rfl, rfl, fun cmds => ?_⟩
  obtain ⟨h1, h2⟩ := cancelSelection_frame (reshape cmds (Completion.normal
    { st with selectedSourceCellX := st.selectedCellX,
              selectedSourceCellY := st.selectedCellY,
              selectedSourceLayer := st.selectedLayer,
              selectionInProgress := true }).state)
  exact ⟨h1.trans (reshape_frame cmds _).1, h2⟩

/-- C16 at a concrete gesture: in "Dig Flooring" on a 3 by 2 stone layer, ENTER at
`(0, 0)`, then right, down, down, then ESC: the grid is the one the gesture began with. -/
theorem grid_unchanged_without_commit_witness :
    (cellSelect MODES.properties (fun _ => 0)
      (exampleState [[[2, 2], [2, 2], [2, 2]]] 3 2 0 0 0 0 0 0 0 false)).raised = false ∧
    (cancelSelection (reshape [.move DIRECTIONS.RIGHT, .move DIRECTIONS.DOWN,
        .move DIRECTIONS.DOWN]
      (cellSelect MODES.properties (fun _ => 0)
        (exampleState [[[2, 2], [2, 2], [2, 2]]] 3 2 0 0 0 0 0 0 0 false)).state)).map =
      (exampleState [[[2, 2], [2, 2], [2, 2]]] 3 2 0 0 0 0 0 0 0 false).map := by
  obtain ⟨h1, _, h3⟩ := (grid_unchanged_without_commit MODES.properties (fun _ => 0)
    (exampleState [[[2, 2], [2, 2], [2, 2]]] 3 2 0 0 0 0 0 0 0 false)).2.2.2.2
    _ rfl rfl (Or.inl rfl)
  exact ⟨h1, (h3 _).1⟩

/-- C20: with no selection in progress and a mode of free or copy style, `cellSelect` sets
the anchor to the current cursor and `selectionInProgress` to true; the moves and layer
changes that follow leave that anchor (and the flag) as they are. -/
theorem cellSelect_captures_anchor (MODES : Nat → Option Mode) (random : Nat → ℚ) (st : State)
    (mode : Mode) (hm : MODES st.selectedMode = some mode)
    (hprogress : st.selectionInProgress = false)
    (hstyle : mode.selection.style = "free" ∨ mode.selection.style = "copy") :
    ∃ st', cellSelect MODES random st = .normal st' ∧
      st'.selectedSourceCellX = st.selectedCellX ∧
      st'.selectedSourceCellY = st.selectedCellY ∧
      st'.selectedSourceLayer = st.selectedLayer ∧
      st'.selectionInProgress = true ∧
      ∀ cmds : List Reshape,
        (reshape cmds st').selectedSourceCellX = st.selectedCellX ∧
        (reshape cmds st').selectedSourceCellY = st.selectedCellY ∧
        (reshape cmds st').selectedSourceLayer = st.selectedLayer ∧
        (reshape cmds st').selectionInProgress = true := by
  refine ⟨_, cellSelect_first_stage MODES random st mode hm hprogress hstyle, rfl, rfl, rfl, rfl,
    fun cmds => ?_⟩
  obtain ⟨_, h2, h3, h4, h5⟩ := reshape_frame cmds
    { st with selectedSourceCellX := st.selectedCellX,
              selectedSourceCellY := st.selectedCellY,
              selectedSourceLayer := st.selectedLayer,
              selectionInProgress := true }
  exact ⟨h3, h4, h5, h2⟩

/-- C20 at a concrete state: "Dig Flooring" with the cursor at column 1, row 2, layer 0 and
a stale anchor `(0, 0, 0)`. -/
theorem cellSelect_captures_anchor_witness :
    ∃ st', cellSelect MODES.properties (fun _ => 0)
        (exampleState [[[2, 2], [2, 2], [2, 2]]] 3 2 0 1 2 0 0 0 0 false) = .normal st' ∧
      st'.selectedSourceCellX = 1 ∧ st'.selectedSourceCellY = 2 ∧ st'.selectedSourceLayer = 0 ∧
      st'.selectionInProgress = true ∧
      ∀ cmds : List Reshape,
        (reshape cmds st').selectedSourceCellX = 1 ∧
        (reshape cmds st').selectedSourceCellY = 2 ∧
        (reshape cmds st').selectedSourceLayer = 0 ∧
        (reshape cmds st').selectionInProgress = true :=
  cellSelect_captures_anchor MODES.properties (fun _ => 0)
    (exampleState [[[2, 2], [2, 2], [2, 2]]] 3 2 0 1 2 0 0 0 0 false) _ rfl rfl (Or.inl rfl)

/-! ## Visibility: the lowest layer and the depth of the recursion -/

/-- C18: if the cell at layer 0 holds EMPTY, `getCellProperties(0, column, row,
map[0][row][column])` returns "nothing to draw" (display `none`, empty colour, `null`
character). -/
theorem getCellProperties_empty_bottom (st : State) (column row : Int)
    (hempty : readCell st.map 0 row column = some (.num MATERIALS.EMPTY)) :
    ∃ v, readCell st.map 0 row column = some v ∧
      getCellProperties st 0 column row v 0 =
        some { color := "", display := "none", character := .null } := by
  refine ⟨_, hempty, ?_⟩
  rw [getCellProperties]
  simp [transparencyDisplayLimit, MATERIALS.EMPTY, MATERIALS.STONE,
    elevationColorAdjustment_nothing]
  rfl

/-- C18 at a concrete grid: a single EMPTY cell on layer 0. -/
theorem getCellProperties_empty_bottom_witness :
    ∃ v, readCell (exampleState [[[0]]] 1 1 0 0 0 0 0 0 0 false).map 0 0 0 = some v ∧
      getCellProperties (exampleState [[[0]]] 1 1 0 0 0 0 0 0 0 false) 0 0 0 v 0 =
        some { color := "", display := "none", character := .null } :=
  getCellProperties_empty_bottom _ 0 0 (by decide)

/-- The traced function computes what `getCellProperties` computes, and the chain of
nested calls below a call entered with counter `k` on layer `layer` is at most
`transparencyDisplayLimit + 1 - k` long and at most `layer` long. -/
theorem getCellPropertiesTraced_spec (st : State) (column row : Int) (n : Nat) :
    ∀ (layer : Int) (value : JsVal) (k : Nat), layer.toNat = n →
      (getCellPropertiesTraced st layer column row value k).1 =
        getCellProperties st layer column row value k ∧
      (getCellPropertiesTraced st layer column row value k).2 ≤
        transparencyDisplayLimit + 1 - k ∧
      (getCellPropertiesTraced st layer column row value k).2 ≤ layer.toNat := by
  induction n with
  | zero =>
    intro layer value k hl
    have hl0 : ¬ layer > 0 := by omega
    have hES : ¬ (JsVal.num MATERIALS.EMPTY = JsVal.num MATERIALS.STONE) := by decide
    rw [getCellPropertiesTraced, getCellProperties]
    by_cases h1 : k > transparencyDisplayLimit
    · simp only [h1, if_true]
      exact ⟨trivial, Nat.zero_le _, Nat.zero_le _⟩
    · by_cases h2 : value = .num MATERIALS.STONE
      · simp only [h1, h2, if_true, if_false]
        cases cellIsExposed st layer column row <;> exact ⟨rfl, Nat.zero_le _, Nat.zero_le _⟩
      · by_cases h3 : value = .num MATERIALS.EMPTY
        · subst h3
          simp only [h1, hES, hl0, if_true, if_false]
          exact ⟨trivial, Nat.zero_le _, Nat.zero_le _⟩
        · simp only [h1, h2, h3, if_false]
          exact ⟨trivial, Nat.zero_le _, Nat.zero_le _⟩
  | succ n ih =>
    intro layer value k hl
    have hES : ¬ (JsVal.num MATERIALS.EMPTY = JsVal.num MATERIALS.STONE) := by decide
    rw [getCellPropertiesTraced, getCellProperties]
    by_cases h1 : k > transparencyDisplayLimit
    · simp only [h1, if_true]
      exact ⟨trivial, Nat.zero_le _, Nat.zero_le _⟩
    · by_cases h2 : value = .num MATERIALS.STONE
      · simp only [h1, h2, if_true, if_false]
        cases cellIsExposed st layer column row <;> exact ⟨rfl, Nat.zero_le _, Nat.zero_le _⟩
      · by_cases h3 : value = .num MATERIALS.EMPTY
        · subst h3
          have hl0 : layer > 0 := by omega
          simp only [h1, hES, hl0, if_true, if_false]
          cases hread : readCell st.map (layer - 1) row column with
          | none => exact ⟨rfl, Nat.zero_le _, Nat.zero_le _⟩
          | some valueBelow =>
            obtain ⟨e1, e2, e3⟩ := ih (layer - 1) valueBelow (k + 1) (by omega)
            simp only []
            refine ⟨by rw [e1], ?_, ?_⟩
            · have : k ≤ transparencyDisplayLimit := by omega
              omega
            · omega
        · simp only [h1, h2, h3, if_false]
          exact ⟨trivial, Nat.zero_le _, Nat.zero_le _⟩

/-- C19: `getCellProperties` terminates on every grid, cell and viewing layer (the
embedding is a total function), and the chain of nested recursive calls below the initial
call, made visible by `getCellPropertiesTraced`, has length at most
`transparencyDisplayLimit + 1 = 6` and at most the index of the viewing layer, whatever
the column holds. -/
theorem getCellProperties_depth_bound (st : State) (layer column row : Int) (value : JsVal) :
    (getCellPropertiesTraced st layer column row value 0).1 =
      getCellProperties st layer column row value 0 ∧
    (getCellPropertiesTraced st layer column row value 0).2 ≤ transparencyDisplayLimit + 1 ∧
    (getCellPropertiesTraced st layer column row value 0).2 ≤ 6 ∧
    ((getCellPropertiesTraced st layer column row value 0).2 : Int) ≤ max layer 0 := by
  obtain ⟨h1, h2, h3⟩ := getCellPropertiesTraced_spec st column row layer.toNat layer value 0 rfl
  refine ⟨h1, by simpa using h2, by simpa [transparencyDisplayLimit] using h2, ?_⟩
  have : ((layer.toNat : Nat) : Int) = max layer 0 := Int.toNat_eq_max layer
  omega


/-! ## The fixed-style commit at its limits: short recipes and grid edges

The examples below are evaluated on the grid of 30 layers of 200 by 200 cells. -/

set_option maxRecDepth 100000

/-- C11 (evaluation at the failing input): the workshop mode with a recipe of 8 entries
for its 3 by 3 footprint, committed at column 10, row 10 of layer 15.  `cellSelect` ends
by a raised `TypeError`: the test `materialIndex <= materials.length` lets index 8
through, `materials[8]` is `undefined` and reading its `value` raises.  The first eight
footprint cells were written, the ninth is as before. -/
theorem cellSelect_short_recipe_raises :
    (cellSelect shortWorkshopModes (fun _ => 0) workshopState).raised = true ∧
    readCell (cellSelect shortWorkshopModes (fun _ => 0) workshopState).state.map 15 9 9 =
      some (.num 12) ∧
    readCell (cellSelect shortWorkshopModes (fun _ => 0) workshopState).state.map 15 11 10 =
      some (.num 19) ∧
    readCell (cellSelect shortWorkshopModes (fun _ => 0) workshopState).state.map 15 11 11 =
      some (.num MATERIALS.STONE) := by
  refine ⟨?_, ?_, ?_, ?_⟩ <;> decide

/-- C12 as stated fails when the footprint leaves the grid through a column.  The workshop
committed with the cursor on the last column (199) of row 10, layer 15, has the footprint
coordinate column 200, row 10 outside the 200 columns of the grid; `cellSelect` raises
nothing and extends the row to 201 cells, so it does not fail leaving the grid as it
was. -/
theorem cellSelect_fixed_right_edge_counterexample :
    InBounds workshopAtRightEdge workshopAtRightEdge.selectedLayer
      workshopAtRightEdge.selectedCellX workshopAtRightEdge.selectedCellY ∧
    InFootprintSpec workshopAtRightEdge.selectedCellX workshopAtRightEdge.selectedCellY 3 3
      200 10 ∧
    workshopAtRightEdge.layerColumns = 200 ∧
    (cellSelect MODES.properties (fun _ => 0) workshopAtRightEdge).raised = false ∧
    rowLength (cellSelect MODES.properties (fun _ => 0) workshopAtRightEdge).state.map 15 10 =
      some 201 ∧
    ¬ FailsLeavingGridSpec workshopAtRightEdge
        (cellSelect MODES.properties (fun _ => 0) workshopAtRightEdge) := by
  have hraised : (cellSelect MODES.properties (fun _ => 0) workshopAtRightEdge).raised = false := by
    decide
  refine ⟨by decide, by decide, rfl, hraised, by decide, ?_⟩
  intro h
  exact Bool.false_ne_true (hraised.symm.trans h.1)

theorem writeCell_neg_row (map : Grid) (layer row column : Int) (v : Nat) (h : row < 0) :
    writeCell map layer row column v = none := by
  unfold writeCell
  cases index? map layer with
  | none => rfl
  | some l =>
    have : index? l row = none := by
      unfold index?
      rw [if_neg (by omega)]
    simp [this]

/-- The fixed-style branch of `cellSelect` when the first footprint row lies above the
grid: the first write raises, with the grid and `materialIndex` as they were. -/
theorem fixedCommit_above_grid (st : State) (mode : Mode) (w h : Int)
    (hw : mode.selection.width = some w) (hh : mode.selection.height = some h)
    (hw1 : 1 ≤ w) (hh1 : 1 ≤ h) (habove : st.selectedCellY - specPre h < 0) :
    fixedCommit st mode = .typeError (st.map, 0) := by
  obtain ⟨a, ha⟩ : ∃ a, h.toNat = a + 1 := ⟨h.toNat - 1, by omega⟩
  obtain ⟨b, hb⟩ : ∃ b, w.toNat = b + 1 := ⟨w.toNat - 1, by omega⟩
  unfold fixedCommit
  simp only [hw, hh, toNumber, Option.getD_some, ha, hb, List.range_succ_eq_map, forEachC,
    preCursor_eq_specPre h (by omega)]
  have hbody : placeFixed st mode.materials (preCursor w) (specPre h) 0 0 (st.map, 0) =
      .typeError (st.map, 0) := by
    unfold placeFixed
    simp only [Nat.zero_le, if_true]
    cases mode.materials[0]? with
    | none => rfl
    | some material =>
      simp only [Nat.cast_zero, add_zero]
      rw [writeCell_neg_row _ _ _ _ _ habove]
  rw [hbody]

/-- C12 (amended): a fixed-style mode with a footprint of at least one cell, committed
where the first footprint row lies above the grid (`cy - pre(h) < 0`).  `cellSelect` has
no bounds check and no out-of-bounds error of its own, but here its first write raises a
`TypeError` before anything is written: it fails and every read of the grid gives what it
gave before. -/
theorem cellSelect_fixed_above_grid (MODES : Nat → Option Mode) (random : Nat → ℚ) (st : State)
    (mode : Mode) (w h : Int) (hm : MODES st.selectedMode = some mode)
    (hstyle : mode.selection.style = "fixed")
    (hw : mode.selection.width = some w) (hh : mode.selection.height = some h)
    (hw1 : 1 ≤ w) (hh1 : 1 ≤ h) (habove : st.selectedCellY - specPre h < 0) :
    FailsLeavingGridSpec st (cellSelect MODES random st) := by
  have hrun := fixedCommit_above_grid st mode w h hw hh hw1 hh1 habove
  have hsel : ∃ st', cellSelect MODES random st = .typeError st' ∧ st'.map = st.map := by
    cases hp : st.selectionInProgress with
    | true =>
      refine ⟨{ st with map := st.map }, ?_, rfl⟩
      unfold cellSelect
      simp [hp, hm, hstyle, hrun]
    | false =>
      have hrun1 : fixedCommit { st with selectedSourceCellX := st.selectedCellX,
                                         selectedSourceCellY := st.selectedCellY,
                                         selectedSourceLayer := st.selectedLayer } mode =
          .typeError (st.map, 0) := hrun
      refine ⟨{ st with selectedSourceCellX := st.selectedCellX,
                        selectedSourceCellY := st.selectedCellY,
                        selectedSourceLayer := st.selectedLayer,
                        map := st.map }, ?_, rfl⟩
      simp only [hp] at hrun1
      unfold cellSelect
      simp [hp, hm, hstyle, hrun1]
  obtain ⟨st', hcs, hmap⟩ := hsel
  rw [hcs]
  exact ⟨rfl, fun layer row column => by rw [show (Completion.typeError st').state = st' from rfl,
    hmap]⟩

/-- C12 (amended) at a concrete state: the workshop committed with the cursor on the first
row (row 0) of layer 15, whose first footprint row is row -1. -/
theorem cellSelect_fixed_above_grid_witness :
    workshopAtTopEdge.selectedCellY - specPre 3 < 0 ∧
    FailsLeavingGridSpec workshopAtTopEdge
      (cellSelect MODES.properties (fun _ => 0) workshopAtTopEdge) :=
  ⟨by decide,
   cellSelect_fixed_above_grid MODES.properties (fun _ => 0) workshopAtTopEdge _ 3 3 rfl rfl rfl
     rfl (by decide) (by decide) (by decide)⟩

/-- C17 (evaluation at the failing input): the trade depot (5 by 5) committed with cursor
and anchor inside the grid, the cursor on the last column (199) of row 100, layer 15.
`cellSelect` runs to its end and has stored values at the columns 200 and 201: the row has
202 cells, no longer the 200 of `layerColumns`. -/
theorem cellSelect_tradeDepot_extends_rows :
    InBounds tradeDepotAtRightEdge tradeDepotAtRightEdge.selectedLayer
      tradeDepotAtRightEdge.selectedCellX tradeDepotAtRightEdge.selectedCellY ∧
    InBounds tradeDepotAtRightEdge tradeDepotAtRightEdge.selectedSourceLayer
      tradeDepotAtRightEdge.selectedSourceCellX tradeDepotAtRightEdge.selectedSourceCellY ∧
    tradeDepotAtRightEdge.layerColumns = 200 ∧
    rowLength tradeDepotAtRightEdge.map 15 100 = some 200 ∧
    (cellSelect MODES.properties (fun _ => 0) tradeDepotAtRightEdge).raised = false ∧
    rowLength (cellSelect MODES.properties (fun _ => 0) tradeDepotAtRightEdge).state.map
      15 100 = some 202 ∧
    readCell (cellSelect MODES.properties (fun _ => 0) tradeDepotAtRightEdge).state.map
      15 100 201 = some (.num 22) := by
  refine ⟨?_, ?_, rfl, ?_, ?_, ?_, ?_⟩ <;> decide

/-! ## The colour of a cell seen through more than one empty layer -/

/-- C13 (evaluation at the failing input): a floor on layer 13 seen from layer 15 through
the EMPTY cells of layers 15 and 14 (peek depth 2).  The colour returned is the floor
colour `#d3d3d3` followed by `77` twice, 11 characters, not the 9 characters `#d3d3d377`:
the colour adjustment runs once more at every level of the recursion whose counter is
positive. -/
theorem getCellProperties_depth_two_colour :
    readCell peekState.map 15 10 10 = some (.num MATERIALS.EMPTY) ∧
    readCell peekState.map 14 10 10 = some (.num MATERIALS.EMPTY) ∧
    readCell peekState.map 13 10 10 = some (.num MATERIALS.FLOOR) ∧
    getCellProperties peekState 15 10 10 (.num MATERIALS.EMPTY) 0 =
      some { color := "#d3d3d37777", display := "standard",
             character := .str (String.singleton (Char.ofNat 8901)) } := by
  have h15 : readCell peekState.map 15 10 10 = some (.num MATERIALS.EMPTY) := by decide
  have h14 : readCell peekState.map (15 - 1) 10 10 = some (.num MATERIALS.EMPTY) := by decide
  have h13 : readCell peekState.map (15 - 1 - 1) 10 10 = some (.num MATERIALS.FLOOR) := by decide
  refine ⟨h15, h14, h13, ?_⟩
  rw [getCellProperties_empty_step peekState 15 10 10 0 _ (by decide) (by decide) h14,
    getCellProperties_empty_step peekState (15 - 1) 10 10 1 _ (by decide) (by decide) h13,
    getCellProperties_ordinary peekState (15 - 1 - 1) 10 10 MATERIALS.FLOOR 2 (by decide)
      (by decide) (by decide)]
  decide

/-! ## Saving and loading -/

/-- The loader never assigns: what `getItem` returns is `null` or a string, and a string
has none of the four properties. -/
theorem loadMapFromLocalStorage_eq (key : String) (localStorage : Storage) (st : State) :
    loadMapFromLocalStorage key localStorage st = st := by
  unfold loadMapFromLocalStorage Storage.getItem
  cases localStorage key <;> simp [JsValue.notNull, JsValue.prop]

/-- C14 (evaluation at the failing input): the starting grid is saved under a key, the
cell at column 0, row 0 of layer 15 is then dug to a floor, and the key is loaded.  The
loader leaves every state as it is, so the cell still holds the floor and not the stone
that was saved. -/
theorem loadMapFromLocalStorage_keeps_edits :
    readCell savedState.map 15 0 0 = some (.num MATERIALS.STONE) ∧
    readCell (loadMapFromLocalStorage "dfMapItem_fort"
        (saveMapToLocalStorage "dfMapItem_fort" savedState (fun _ => none)) editedState).map
      15 0 0 = some (.num MATERIALS.FLOOR) ∧
    ∀ (key : String) (localStorage : Storage) (st : State),
      loadMapFromLocalStorage key localStorage st = st := by
  refine ⟨by decide, ?_, loadMapFromLocalStorage_eq⟩
  rw [loadMapFromLocalStorage_eq]
  decide


/-! ## The highlight predicate and the selected cells -/

theorem ite_lt_min (a b : Int) : (if a < b then a else b) = min a b := by
  simp only [min_def]
  split_ifs <;> omega

theorem ite_lt_max (a b : Int) : (if a < b then b else a) = max a b := by
  simp only [max_def]
  split_ifs <;> omega

/-- C22: with an active mode of free or copy style, `getSelectedCells()` and
`isCellInSelection(column, row, layer)` both return, for every anchor, cursor and cell,
and the highlight predicate is true exactly if the list returned by `getSelectedCells()`
contains the cell `{x: column, y: row, z: layer}`. -/
theorem isCellInSelection_iff_getSelectedCells (MODES : Nat → Option Mode) (st : State)
    (mode : Mode) (column row layer : Int) (hm : MODES st.selectedMode = some mode)
    (hstyle : mode.selection.style = "free" ∨ mode.selection.style = "copy") :
    ∃ cells inside, getSelectedCells MODES st = some cells ∧
      isCellInSelection MODES st column row layer = some inside ∧
      (inside = true ↔ ({ x := column, y := row, z := layer } : Cell) ∈ cells) := by
  have hnf : mode.selection.style ≠ "fixed" := by
    rcases hstyle with h | h <;> rw [h] <;> decide
  have hmem := mem_freeCells st.selectedSourceCellX st.selectedSourceCellY
    st.selectedSourceLayer (st.selectedCellX - st.selectedSourceCellX)
    (st.selectedCellY - st.selectedSourceCellY) (st.selectedLayer - st.selectedSourceLayer)
    { x := column, y := row, z := layer }
  simp only [add_sub_cancel] at hmem
  refine ⟨_, decide (layer ≥ min st.selectedSourceLayer st.selectedLayer ∧
      layer ≤ max st.selectedSourceLayer st.selectedLayer ∧
      column ≥ min st.selectedSourceCellX st.selectedCellX ∧
      column ≤ max st.selectedSourceCellX st.selectedCellX ∧
      row ≥ min st.selectedSourceCellY st.selectedCellY ∧
      row ≤ max st.selectedSourceCellY st.selectedCellY),
    getSelectedCells_free_eq MODES st mode hm hnf, ?_, ?_⟩
  · unfold isCellInSelection
    simp only [hm, hnf, ne_eq, not_false_eq_true, if_true, ite_lt_min, ite_lt_max]
    split_ifs with h
    · exact congrArg some (decide_eq_true h).symm
    · exact congrArg some (decide_eq_false h).symm
  · rw [hmem, decide_eq_true_eq]
    constructor
    · rintro ⟨h1, h2, h3, h4, h5, h6⟩
      exact ⟨⟨h3, h4⟩, ⟨h5, h6⟩, h1, h2⟩
    · rintro ⟨⟨h3, h4⟩, ⟨h5, h6⟩, h1, h2⟩
      exact ⟨h1, h2, h3, h4, h5, h6⟩

/-- C22 at a concrete state: "Dig Flooring" with anchor `(0, 0, 0)` and cursor
`(1, 2, 0)`, asked about the cell at column 1, row 1 of layer 0. -/
theorem isCellInSelection_iff_getSelectedCells_witness :
    ∃ cells inside, getSelectedCells MODES.properties
        (exampleState [[[2, 2], [2, 2], [2, 2]]] 3 2 0 1 2 0 0 0 0 true) = some cells ∧
      isCellInSelection MODES.properties
        (exampleState [[[2, 2], [2, 2], [2, 2]]] 3 2 0 1 2 0 0 0 0 true) 1 1 0 = some inside ∧
      (inside = true ↔ ({ x := 1, y := 1, z := 0 } : Cell) ∈ cells) :=
  isCellInSelection_iff_getSelectedCells MODES.properties
    (exampleState [[[2, 2], [2, 2], [2, 2]]] 3 2 0 1 2 0 0 0 0 true) _ 1 1 0 rfl (Or.inl rfl)


/-! ## The starting grid -/

theorem foldl_arrayAssign {α : Type} (v : α) (n : Nat) :
    (List.range n).foldl (fun xs i => arrayAssign xs i v) [] = List.replicate n v := by
  induction n with
  | zero => rfl
  | succ n ih =>
    rw [List.range_succ, List.foldl_append, ih]
    simp only [List.foldl_cons, List.foldl_nil, arrayAssign, List.length_replicate,
      lt_self_iff_false, if_false]
    exact (List.replicate_succ' n v).symm

/-- The row built by the innermost loop of `createEmptyMap` for `n` columns. -/
theorem foldl_rowSet (n : Nat) :
    ((List.range n).foldl (fun (row : Row) (columnIndex : Nat) => row.set (columnIndex : Int) 2)
        { length := 0, get := fun _ => .undefined }).length = n ∧
    ∀ k : Int,
      ((List.range n).foldl (fun (row : Row) (columnIndex : Nat) => row.set (columnIndex : Int) 2)
        { length := 0, get := fun _ => .undefined }).get k =
        if 0 ≤ k ∧ k < n then .num 2 else .undefined := by
  induction n with
  | zero =>
    refine ⟨rfl, fun k => ?_⟩
    have : ¬ (0 ≤ k ∧ k < ((0 : Nat) : Int)) := by omega
    rw [if_neg this]
    rfl
  | succ n ih =>
    rw [List.range_succ, List.foldl_append]
    obtain ⟨hlen, hget⟩ := ih
    generalize (List.range n).foldl
      (fun (row : Row) (columnIndex : Nat) => row.set (columnIndex : Int) 2)
      { length := 0, get := fun _ => .undefined } = r at hlen hget
    simp only [List.foldl_cons, List.foldl_nil, Row.set, hlen, hget]
    refine ⟨?_, fun k => ?_⟩
    · simp
    · by_cases hk : k = (n : Int)
      · subst hk
        simp
      · rw [if_neg hk]
        by_cases h : 0 ≤ k ∧ k < (n : Int)
        · rw [if_pos h, if_pos (by omega)]
        · rw [if_neg h, if_neg (by omega)]

/-- The grid of `createEmptyMap`: copies of one row, which holds STONE at the keys from 0
up to `layerColumns` and nothing elsewhere. -/
theorem createEmptyMap_eq (layers layerRows layerColumns : Int) :
    ∃ row : Row, createEmptyMap layers layerRows layerColumns =
        List.replicate layers.toNat (List.replicate layerRows.toNat row) ∧
      row.length = layerColumns.toNat ∧
      ∀ k : Int, row.get k =
        if 0 ≤ k ∧ k < (layerColumns.toNat : Int) then .num MATERIALS.STONE else .undefined := by
  refine ⟨_, ?_, (foldl_rowSet layerColumns.toNat).1, (foldl_rowSet layerColumns.toNat).2⟩
  unfold createEmptyMap
  simp only [foldl_arrayAssign]

/-- C26: a state whose grid is the one `createEmptyMap()` returns for the state's
(non-negative) `layers`, `layerRows` and `layerColumns`.  The grid has exactly `layers`
layers, each of `layerRows` rows, each of `layerColumns` cells that all hold STONE (2).
For every cell inside the grid `cellIsExposed` returns false, and `getCellProperties`
called with the cell's value returns the descriptor "nothing to draw", whatever the
counter. -/
theorem createEmptyMap_all_stone (st : State)
    (hmap : st.map = createEmptyMap st.layers st.layerRows st.layerColumns)
    (hl : 0 ≤ st.layers) (hr : 0 ≤ st.layerRows) (hc : 0 ≤ st.layerColumns) :
    (st.map.length : Int) = st.layers ∧
    (∀ l ∈ st.map, (l.length : Int) = st.layerRows ∧
      ∀ r ∈ l, (r.length : Int) = st.layerColumns ∧
        ∀ k : Int, 0 ≤ k → k < st.layerColumns → r.get k = .num MATERIALS.STONE) ∧
    ∀ layer column row : Int, InBounds st layer column row →
      readCell st.map layer row column = some (.num MATERIALS.STONE) ∧
      cellIsExposed st layer column row = some false ∧
      ∀ lowerLayerCounter : Nat,
        getCellProperties st layer column row (.num MATERIALS.STONE) lowerLayerCounter =
          some nothingToDraw := by
  obtain ⟨row0, heq, hlen, hget⟩ := createEmptyMap_eq st.layers st.layerRows st.layerColumns
  rw [← hmap] at heq
  have hlayers : (st.map.length : Int) = st.layers := by
    rw [heq, List.length_replicate]
    omega
  have hrows : ∀ l ∈ st.map, l = List.replicate st.layerRows.toNat row0 := by
    intro l hl'
    rw [heq] at hl'
    exact List.eq_of_mem_replicate hl'
  have hd : GridDims st.map st.layers st.layerRows := by
    refine ⟨hlayers, fun l hl' => ?_⟩
    rw [hrows l hl', List.length_replicate]
    omega
  have hread : ∀ layer column row : Int, 0 ≤ layer → layer < st.layers → 0 ≤ row →
      row < st.layerRows → 0 ≤ column → column < st.layerColumns →
      readCell st.map layer row column = some (.num MATERIALS.STONE) := by
    intro layer column row h0 h1 h2 h3 h4 h5
    obtain ⟨r, hr', l, hlm, hrm⟩ := readCell_of_dims hd layer row column h0 h1 h2 h3
    rw [hrows l hlm] at hrm
    rw [hr', List.eq_of_mem_replicate hrm, hget, if_pos (by omega)]
  refine ⟨hlayers, fun l hl' => ?_, fun layer column row hb => ?_⟩
  · refine ⟨hd.2 l hl', fun r hr' => ?_⟩
    rw [hrows l hl'] at hr'
    rw [List.eq_of_mem_replicate hr']
    exact ⟨by rw [hlen]; omega, fun k hk0 hk1 => by rw [hget, if_pos (by omega)]⟩
  · have hb' := hb
    obtain ⟨h0, h1, h4, h5, h2, h3⟩ := hb'
    obtain ⟨b, hb1, hb2⟩ := cellIsExposed_spec st layer column row hd hb
    have hfalse : b = false := by
      cases b with
      | false => rfl
      | true =>
        obtain ⟨dr, -, dc, -, -, hr0, hr1, hc0, hc1, hne⟩ := hb2.mp rfl
        exact absurd (hread layer (column + dc) (row + dr) h0 h1 hr0 hr1 hc0 hc1) hne
    rw [hfalse] at hb1
    refine ⟨hread layer column row h0 h1 h2 h3 h4 h5, hb1, fun k => ?_⟩
    by_cases hk : k ≤ transparencyDisplayLimit
    · rw [getCellProperties_stone st layer column row k hk, hb1]
      simp [stoneProperties, elevationColorAdjustment_nothing]
    · exact getCellProperties_limit st layer column row _ k (by omega)

/-- C26 at the state the editor starts in: 30 layers of 200 rows of 200 cells. -/
theorem createEmptyMap_all_stone_witness :
    (initialState.map.length : Int) = 30 ∧
    (∀ l ∈ initialState.map, (l.length : Int) = 200 ∧
      ∀ r ∈ l, (r.length : Int) = 200 ∧
        ∀ k : Int, 0 ≤ k → k < 200 → r.get k = .num MATERIALS.STONE) ∧
    ∀ layer column row : Int, InBounds initialState layer column row →
      readCell initialState.map layer row column = some (.num MATERIALS.STONE) ∧
      cellIsExposed initialState layer column row = some false ∧
      ∀ lowerLayerCounter : Nat,
        getCellProperties initialState layer column row (.num MATERIALS.STONE)
          lowerLayerCounter = some nothingToDraw :=
  createEmptyMap_all_stone initialState rfl (by decide) (by decide) (by decide)


/-! ## The cursor under the keyboard -/

theorem setMapOffsets_cursor (st : State) :
    (setMapOffsets st).selectedCellX = st.selectedCellX ∧
    (setMapOffsets st).selectedCellY = st.selectedCellY ∧
    (setMapOffsets st).selectedLayer = st.selectedLayer ∧
    (setMapOffsets st).selectedMode = st.selectedMode ∧
    (setMapOffsets st).layers = st.layers ∧
    (setMapOffsets st).layerRows = st.layerRows ∧
    (setMapOffsets st).layerColumns = st.layerColumns := by
  unfold setMapOffsets
  simp only []
  split_ifs <;> exact ⟨rfl, rfl, rfl, rfl, rfl, rfl, rfl⟩

/-- What `cellSelect` never assigns, however it ends: the cursor, the active mode and the
three dimensions; nor the anchor, when a selection is in progress. -/
theorem cellSelect_frame (MODES : Nat → Option Mode) (random : Nat → ℚ) (st : State) :
    (cellSelect MODES random st).state.selectedCellX = st.selectedCellX ∧
    (cellSelect MODES random st).state.selectedCellY = st.selectedCellY ∧
    (cellSelect MODES random st).state.selectedLayer = st.selectedLayer ∧
    (cellSelect MODES random st).state.selectedMode = st.selectedMode ∧
    (cellSelect MODES random st).state.layers = st.layers ∧
    (cellSelect MODES random st).state.layerRows = st.layerRows ∧
    (cellSelect MODES random st).state.layerColumns = st.layerColumns ∧
    (st.selectionInProgress = true →
      (cellSelect MODES random st).state.selectedSourceCellX = st.selectedSourceCellX ∧
      (cellSelect MODES random st).state.selectedSourceCellY = st.selectedSourceCellY ∧
      (cellSelect MODES random st).state.selectedSourceLayer = st.selectedSourceLayer) := by
  unfold cellSelect
  cases hp : st.selectionInProgress <;> simp only [Bool.false_eq_true, if_false, if_true] <;>
    repeat' split
  all_goals simp [Completion.state]

theorem changeMode_cursor (MODES : Nat → Option Mode) (mode : Nat) (st : State) :
    (changeMode MODES mode st).state.selectedCellX = st.selectedCellX ∧
    (changeMode MODES mode st).state.selectedCellY = st.selectedCellY ∧
    (changeMode MODES mode st).state.selectedLayer = st.selectedLayer ∧
    (changeMode MODES mode st).state.layers = st.layers ∧
    (changeMode MODES mode st).state.layerRows = st.layerRows ∧
    (changeMode MODES mode st).state.layerColumns = st.layerColumns := by
  unfold changeMode
  repeat' split
  all_goals exact ⟨rfl, rfl, rfl, rfl, rfl, rfl⟩

theorem cancelSelection_cursor (st : State) :
    (cancelSelection st).selectedCellX = st.selectedCellX ∧
    (cancelSelection st).selectedCellY = st.selectedCellY ∧
    (cancelSelection st).selectedLayer = st.selectedLayer ∧
    (cancelSelection st).selectedMode = st.selectedMode ∧
    (cancelSelection st).layers = st.layers ∧
    (cancelSelection st).layerRows = st.layerRows ∧
    (cancelSelection st).layerColumns = st.layerColumns := by
  unfold cancelSelection
  split <;> exact ⟨rfl, rfl, rfl, rfl, rfl, rfl, rfl⟩

/-- The cursor after `move(dir)`. -/
theorem move_cursor (dir : Nat) (st : State) :
    (move dir st).selectedCellX =
      (if dir = DIRECTIONS.LEFT then
        (if st.selectedCellX > 0 then st.selectedCellX - 1 else st.selectedCellX)
      else if dir = DIRECTIONS.RIGHT then
        (if st.selectedCellX < st.layerColumns - 1 then st.selectedCellX + 1
         else st.selectedCellX)
      else st.selectedCellX) ∧
    (move dir st).selectedCellY =
      (if dir = DIRECTIONS.UP then
        (if st.selectedCellY > 0 then st.selectedCellY - 1 else st.selectedCellY)
      else if dir = DIRECTIONS.DOWN then
        (if st.selectedCellY < st.layerRows - 1 then st.selectedCellY + 1
         else st.selectedCellY)
      else st.selectedCellY) ∧
    (move dir st).selectedLayer = st.selectedLayer ∧
    (move dir st).selectedMode = st.selectedMode ∧
    (move dir st).layers = st.layers ∧
    (move dir st).layerRows = st.layerRows ∧
    (move dir st).layerColumns = st.layerColumns := by
  unfold move
  by_cases h0 : dir = DIRECTIONS.UP
  · have h1 : ¬ dir = DIRECTIONS.LEFT := by rw [h0]; decide
    have h2 : ¬ dir = DIRECTIONS.DOWN := by rw [h0]; decide
    have h3 : ¬ dir = DIRECTIONS.RIGHT := by rw [h0]; decide
    simp only [if_pos h0, if_neg h1, if_neg h2, if_neg h3]
    exact setMapOffsets_cursor _
  by_cases h1 : dir = DIRECTIONS.LEFT
  · have h2 : ¬ dir = DIRECTIONS.DOWN := by rw [h1]; decide
    have h3 : ¬ dir = DIRECTIONS.RIGHT := by rw [h1]; decide
    simp only [if_neg h0, if_pos h1, if_neg h2, if_neg h3]
    exact setMapOffsets_cursor _
  by_cases h2 : dir = DIRECTIONS.DOWN
  · have h3 : ¬ dir = DIRECTIONS.RIGHT := by rw [h2]; decide
    simp only [if_neg h0, if_neg h1, if_pos h2, if_neg h3]
    exact setMapOffsets_cursor _
  by_cases h3 : dir = DIRECTIONS.RIGHT
  · simp only [if_neg h0, if_neg h1, if_neg h2, if_pos h3]
    exact setMapOffsets_cursor _
  simp only [if_neg h0, if_neg h1, if_neg h2, if_neg h3, and_self]

/-- A state with the same dimensions and the same cursor has its cursor inside the grid
if the other has. -/
theorem inBounds_of_same_cursor {st st' : State}
    (hcursor : InBounds st st.selectedLayer st.selectedCellX st.selectedCellY)
    (hx : st'.selectedCellX = st.selectedCellX) (hy : st'.selectedCellY = st.selectedCellY)
    (hz : st'.selectedLayer = st.selectedLayer) (hl : st'.layers = st.layers)
    (hr : st'.layerRows = st.layerRows) (hc : st'.layerColumns = st.layerColumns) :
    InBounds st' st'.selectedLayer st'.selectedCellX st'.selectedCellY := by
  unfold InBounds at *
  rw [hx, hy, hz, hl, hr, hc]
  exact hcursor

theorem move_inBounds (dir : Nat) (st : State)
    (hcursor : InBounds st st.selectedLayer st.selectedCellX st.selectedCellY) :
    InBounds (move dir st) (move dir st).selectedLayer (move dir st).selectedCellX
      (move dir st).selectedCellY := by
  obtain ⟨hx, hy, hz, -, hl, hr, hc⟩ := move_cursor dir st
  unfold InBounds at *
  rw [hx, hy, hz, hl, hr, hc]
  obtain ⟨h0, h1, h2, h3, h4, h5⟩ := hcursor
  refine ⟨h0, h1, ?_, ?_, ?_, ?_⟩ <;> split_ifs <;> omega

/-- Case analysis on what `keyDownHandler` runs. -/
theorem keyDownHandler_cases (catalog : Nat → Option Mode) (random : Nat → ℚ) (keyCode : Nat)
    (st : State) (P : Completion State → Prop)
    (hmove : ∀ dir, P (.normal (move dir st)))
    (hselect : P (cellSelect catalog random st))
    (hcancel : P (.normal (cancelSelection st)))
    (hup : st.selectedLayer < st.layers - 1 →
      P (.normal (changeLayer (st.selectedLayer + 1) st)))
    (hdown : st.selectedLayer > 0 → P (.normal (changeLayer (st.selectedLayer - 1) st)))
    (hmode : ∀ mode, P (changeMode catalog mode st))
    (hsame : P (.normal st)) :
    P (keyDownHandler catalog random keyCode st) := by
  unfold keyDownHandler
  by_cases hactive : st.controlsActive = true
  swap
  · rw [if_neg hactive]
    exact hsame
  rw [if_pos hactive]
  by_cases k : keyCode = KEYS.LEFT_ARROW
  · rw [if_pos k]
    exact hmove DIRECTIONS.LEFT
  rw [if_neg k]
  clear k
  by_cases k : keyCode = KEYS.UP_ARROW
  · rw [if_pos k]
    exact hmove DIRECTIONS.UP
  rw [if_neg k]
  clear k
  by_cases k : keyCode = KEYS.RIGHT_ARROW
  · rw [if_pos k]
    exact hmove DIRECTIONS.RIGHT
  rw [if_neg k]
  clear k
  by_cases k : keyCode = KEYS.DOWN_ARROW
  · rw [if_pos k]
    exact hmove DIRECTIONS.DOWN
  rw [if_neg k]
  clear k
  by_cases k : keyCode = KEYS.ENTER
  · rw [if_pos k]
    exact hselect
  rw [if_neg k]
  clear k
  by_cases k : keyCode = KEYS.ESC
  · rw [if_pos k]
    exact hcancel
  rw [if_neg k]
  clear k
  by_cases k : keyCode = KEYS.LEFT_ANGLE
  · rw [if_pos k]
    by_cases h : st.selectedLayer < st.layers - 1
    · rw [if_pos h]
      exact hup h
    · rw [if_neg h]
      exact hsame
  rw [if_neg k]
  clear k
  by_cases k : keyCode = KEYS.RIGHT_ANGLE
  · rw [if_pos k]
    by_cases h : st.selectedLayer > 0
    · rw [if_pos h]
      exact hdown h
    · rw [if_neg h]
      exact hsame
  rw [if_neg k]
  clear k
  by_cases k : keyCode = KEYS.EQUALS
  · rw [if_pos k]
    exact hmode MODES.DOOR
  rw [if_neg k]
  clear k
  by_cases k : keyCode = KEYS.A
  · rw [if_pos k]
    exact hmode MODES.WATER
  rw [if_neg k]
  clear k
  by_cases k : keyCode = KEYS.E
  · rw [if_pos k]
    exact hmode MODES.EMPTY
  rw [if_neg k]
  clear k
  by_cases k : keyCode = KEYS.D
  · rw [if_pos k]
    exact hmode MODES.DIG
  rw [if_neg k]
  clear k
  by_cases k : keyCode = KEYS.W
  · rw [if_pos k]
    exact hmode MODES.WALL
  rw [if_neg k]
  clear k
  by_cases k : keyCode = KEYS.O
  · rw [if_pos k]
    exact hmode MODES.CARPENTER
  rw [if_neg k]
  clear k
  by_cases k : keyCode = KEYS.R
  · rw [if_pos k]
    exact hmode MODES.RAMP
  rw [if_neg k]
  clear k
  by_cases k : keyCode = KEYS.S
  · rw [if_pos k]
    exact hmode MODES.STAIRS
  rw [if_neg k]
  clear k
  by_cases k : keyCode = KEYS.F
  · rw [if_pos k]
    exact hmode MODES.FARM
  rw [if_neg k]
  clear k
  by_cases k : keyCode = KEYS.G
  · rw [if_pos k]
    exact hmode MODES.GRASS
  rw [if_neg k]
  clear k
  by_cases k : keyCode = KEYS.T
  · rw [if_pos k]
    exact hmode MODES.TABLE
  rw [if_neg k]
  clear k
  by_cases k : keyCode = KEYS.P
  · rw [if_pos k]
    exact hmode MODES.TRADE_DEPOT
  rw [if_neg k]
  clear k
  exact hsame

/-- C25: a state whose cursor lies inside the grid, and any key code.  After
`keyDownHandler` (however it ends) the dimensions are the same and the cursor still lies
inside the grid.  Each `move(dir)` leaves one of `selectedCellX`, `selectedCellY` as it
was and the other within 1 of what it was: UP and LEFT decrement their coordinate unless
it is 0, DOWN and RIGHT increment theirs unless it is the last row or column. -/
theorem keyDownHandler_cursor_in_bounds (catalog : Nat → Option Mode) (random : Nat → ℚ)
    (keyCode : Nat) (st : State)
    (hcursor : InBounds st st.selectedLayer st.selectedCellX st.selectedCellY) :
    InBounds (keyDownHandler catalog random keyCode st).state
      (keyDownHandler catalog random keyCode st).state.selectedLayer
      (keyDownHandler catalog random keyCode st).state.selectedCellX
      (keyDownHandler catalog random keyCode st).state.selectedCellY ∧
    (keyDownHandler catalog random keyCode st).state.layers = st.layers ∧
    (keyDownHandler catalog random keyCode st).state.layerRows = st.layerRows ∧
    (keyDownHandler catalog random keyCode st).state.layerColumns = st.layerColumns ∧
    ∀ dir : Nat,
      ((move dir st).selectedCellX = st.selectedCellX ∨
        (move dir st).selectedCellY = st.selectedCellY) ∧
      st.selectedCellX - 1 ≤ (move dir st).selectedCellX ∧
      (move dir st).selectedCellX ≤ st.selectedCellX + 1 ∧
      st.selectedCellY - 1 ≤ (move dir st).selectedCellY ∧
      (move dir st).selectedCellY ≤ st.selectedCellY + 1 ∧
      (dir = DIRECTIONS.UP → (move dir st).selectedCellX = st.selectedCellX ∧
        (move dir st).selectedCellY =
          if st.selectedCellY = 0 then 0 else st.selectedCellY - 1) ∧
      (dir = DIRECTIONS.LEFT → (move dir st).selectedCellY = st.selectedCellY ∧
        (move dir st).selectedCellX =
          if st.selectedCellX = 0 then 0 else st.selectedCellX - 1) ∧
      (dir = DIRECTIONS.DOWN → (move dir st).selectedCellX = st.selectedCellX ∧
        (move dir st).selectedCellY =
          if st.selectedCellY = st.layerRows - 1 then st.layerRows - 1
          else st.selectedCellY + 1) ∧
      (dir = DIRECTIONS.RIGHT → (move dir st).selectedCellY = st.selectedCellY ∧
        (move dir st).selectedCellX =
          if st.selectedCellX = st.layerColumns - 1 then st.layerColumns - 1
          else st.selectedCellX + 1) := by
  have hmove : ∀ dir, InBounds (Completion.normal (move dir st)).state
      (Completion.normal (move dir st)).state.selectedLayer
      (Completion.normal (move dir st)).state.selectedCellX
      (Completion.normal (move dir st)).state.selectedCellY ∧
      (Completion.normal (move dir st)).state.layers = st.layers ∧
      (Completion.normal (move dir st)).state.layerRows = st.layerRows ∧
      (Completion.normal (move dir st)).state.layerColumns = st.layerColumns := fun dir =>
    ⟨move_inBounds dir st hcursor, (move_cursor dir st).2.2.2.2.1,
      (move_cursor dir st).2.2.2.2.2.1, (move_cursor dir st).2.2.2.2.2.2⟩
  have hmode : ∀ mode, InBounds (changeMode catalog mode st).state
      (changeMode catalog mode st).state.selectedLayer
      (changeMode catalog mode st).state.selectedCellX
      (changeMode catalog mode st).state.selectedCellY ∧
      (changeMode catalog mode st).state.layers = st.layers ∧
      (changeMode catalog mode st).state.layerRows = st.layerRows ∧
      (changeMode catalog mode st).state.layerColumns = st.layerColumns := fun mode => by
    obtain ⟨hx, hy, hz, hl, hr, hc⟩ := changeMode_cursor catalog mode st
    exact ⟨inBounds_of_same_cursor hcursor hx hy hz hl hr hc, hl, hr, hc⟩
  have hsame : InBounds (Completion.normal st).state (Completion.normal st).state.selectedLayer
      (Completion.normal st).state.selectedCellX (Completion.normal st).state.selectedCellY ∧
      (Completion.normal st).state.layers = st.layers ∧
      (Completion.normal st).state.layerRows = st.layerRows ∧
      (Completion.normal st).state.layerColumns = st.layerColumns := ⟨hcursor, rfl, rfl, rfl⟩
  have hhandler : InBounds (keyDownHandler catalog random keyCode st).state
      (keyDownHandler catalog random keyCode st).state.selectedLayer
      (keyDownHandler catalog random keyCode st).state.selectedCellX
      (keyDownHandler catalog random keyCode st).state.selectedCellY ∧
      (keyDownHandler catalog random keyCode st).state.layers = st.layers ∧
      (keyDownHandler catalog random keyCode st).state.layerRows = st.layerRows ∧
      (keyDownHandler catalog random keyCode st).state.layerColumns = st.layerColumns := by
    refine keyDownHandler_cases catalog random keyCode st
      (fun result => InBounds result.state result.state.selectedLayer
        result.state.selectedCellX result.state.selectedCellY ∧
        result.state.layers = st.layers ∧ result.state.layerRows = st.layerRows ∧
        result.state.layerColumns = st.layerColumns) hmove ?_ ?_ ?_ ?_ hmode hsame
    · obtain ⟨hx, hy, hz, -, hl, hr, hc, -⟩ := cellSelect_frame catalog random st
      exact ⟨inBounds_of_same_cursor hcursor hx hy hz hl hr hc, hl, hr, hc⟩
    · obtain ⟨hx, hy, hz, -, hl, hr, hc⟩ := cancelSelection_cursor st
      exact ⟨inBounds_of_same_cursor hcursor hx hy hz hl hr hc, hl, hr, hc⟩
    · intro h7
      refine ⟨?_, rfl, rfl, rfl⟩
      obtain ⟨h0, h1, h2, h3, h4, h5⟩ := hcursor
      exact ⟨by show 0 ≤ st.selectedLayer + 1; omega,
        by show st.selectedLayer + 1 < st.layers; omega, h2, h3, h4, h5⟩
    · intro h8
      refine ⟨?_, rfl, rfl, rfl⟩
      obtain ⟨h0, h1, h2, h3, h4, h5⟩ := hcursor
      exact ⟨by show 0 ≤ st.selectedLayer - 1; omega,
        by show st.selectedLayer - 1 < st.layers; omega, h2, h3, h4, h5⟩
  refine ⟨hhandler.1, hhandler.2.1, hhandler.2.2.1, hhandler.2.2.2, fun dir => ?_⟩
  obtain ⟨hx, hy, -⟩ := move_cursor dir st
  obtain ⟨h0, h1, h2, h3, h4, h5⟩ := hcursor
  rw [hx, hy]
  refine ⟨?_, ?_, ?_, ?_, ?_, ?_, ?_, ?_, ?_⟩
  · by_cases hl : dir = DIRECTIONS.LEFT
    · right
      have n1 : ¬ dir = DIRECTIONS.UP := by rw [hl]; decide
      have n2 : ¬ dir = DIRECTIONS.DOWN := by rw [hl]; decide
      rw [if_neg n1, if_neg n2]
    · by_cases hr : dir = DIRECTIONS.RIGHT
      · right
        have n1 : ¬ dir = DIRECTIONS.UP := by rw [hr]; decide
        have n2 : ¬ dir = DIRECTIONS.DOWN := by rw [hr]; decide
        rw [if_neg n1, if_neg n2]
      · left
        rw [if_neg hl, if_neg hr]
  · split_ifs <;> omega
  · split_ifs <;> omega
  · split_ifs <;> omega
  · split_ifs <;> omega
  · intro hd
    have n1 : ¬ dir = DIRECTIONS.LEFT := by rw [hd]; decide
    have n2 : ¬ dir = DIRECTIONS.RIGHT := by rw [hd]; decide
    rw [if_neg n1, if_neg n2, if_pos hd]
    refine ⟨rfl, ?_⟩
    split_ifs <;> omega
  · intro hd
    have n1 : ¬ dir = DIRECTIONS.UP := by rw [hd]; decide
    have n2 : ¬ dir = DIRECTIONS.DOWN := by rw [hd]; decide
    rw [if_neg n1, if_neg n2, if_pos hd]
    refine ⟨rfl, ?_⟩
    split_ifs <;> omega
  · intro hd
    have n1 : ¬ dir = DIRECTIONS.LEFT := by rw [hd]; decide
    have n2 : ¬ dir = DIRECTIONS.RIGHT := by rw [hd]; decide
    have n3 : ¬ dir = DIRECTIONS.UP := by rw [hd]; decide
    rw [if_neg n1, if_neg n2, if_neg n3, if_pos hd]
    refine ⟨rfl, ?_⟩
    split_ifs <;> omega
  · intro hd
    have n1 : ¬ dir = DIRECTIONS.LEFT := by rw [hd]; decide
    have n2 : ¬ dir = DIRECTIONS.UP := by rw [hd]; decide
    have n3 : ¬ dir = DIRECTIONS.DOWN := by rw [hd]; decide
    rw [if_neg n1, if_pos hd, if_neg n2, if_neg n3]
    refine ⟨rfl, ?_⟩
    split_ifs <;> omega

/-- C25 at the state the editor starts in, whose cursor is on column 0: the key LEFT_ARROW
leaves the cursor inside the grid. -/
theorem keyDownHandler_cursor_in_bounds_witness :
    InBounds initialState initialState.selectedLayer initialState.selectedCellX
      initialState.selectedCellY ∧
    InBounds (keyDownHandler MODES.properties (fun _ => 0) KEYS.LEFT_ARROW initialState).state
      (keyDownHandler MODES.properties (fun _ => 0) KEYS.LEFT_ARROW initialState).state.selectedLayer
      (keyDownHandler MODES.properties (fun _ => 0) KEYS.LEFT_ARROW initialState).state.selectedCellX
      (keyDownHandler MODES.properties (fun _ => 0) KEYS.LEFT_ARROW initialState).state.selectedCellY :=
  ⟨by decide,
   (keyDownHandler_cursor_in_bounds MODES.properties (fun _ => 0) KEYS.LEFT_ARROW initialState
     (by decide)).1⟩


/-! ## The free-style commit: what it writes, and what it leaves -/

/-- The loop of the free-style commit, however it ends, leaves every cell that is not in
the list as it was. -/
theorem forEachC_placeMaterial_frame (materials : List ModeMaterial) (random : Nat → ℚ)
    (cells : List Cell) :
    ∀ (s : Grid × Nat) (l y x : Int), ({ x := x, y := y, z := l } : Cell) ∉ cells →
      readCell (forEachC (placeMaterial materials random) cells s).state.1 l y x =
        readCell s.1 l y x := by
  induction cells with
  | nil => intro s l y x _; rfl
  | cons c cs ih =>
    intro s l y x hnot
    rw [List.mem_cons, not_or] at hnot
    simp only [forEachC, placeMaterial]
    cases chooseMaterial materials (random s.2) with
    | none => rfl
    | some material =>
      simp only []
      cases hw : writeCell s.1 c.z c.y c.x material.value with
      | none => rfl
      | some map1 =>
        simp only []
        rw [ih (map1, s.2 + 1) l y x hnot.2]
        show readCell map1 l y x = _
        rw [readCell_writeCell hw]
        have : ¬ (l = c.z ∧ y = c.y ∧ x = c.x) := by
          rintro ⟨rfl, rfl, rfl⟩
          exact hnot.1 rfl
        rw [if_neg this]

/-- The cells of a free-style selection are those of the inclusive box. -/
theorem getSelectedCells_free_mem (MODES : Nat → Option Mode) (st : State) (mode : Mode)
    (hm : MODES st.selectedMode = some mode) (hs : mode.selection.style ≠ "fixed") :
    ∃ cells, getSelectedCells MODES st = some cells ∧
      ∀ x y z : Int, ({ x := x, y := y, z := z } : Cell) ∈ cells ↔ InBoxSpec st x y z := by
  refine ⟨_, getSelectedCells_free_eq MODES st mode hm hs, fun x y z => ?_⟩
  have hmem := mem_freeCells st.selectedSourceCellX st.selectedSourceCellY
    st.selectedSourceLayer (st.selectedCellX - st.selectedSourceCellX)
    (st.selectedCellY - st.selectedSourceCellY) (st.selectedLayer - st.selectedSourceLayer)
    { x := x, y := y, z := z }
  simp only [add_sub_cancel] at hmem
  rw [hmem]
  unfold InBoxSpec
  constructor
  · rintro ⟨⟨h1, h2⟩, ⟨h3, h4⟩, h5, h6⟩
    exact ⟨h1, h2, h3, h4, h5, h6⟩
  · rintro ⟨h1, h2, h3, h4, h5, h6⟩
    exact ⟨⟨h1, h2⟩, ⟨h3, h4⟩, h5, h6⟩

/-- The free-style branch of `cellSelect` with a selection in progress, in terms of its
loop: the grid left is the grid the loop reached, an error is raised exactly if the loop
raised one, and the selection stays in progress exactly in that case. -/
theorem cellSelect_free_loop (MODES : Nat → Option Mode) (random : Nat → ℚ) (st : State)
    (mode : Mode) (cells : List Cell) (hm : MODES st.selectedMode = some mode)
    (hstyle : mode.selection.style = "free") (hprogress : st.selectionInProgress = true)
    (hcells : getSelectedCells MODES st = some cells) :
    (cellSelect MODES random st).state.map =
      (forEachC (placeMaterial mode.materials random) cells (st.map, 0)).state.1 ∧
    (cellSelect MODES random st).raised =
      (forEachC (placeMaterial mode.materials random) cells (st.map, 0)).raised ∧
    (cellSelect MODES random st).state.selectionInProgress =
      (forEachC (placeMaterial mode.materials random) cells (st.map, 0)).raised := by
  unfold cellSelect
  simp only [hprogress, if_true, hm, hstyle, hcells]
  cases forEachC (placeMaterial mode.materials random) cells (st.map, 0) with
  | normal s => simp [Completion.state, Completion.raised]
  | typeError s => simp [Completion.state, Completion.raised, hprogress]

/-- A recipe that covers the draws and a draw below 1: a material is chosen. -/
theorem chooseMaterial_covers (materials : List ModeMaterial) (r : ℚ)
    (hcovers : RecipeCoversDraws materials) (hr : r < 1) :
    ∃ m ∈ materials, chooseMaterial materials r = some m := by
  rcases hcovers with hone | ⟨hlen, htotal⟩
  · cases hmat : materials with
    | nil => rw [hmat] at hone; cases hone
    | cons m rest =>
      rw [hmat] at hone
      have hrest : rest = [] := List.length_eq_zero.mp (by simpa using hone)
      subst hrest
      exact ⟨m, List.mem_cons_self _ _, by simp [chooseMaterial]⟩
  · obtain ⟨i, m, -, hmem, hchoose, -, -⟩ := chooseMaterial_of_total materials r hlen htotal hr
    exact ⟨m, hmem, hchoose⟩

/-- Every free-style mode of the catalog covers the draws: nine have a single recipe
entry, and the running totals of the grass recipe are the doubles 0.83, 0.98 and 1. -/
theorem modes_cover_draws (key : Nat) (mode : Mode) (h : MODES.properties key = some mode)
    (hstyle : mode.selection.style = "free") : RecipeCoversDraws mode.materials := by
  have hlt := modes_properties_lt h
  interval_cases key <;> simp only [ MODES.properties, Option.some.injEq] at h <;> subst h
  · exact Or.inl rfl
  · exact Or.inl rfl
  · exact Or.inl rfl
  · exact Or.inl rfl
  · exact Or.inl rfl
  · exact Or.inl rfl
  · exact Or.inl rfl
  · exact Or.inl rfl
  · exact Or.inl rfl
  · exact Or.inr ⟨by decide, by decide!⟩
  · exact absurd hstyle (by decide)
  · exact absurd hstyle (by decide)
  · exact absurd hstyle (by decide)

/-- The box between an anchor and a cursor inside the grid lies inside the grid. -/
theorem inBounds_of_inBox {st : State} {x y z : Int}
    (hanchor : InBounds st st.selectedSourceLayer st.selectedSourceCellX st.selectedSourceCellY)
    (hcursor : InBounds st st.selectedLayer st.selectedCellX st.selectedCellY)
    (hbox : InBoxSpec st x y z) : InBounds st z x y := by
  unfold InBounds at *
  unfold InBoxSpec at hbox
  simp only [min_def, max_def] at hbox
  obtain ⟨h1, h2, h3, h4, h5, h6⟩ := hbox
  obtain ⟨a0, a1, a2, a3, a4, a5⟩ := hanchor
  obtain ⟨c0, c1, c2, c3, c4, c5⟩ := hcursor
  refine ⟨?_, ?_, ?_, ?_, ?_, ?_⟩
  · split_ifs at h5 <;> omega
  · split_ifs at h6 <;> omega
  · split_ifs at h1 <;> omega
  · split_ifs at h2 <;> omega
  · split_ifs at h3 <;> omega
  · split_ifs at h4 <;> omega

/-- The free-style commit when every draw chooses a material: `cellSelect` ends normally,
the outer dimensions of the grid are kept and every cell of the box holds the value of a
recipe entry. -/
theorem cellSelect_free_commit (MODES : Nat → Option Mode) (random : Nat → ℚ) (st : State)
    (mode : Mode) (hm : MODES st.selectedMode = some mode)
    (hstyle : mode.selection.style = "free") (hprogress : st.selectionInProgress = true)
    (hd : GridDims st.map st.layers st.layerRows)
    (hanchor : InBounds st st.selectedSourceLayer st.selectedSourceCellX st.selectedSourceCellY)
    (hcursor : InBounds st st.selectedLayer st.selectedCellX st.selectedCellY)
    (hpick : ∀ k, ∃ m ∈ mode.materials, chooseMaterial mode.materials (random k) = some m) :
    (cellSelect MODES random st).raised = false ∧
    (cellSelect MODES random st).state.selectionInProgress = false ∧
    GridDims (cellSelect MODES random st).state.map st.layers st.layerRows ∧
    ∀ x y z : Int, InBoxSpec st x y z →
      ∃ m ∈ mode.materials,
        readCell (cellSelect MODES random st).state.map z y x = some (.num m.value) := by
  have hnf : mode.selection.style ≠ "fixed" := by rw [hstyle]; decide
  obtain ⟨cells, hcells, hmem⟩ := getSelectedCells_free_mem MODES st mode hm hnf
  obtain ⟨h1, h2, h3⟩ := cellSelect_free_loop MODES random st mode cells hm hstyle hprogress
    hcells
  obtain ⟨map', hrun, hd', -, hval⟩ := forEachC_placeMaterial mode.materials random st.layers
    st.layerRows hpick cells st.map 0 hd (fun c hc => by
      have hb := inBounds_of_inBox hanchor hcursor ((hmem c.x c.y c.z).mp hc)
      exact ⟨hb.1, hb.2.1, hb.2.2.2.2.1, hb.2.2.2.2.2⟩)
  rw [hrun] at h1 h2 h3
  refine ⟨h2, h3, ?_, fun x y z hbox => ?_⟩
  · rw [h1]
    exact hd'
  · rw [h1]
    exact hval z y x ((hmem x y z).mpr hbox)


/-! ## Exposure after a free-style commit -/

/-- C21: a free-style mode whose recipe is the single entry `m`, with `m.value` not STONE
(such as "Dig Flooring"), a selection in progress, anchor and cursor inside a well-formed
grid.  `cellSelect` ends normally, and in the state it leaves `cellIsExposed` returns true
for every cell inside the grid that is one of the 8 same-layer neighbours of a cell of the
box; if such a cell holds STONE, `getCellProperties` returns for it the STONE descriptor
(the stone colour made opaque, standard display, no glyph), not "nothing to draw". -/
theorem cellSelect_exposes_neighbours (MODES : Nat → Option Mode) (random : Nat → ℚ)
    (st : State) (mode : Mode) (m : ModeMaterial) (hm : MODES st.selectedMode = some mode)
    (hstyle : mode.selection.style = "free") (hrecipe : mode.materials = [m])
    (hstone : m.value ≠ MATERIALS.STONE)
    (hprogress : st.selectionInProgress = true) (hg : GridOk st)
    (hanchor : InBounds st st.selectedSourceLayer st.selectedSourceCellX st.selectedSourceCellY)
    (hcursor : InBounds st st.selectedLayer st.selectedCellX st.selectedCellY) :
    (cellSelect MODES random st).raised = false ∧
    ∀ column row x y z : Int, InBounds st z column row → InBoxSpec st x y z →
      NeighbourSpec column row x y →
      cellIsExposed (cellSelect MODES random st).state z column row = some true ∧
      (readCell (cellSelect MODES random st).state.map z row column =
          some (.num MATERIALS.STONE) →
        getCellProperties (cellSelect MODES random st).state z column row
          (.num MATERIALS.STONE) 0 =
          some { color := "#8c8c8cff", display := "standard", character := .null }) := by
  have hpick : ∀ k, ∃ m' ∈ mode.materials,
      chooseMaterial mode.materials (random k) = some m' := by
    intro k
    rw [hrecipe]
    exact ⟨m, List.mem_singleton.mpr rfl, by simp [chooseMaterial]⟩
  obtain ⟨hraised, -, hd', hval⟩ := cellSelect_free_commit MODES random st mode hm hstyle
    hprogress hg.dims hanchor hcursor hpick
  obtain ⟨-, -, -, -, hl, hr, hc, -⟩ := cellSelect_frame MODES random st
  refine ⟨hraised, fun column row x y z hb hbox hn => ?_⟩
  generalize cellSelect MODES random st = result at hd' hval hl hr hc
  have hds : GridDims result.state.map result.state.layers result.state.layerRows := by
    rw [hl, hr]
    exact hd'
  have hbs : InBounds result.state z column row := by
    unfold InBounds at hb ⊢
    rw [hl, hr, hc]
    exact hb
  obtain ⟨b, hb1, hb2⟩ := cellIsExposed_spec result.state z column row hds hbs
  have hin := inBounds_of_inBox hanchor hcursor hbox
  obtain ⟨hn1, hn2, hn3⟩ := hn
  have hexp : ExposedSpec result.state z column row := by
    refine ⟨y - row, by simpa using hn2, x - column, by simpa using hn1, by omega, ?_⟩
    rw [add_sub_cancel, add_sub_cancel, hr, hc]
    refine ⟨hin.2.2.2.2.1, hin.2.2.2.2.2, hin.2.2.1, hin.2.2.2.1, ?_⟩
    obtain ⟨m', hm', hread⟩ := hval x y z hbox
    rw [hrecipe, List.mem_singleton] at hm'
    rw [hread, hm']
    intro h
    injection h with h
    injection h with h
    exact hstone h
  have htrue : cellIsExposed result.state z column row = some true := by
    rw [hb1, hb2.mpr hexp]
  refine ⟨htrue, fun _ => ?_⟩
  rw [getCellProperties_stone result.state z column row 0 (by decide), htrue]
  decide

/-- C21 at a concrete state: "Dig Flooring" committed on the single cell at column 0, row
0 of a 3 by 2 stone layer. -/
theorem cellSelect_exposes_neighbours_witness :
    GridOk (exampleState [[[2, 2], [2, 2], [2, 2]]] 3 2 0 0 0 0 0 0 0 true) ∧
    (cellSelect MODES.properties (fun _ => 0)
      (exampleState [[[2, 2], [2, 2], [2, 2]]] 3 2 0 0 0 0 0 0 0 true)).raised = false ∧
    cellIsExposed (cellSelect MODES.properties (fun _ => 0)
      (exampleState [[[2, 2], [2, 2], [2, 2]]] 3 2 0 0 0 0 0 0 0 true)).state 0 1 1 =
      some true :=
  ⟨by decide,
   (cellSelect_exposes_neighbours MODES.properties (fun _ => 0)
     (exampleState [[[2, 2], [2, 2], [2, 2]]] 3 2 0 0 0 0 0 0 0 true) _ (MODES.sure 1)
     rfl rfl rfl (by decide) rfl (by decide) (by decide) (by decide)).1,
   ((cellSelect_exposes_neighbours MODES.properties (fun _ => 0)
     (exampleState [[[2, 2], [2, 2], [2, 2]]] 3 2 0 0 0 0 0 0 0 true) _ (MODES.sure 1)
     rfl rfl rfl (by decide) rfl (by decide) (by decide) (by decide)).2
     1 1 0 0 0 (by decide) (by decide) (by decide)).1⟩

/-! ## The frame of a free-style commit -/

/-- C23: a free-style mode, whatever the length of its recipe, a selection in progress,
anchor and cursor inside a well-formed grid, and any values of `Math.random()`.  In the
state `cellSelect` leaves, every cell outside the inclusive box between anchor and cursor
reads as before, and the cursor, the anchor and the active mode are as before.  When the
recipe covers the draws (it has a single entry, or the running total of its chances, added
up in doubles as the code adds them, is 1 or more) and the values of `Math.random()` are
below 1, `cellSelect` ends normally and `selectionInProgress` is false.  Every free-style
mode of the catalog `MODES.properties` has such a recipe. -/
theorem cellSelect_free_frame (MODES : Nat → Option Mode) (random : Nat → ℚ) (st : State)
    (mode : Mode) (hm : MODES st.selectedMode = some mode)
    (hstyle : mode.selection.style = "free") (hprogress : st.selectionInProgress = true)
    (hg : GridOk st)
    (hanchor : InBounds st st.selectedSourceLayer st.selectedSourceCellX st.selectedSourceCellY)
    (hcursor : InBounds st st.selectedLayer st.selectedCellX st.selectedCellY) :
    (∀ x y z : Int, ¬ InBoxSpec st x y z →
      readCell (cellSelect MODES random st).state.map z y x = readCell st.map z y x) ∧
    (cellSelect MODES random st).state.selectedCellX = st.selectedCellX ∧
    (cellSelect MODES random st).state.selectedCellY = st.selectedCellY ∧
    (cellSelect MODES random st).state.selectedLayer = st.selectedLayer ∧
    (cellSelect MODES random st).state.selectedSourceCellX = st.selectedSourceCellX ∧
    (cellSelect MODES random st).state.selectedSourceCellY = st.selectedSourceCellY ∧
    (cellSelect MODES random st).state.selectedSourceLayer = st.selectedSourceLayer ∧
    (cellSelect MODES random st).state.selectedMode = st.selectedMode ∧
    (RecipeCoversDraws mode.materials → (∀ k, random k < 1) →
      (cellSelect MODES random st).raised = false ∧
      (cellSelect MODES random st).state.selectionInProgress = false) ∧
    (∀ (key : Nat) (catalogMode : Mode),
      DwarfFortressPlanner.MODES.properties key = some catalogMode →
      catalogMode.selection.style = "free" → RecipeCoversDraws catalogMode.materials) := by
  have hnf : mode.selection.style ≠ "fixed" := by rw [hstyle]; decide
  obtain ⟨cells, hcells, hmem⟩ := getSelectedCells_free_mem MODES st mode hm hnf
  obtain ⟨h1, -, -⟩ := cellSelect_free_loop MODES random st mode cells hm hstyle hprogress
    hcells
  obtain ⟨hx, hy, hz, hmode, -, -, -, hsource⟩ := cellSelect_frame MODES random st
  obtain ⟨hsx, hsy, hsz⟩ := hsource hprogress
  refine ⟨fun x y z hbox => ?_, hx, hy, hz, hsx, hsy, hsz, hmode, fun hcovers hrandom => ?_,
    modes_cover_draws⟩
  · rw [h1]
    exact forEachC_placeMaterial_frame mode.materials random cells (st.map, 0) z y x
      (fun h => hbox ((hmem x y z).mp h))
  · obtain ⟨hraised, hflag, -, -⟩ := cellSelect_free_commit MODES random st mode hm hstyle
      hprogress hg.dims hanchor hcursor
      (fun k => chooseMaterial_covers mode.materials (random k) hcovers (hrandom k))
    exact ⟨hraised, hflag⟩

/-- C23 at a concrete state: "Place Grass" (three recipe entries) committed on the box
between anchor `(0, 0, 0)` and cursor `(1, 1, 0)` of a 3 by 2 stone layer, every value of
`Math.random()` being 1/2. -/
theorem cellSelect_free_frame_witness :
    GridOk (exampleState [[[2, 2], [2, 2], [2, 2]]] 3 2 9 1 1 0 0 0 0 true) ∧
    (∀ x y z : Int,
      ¬ InBoxSpec (exampleState [[[2, 2], [2, 2], [2, 2]]] 3 2 9 1 1 0 0 0 0 true) x y z →
      readCell (cellSelect MODES.properties (fun _ => 1 / 2)
        (exampleState [[[2, 2], [2, 2], [2, 2]]] 3 2 9 1 1 0 0 0 0 true)).state.map z y x =
        readCell (exampleState [[[2, 2], [2, 2], [2, 2]]] 3 2 9 1 1 0 0 0 0 true).map z y x) ∧
    (cellSelect MODES.properties (fun _ => 1 / 2)
      (exampleState [[[2, 2], [2, 2], [2, 2]]] 3 2 9 1 1 0 0 0 0 true)).raised = false ∧
    (cellSelect MODES.properties (fun _ => 1 / 2)
      (exampleState [[[2, 2], [2, 2], [2, 2]]] 3 2 9 1 1 0 0 0 0 true)).state.selectionInProgress =
      false :=
  ⟨by decide,
   (cellSelect_free_frame MODES.properties (fun _ => 1 / 2)
     (exampleState [[[2, 2], [2, 2], [2, 2]]] 3 2 9 1 1 0 0 0 0 true) _ rfl rfl rfl
     (by decide) (by decide) (by decide)).1,
   (cellSelect_free_frame MODES.properties (fun _ => 1 / 2)
     (exampleState [[[2, 2], [2, 2], [2, 2]]] 3 2 9 1 1 0 0 0 0 true) _ rfl rfl rfl
     (by decide) (by decide) (by decide)).2.2.2.2.2.2.2.2.1
     (modes_cover_draws 9 _ rfl rfl) (fun _ => by norm_num)⟩


/-! ## The selection flag along every run of the editor -/

/-- With no selection in progress, `cellSelect` leaves one in progress only through its
first stage, which asks for a mode of free or copy style. -/
theorem cellSelect_selectionFlag (MODES : Nat → Option Mode) (random : Nat → ℚ) (st : State)
    (h : SelectionFlagSpec MODES st) :
    SelectionFlagSpec MODES (cellSelect MODES random st).state := by
  obtain ⟨-, -, -, hmode, -⟩ := cellSelect_frame MODES random st
  intro hflag
  rw [hmode]
  cases hp : st.selectionInProgress with
  | true => exact h hp
  | false =>
    cases hm : MODES st.selectedMode with
    | none =>
      exfalso
      unfold cellSelect at hflag
      simp [hp, hm, Completion.state] at hflag
    | some mode =>
      refine ⟨mode, rfl, ?_⟩
      by_contra hnot
      have hfree : mode.selection.style ≠ "free" := fun hf => hnot (Or.inl hf)
      have hcopy : mode.selection.style ≠ "copy" := fun hc => hnot (Or.inr hc)
      unfold cellSelect at hflag
      simp only [hp, hm, hfree, hcopy, or_self, and_false, if_false, Bool.false_eq_true] at hflag
      split at hflag
      · split at hflag <;> simp [Completion.state] at hflag
      · simp [Completion.state] at hflag

theorem changeMode_selectionFlag (MODES : Nat → Option Mode) (mode : Nat) (st : State)
    (hmode : (MODES mode).isSome = true) (h : SelectionFlagSpec MODES st) :
    SelectionFlagSpec MODES (changeMode MODES mode st).state := by
  unfold changeMode
  cases hm : MODES st.selectedMode with
  | none => exact h
  | some previous =>
    cases hc : MODES mode with
    | none => rw [hc] at hmode; cases hmode
    | some current =>
      simp only []
      split_ifs with hstyle
      · intro hflag
        cases hflag
      · intro hflag
        obtain ⟨mode', hm', hs⟩ := h hflag
        rw [hm] at hm'
        cases hm'
        have heq : current.selection.style = previous.selection.style := not_not.mp hstyle
        exact ⟨current, hc, by rw [heq]; exact hs⟩

theorem command_selectionFlag (MODES : Nat → Option Mode) (c : Command) (st : State)
    (hc : c.ofCatalog MODES) (h : SelectionFlagSpec MODES st) :
    SelectionFlagSpec MODES (c.run MODES st) := by
  cases c with
  | cellSelect random => exact cellSelect_selectionFlag MODES random st h
  | changeMode mode => exact changeMode_selectionFlag MODES mode st hc h
  | cancelSelection =>
    intro hflag
    have := (cancelSelection_frame st).2
    simp only [Command.run] at hflag
    rw [this] at hflag
    cases hflag
  | move dir =>
    intro hflag
    simp only [Command.run] at hflag ⊢
    rw [(move_frame dir st).2.1] at hflag
    rw [(move_cursor dir st).2.2.2.1]
    exact h hflag
  | changeLayer layer => exact h

theorem commands_selectionFlag (MODES : Nat → Option Mode) (cmds : List Command) :
    ∀ st : State, (∀ c ∈ cmds, c.ofCatalog MODES) → SelectionFlagSpec MODES st →
      SelectionFlagSpec MODES (cmds.foldl (Command.run MODES) st) := by
  induction cmds with
  | nil => intro st _ h; exact h
  | cons c cs ih =>
    intro st hc h
    exact ih _ (fun c' hc' => hc c' (List.mem_cons_of_mem _ hc'))
      (command_selectionFlag MODES c st (hc c (List.mem_cons_self _ _)) h)

/-- C24: in every state reached from the initial state by a sequence of `cellSelect`,
`changeMode` (to a key of the catalog), `cancelSelection`, `move` and `changeLayer`,
whether a command ended normally or by a raised error, `selectionInProgress` is true only
if the active mode has a catalog entry of free or copy style.  And from any state,
`changeMode` to a mode whose selection style differs from that of the active mode ends
normally and leaves `selectionInProgress` false. -/
theorem reachable_selectionFlag (MODES : Nat → Option Mode) (st : State)
    (h : Reachable MODES st) :
    SelectionFlagSpec MODES st ∧
    ∀ (s : State) (mode : Nat) (previous current : Mode),
      MODES s.selectedMode = some previous → MODES mode = some current →
      current.selection.style ≠ previous.selection.style →
      (changeMode MODES mode s).raised = false ∧
      (changeMode MODES mode s).state.selectedMode = mode ∧
      (changeMode MODES mode s).state.selectionInProgress = false := by
  obtain ⟨cmds, hc, rfl⟩ := h
  refine ⟨commands_selectionFlag MODES cmds initialState hc (fun hflag => by cases hflag), ?_⟩
  intro s mode previous current hp hcur hne
  unfold changeMode
  simp only [hp, hcur, hne, ne_eq, not_false_eq_true, if_true]
  exact ⟨rfl, rfl, rfl⟩

/-- C24 at the state reached from the initial state by the two commands `changeMode(GRASS)`
and `cellSelect()`, in which a selection is in progress. -/
theorem reachable_selectionFlag_witness :
    Reachable MODES.properties
      ([Command.changeMode MODES.GRASS, Command.cellSelect (fun _ => 0)].foldl
        (Command.run MODES.properties) initialState) ∧
    ([Command.changeMode MODES.GRASS, Command.cellSelect (fun _ => 0)].foldl
      (Command.run MODES.properties) initialState).selectionInProgress = true ∧
    SelectionFlagSpec MODES.properties
      ([Command.changeMode MODES.GRASS, Command.cellSelect (fun _ => 0)].foldl
        (Command.run MODES.properties) initialState) :=
  ⟨⟨_, by simp [Command.ofCatalog, MODES.GRASS, MODES.properties], rfl⟩, rfl,
   (reachable_selectionFlag MODES.properties _
     ⟨_, by simp [Command.ofCatalog, MODES.GRASS, MODES.properties], rfl⟩).1⟩

end DwarfFortressPlanner
